import Mathlib

/-!
# Samah Store frontend: the build-time product sitemap generator

A shallow embedding of `scripts/generate-product-sitemap.js`, followed by
the parts of the application that the later sections are about: the SEO
utilities `src/utils/seo.js` (`normalizeUrl`, `updatePageMeta`,
`getProductSchema`), the colour swatches of the order pages (`getColorHex`),
`handleStatusUpdate` of `admin/AdminOrders.jsx` and `validateForm` of
`admin/AdminUsers.jsx`.

* JavaScript values that can come out of `JSON.parse` are the type `JSValue`
  (numbers are the integral ones); a missing property reads as `undefined`.
* Exceptions are the error side of `Except JSError`.
* The network is an oracle `Net`: the event that answers the `attempt`-th
  request for page `page`.  Every request the script can issue is one such pair,
  because the page index only grows and the attempt counter restarts per page.
* The wall clock is a function from the number of the read to a time value.
* The race between `main` and the global timer of 30000 ms is decided by a
  `Timing`, the duration of every request: the awaits of `main` are its
  requests and retry delays, its synchronous steps take no time, and the timer
  fires while the await is pending during which the 30000 ms are over.  An
  exception that nothing catches ends the process with exit code 1, as
  Node.js does.
* `JSON.parse`, the host-defined part of `Date.parse` and the numeric reading
  of a string are fields of `Runtime`: every theorem holds for all of them.
  The same goes for the string and number methods of the browser that the
  application calls (`StringHost`, `SchemaHost`).
* The document of the browser is the list of its elements in tree order, the
  elements of `document.head` first; `querySelector` finds the first element
  that matches, `appendChild` adds at the end of the head.
-/

namespace SamahStore

/-! ## JavaScript values -/

/-- A JavaScript value as `JSON.parse` can produce it, plus `undefined` for a
property that is not there.  `num` holds the integral numbers. -/
inductive JSValue where
  | undefined : JSValue
  | null : JSValue
  | bool (b : Bool) : JSValue
  | num (n : Int) : JSValue
  | str (s : String) : JSValue
  | arr (items : List JSValue) : JSValue
  | obj (fields : List (String × JSValue)) : JSValue

/-- The exceptions the script can meet: the two built-in kinds it can trigger
and `new Error(msg)`. -/
inductive JSError where
  | typeError : JSError
  | rangeError : JSError
  | error (msg : String) : JSError
  deriving DecidableEq, Repr

deriving instance DecidableEq for Except

/-! ## Printing a number -/

/-- The number of binary digits of `m`. -/
def bitLength (m : Nat) : Nat := (Nat.toDigits 2 m).length

/-- The Number value nearest to the natural number `m`: a Number has 53
significant bits, and a tie goes to the even one. -/
def roundToDouble (m : Nat) : Nat :=
  let bits := bitLength m
  if bits ≤ 53 then m
  else
    let unit := 2 ^ (bits - 53)
    let q := m / unit
    let r := m % unit
    if 2 * r > unit ∨ (2 * r = unit ∧ q % 2 = 1) then (q + 1) * unit else q * unit

/-- The decimal of `k` significant digits that `Number::toString` would print
for the Number `x`, when there is one: a multiple of `10 ^ (n - k)`, `n` the
number of digits of `x`, whose Number value is `x`; of two of them the one
closer to `x`, and the one with the even last digit when they are equally
close. -/
def shortestCandidate (x k : Nat) : Option Nat :=
  let unit := 10 ^ ((Nat.repr x).length - k)
  let low := x / unit * unit
  let high := low + unit
  let lowFits := roundToDouble low == x
  let highFits := roundToDouble high == x
  if lowFits && highFits then
    if x - low < high - x then some low
    else if high - x < x - low then some high
    else if (x / unit) % 2 = 0 then some low
    else some high
  else if lowFits then some low
  else if highFits then some high
  else none

/-- The decimal with the fewest significant digits whose Number value is the
Number `x`. -/
def shortestDecimal (x : Nat) : Nat :=
  ((List.range (Nat.repr x).length).findSome? (fun i => shortestCandidate x (i + 1))).getD x

/-- A list of digits without the zeros at its end. -/
def stripTrailingZeros (digits : List Char) : List Char :=
  (digits.reverse.dropWhile (fun c => c == '0')).reverse

/-- `Number::toString` on the Number value of an integer: the digits of the
shortest decimal that reads back as the same Number, written out in full when
they are at most 21, and else as `d.ddde+n`; an integer beyond the largest
Number is `Infinity`. -/
def numberToString (n : Int) : String :=
  let sign := if n < 0 then "-" else ""
  let x := roundToDouble n.natAbs
  if bitLength x > 1024 then sign ++ "Infinity"
  else
    let digits := (Nat.repr (shortestDecimal x)).data
    if digits.length ≤ 21 then sign ++ String.mk digits
    else
      match stripTrailingZeros digits with
      | [] => sign ++ String.mk digits
      | [d] => sign ++ String.mk [d] ++ "e+" ++ Nat.repr (digits.length - 1)
      | d :: more => sign ++ String.mk (d :: '.' :: more) ++ "e+" ++ Nat.repr (digits.length - 1)

namespace JSValue

/-- JavaScript `ToBoolean`: what `if (v)`, `!v`, `v && w`, `v || w` and
`v ? a : b` test. -/
def truthy : JSValue → Bool
  | undefined => false
  | null => false
  | bool b => b
  | num n => n != 0
  | str s => s != ""
  | arr _ => true
  | obj _ => true

/-- The test `v !== false`. -/
def notStrictlyFalse : JSValue → Bool
  | bool false => false
  | _ => true

/-- The call `Array.isArray(v)`. -/
def isArray : JSValue → Bool
  | arr _ => true
  | _ => false

/-- The first value stored under `key` in a field list. -/
def lookupField (key : String) : List (String × JSValue) → JSValue
  | [] => undefined
  | (k, v) :: rest => if k = key then v else lookupField key rest

/-- Whether a field list has an entry for `key`. -/
def hasField (key : String) : List (String × JSValue) → Bool
  | [] => false
  | (k, _) :: rest => k = key || hasField key rest

/-- Property read `v.key` for the keys this script reads (`slug`, `active`,
`updatedAt`, `content`, `totalPages`), none of which is a built-in property of
a primitive, an array or `Object.prototype`: reading from `undefined` or `null`
throws a `TypeError`, an object yields its field, anything else `undefined`. -/
def getProp (v : JSValue) (key : String) : Except JSError JSValue :=
  match v with
  | undefined => .error .typeError
  | null => .error .typeError
  | obj fields => .ok (lookupField key fields)
  | _ => .ok undefined

mutual
/-- JavaScript `ToString`, as a template literal applies it.  A number prints
as `Number::toString` has it; a plain object prints as `[object Object]`
unless it carries its own (then non-callable) `toString` field, in which case
the conversion throws a `TypeError`; an array prints its items joined by
commas. -/
def toJSString : JSValue → Except JSError String
  | undefined => .ok "undefined"
  | null => .ok "null"
  | bool true => .ok "true"
  | bool false => .ok "false"
  | num n => .ok (numberToString n)
  | str s => .ok s
  | arr items => joinItems items
  | obj fields => if hasField "toString" fields then .error .typeError else .ok "[object Object]"
termination_by structural v => v
/-- The text `Array.prototype.join` builds with the separator `,`: `null` and
`undefined` items print as the empty string. -/
def joinItems : List JSValue → Except JSError String
  | [] => .ok ""
  | x :: rest =>
    let head : Except JSError String :=
      match x with
      | undefined => .ok ""
      | null => .ok ""
      | v => toJSString v
    match head, rest with
    | .error e, _ => .error e
    | .ok s, [] => .ok s
    | .ok s, _ :: _ =>
      match joinItems rest with
      | .error e => .error e
      | .ok t => .ok (s ++ "," ++ t)
termination_by structural items => items
end

end JSValue

/-! ## Time values and `Date` -/

/-- Milliseconds in a day. -/
def msPerDay : Int := 86400000

/-- The largest magnitude of a time value: 8.64e15 ms. -/
def maxTimeValue : Int := 8640000000000000

/-- The operation `TimeClip` on an integral number: `none` is `NaN`. -/
def timeClip (t : Int) : Option Int :=
  if -maxTimeValue ≤ t ∧ t ≤ maxTimeValue then some t else none

/-- Whether `y` is a leap year of the proleptic Gregorian calendar. -/
def isLeapYear (y : Int) : Bool :=
  y % 4 == 0 && (y % 100 != 0 || y % 400 == 0)

/-- The number of days of month `m` (1 to 12) in year `y`; 0 for no month. -/
def daysInMonth (y : Int) (m : Nat) : Nat :=
  match m with
  | 1 => 31
  | 2 => if isLeapYear y then 29 else 28
  | 3 => 31
  | 4 => 30
  | 5 => 31
  | 6 => 30
  | 7 => 31
  | 8 => 31
  | 9 => 30
  | 10 => 31
  | 11 => 30
  | 12 => 31
  | _ => 0

/-- Day number (days since 1970-01-01) of the civil date `y-m-d`. -/
def daysFromCivil (y : Int) (m d : Nat) : Int :=
  let y1 : Int := if m ≤ 2 then y - 1 else y
  let era : Int := y1 / 400
  let yoe : Int := y1 - era * 400
  let mp : Int := if m > 2 then (m : Int) - 3 else (m : Int) + 9
  let doy : Int := (153 * mp + 2) / 5 + (d : Int) - 1
  let doe : Int := yoe * 365 + yoe / 4 - yoe / 100 + doy
  era * 146097 + doe - 719468

/-- The civil date (year, month 1 to 12, day 1 to 31) of a day number. -/
def civilFromDays (z : Int) : Int × Nat × Nat :=
  let z1 : Int := z + 719468
  let era : Int := z1 / 146097
  let doe : Int := z1 - era * 146097
  let yoe : Int := (doe - doe / 1460 + doe / 36524 - doe / 146096) / 365
  let doy : Int := doe - (365 * yoe + yoe / 4 - yoe / 100)
  let mp : Int := (5 * doy + 2) / 153
  let d : Int := doy - (153 * mp + 2) / 5 + 1
  let m : Int := if mp < 10 then mp + 3 else mp - 9
  let y : Int := yoe + era * 400
  (if m ≤ 2 then y + 1 else y, m.toNat, d.toNat)

/-- The decimal digit for `n % 10`. -/
def digitChar (n : Nat) : Char :=
  match n % 10 with
  | 0 => '0'
  | 1 => '1'
  | 2 => '2'
  | 3 => '3'
  | 4 => '4'
  | 5 => '5'
  | 6 => '6'
  | 7 => '7'
  | 8 => '8'
  | _ => '9'

/-- The last two decimal digits of `n`. -/
def pad2 (n : Nat) : List Char := [digitChar (n / 10), digitChar n]

/-- The last three decimal digits of `n`. -/
def pad3 (n : Nat) : List Char := digitChar (n / 100) :: pad2 n

/-- The last four decimal digits of `n`. -/
def pad4 (n : Nat) : List Char := digitChar (n / 1000) :: pad3 n

/-- The last six decimal digits of `n`. -/
def pad6 (n : Nat) : List Char := digitChar (n / 100000) :: digitChar (n / 10000) :: pad4 n

/-- The year as `Date.prototype.toISOString` prints it: four digits from 0 to
9999, otherwise a sign and six digits. -/
def isoYear (y : Int) : List Char :=
  if 0 ≤ y ∧ y ≤ 9999 then pad4 y.toNat
  else if y < 0 then '-' :: pad6 y.natAbs
  else '+' :: pad6 y.natAbs

/-- The date part `YYYY-MM-DD` of the UTC date of time value `t`. -/
def isoDate (t : Int) : List Char :=
  let c := civilFromDays (t / msPerDay)
  isoYear c.1 ++ '-' :: pad2 c.2.1 ++ '-' :: pad2 c.2.2

/-- The time part `HH:mm:ss.sssZ` of the UTC time of time value `t`. -/
def isoTime (t : Int) : List Char :=
  let ms : Nat := (t % msPerDay).toNat
  pad2 (ms / 3600000) ++ ':' :: pad2 (ms / 60000 % 60) ++ ':' :: pad2 (ms / 1000 % 60)
    ++ '.' :: pad3 (ms % 1000) ++ ['Z']

/-- The method `toISOString` of a valid date with time value `t`. -/
def toISOString (t : Int) : String :=
  String.mk (isoDate t ++ 'T' :: isoTime t)

/-- The method `toISOString` of a date: an invalid date (`none`) throws a
`RangeError`. -/
def dateToISOString (date : Option Int) : Except JSError String :=
  match date with
  | none => .error .rangeError
  | some t => .ok (toISOString t)

/-- The expression `s.split('T')[0]`: the text before the first `T`, all of `s`
when it has none. -/
def splitTFirst (s : String) : String :=
  String.mk (s.data.takeWhile (fun c => c != 'T'))

/-- The value of a decimal digit. -/
def digitVal (c : Char) : Option Nat :=
  match c with
  | '0' => some 0
  | '1' => some 1
  | '2' => some 2
  | '3' => some 3
  | '4' => some 4
  | '5' => some 5
  | '6' => some 6
  | '7' => some 7
  | '8' => some 8
  | '9' => some 9
  | _ => none

/-- The number two digit characters spell. -/
def twoDigits (a b : Char) : Option Nat :=
  match digitVal a, digitVal b with
  | some x, some y => some (10 * x + y)
  | _, _ => none

/-- The number three digit characters spell. -/
def threeDigits (a b c : Char) : Option Nat :=
  match digitVal a, twoDigits b c with
  | some x, some y => some (100 * x + y)
  | _, _ => none

/-- The number four digit characters spell. -/
def fourDigits (a b c d : Char) : Option Nat :=
  match twoDigits a b, twoDigits c d with
  | some x, some y => some (100 * x + y)
  | _, _ => none

/-- The UTC offset designator that ends a date-time string, in minutes east of
UTC: `Z`, `+HH:mm` or `-HH:mm`. -/
def isoOffsetMinutes : List Char → Option Int
  | ['Z'] => some 0
  | [sign, h1, h2, ':', m1, m2] =>
    match twoDigits h1 h2, twoDigits m1 m2 with
    | some h, some m =>
      if h ≤ 23 ∧ m ≤ 59 then
        if sign = '+' then some ((h * 60 + m : Nat) : Int)
        else if sign = '-' then some (-((h * 60 + m : Nat) : Int))
        else none
      else none
    | _, _ => none
  | _ => none

/-- Seconds, optional milliseconds and offset after `HH:mm`: the forms
`:ss.sss` + offset, `:ss` + offset and offset alone.  The result is
(milliseconds within the minute, offset in minutes). -/
def isoSecondsAndOffset : List Char → Option (Nat × Int)
  | ':' :: s1 :: s2 :: '.' :: f1 :: f2 :: f3 :: rest =>
    match twoDigits s1 s2, threeDigits f1 f2 f3, isoOffsetMinutes rest with
    | some s, some f, some off => if s ≤ 59 then some (s * 1000 + f, off) else none
    | _, _, _ => none
  | ':' :: s1 :: s2 :: rest =>
    match twoDigits s1 s2, isoOffsetMinutes rest with
    | some s, some off => if s ≤ 59 then some (s * 1000, off) else none
    | _, _ => none
  | rest =>
    match isoOffsetMinutes rest with
    | some off => some (0, off)
    | none => none

/-- The part of `Date.parse` that the language fixes for every engine: a
string `YYYY-MM-DD`, alone (UTC midnight) or followed by `THH:mm`, optional
`:ss`, optional `.sss` and a UTC offset (`Z`, `+HH:mm`, `-HH:mm`), every field
in range for the calendar.  The result is the time value; `none` means the
string is not of these forms. -/
def isoDateParse (s : List Char) : Option Int :=
  match s with
  | y1 :: y2 :: y3 :: y4 :: '-' :: m1 :: m2 :: '-' :: d1 :: d2 :: rest =>
    match fourDigits y1 y2 y3 y4, twoDigits m1 m2, twoDigits d1 d2 with
    | some y, some m, some d =>
      if 1 ≤ m ∧ m ≤ 12 ∧ 1 ≤ d ∧ d ≤ daysInMonth y m then
        let day : Int := daysFromCivil y m d * msPerDay
        match rest with
        | [] => some day
        | 'T' :: h1 :: h2 :: ':' :: n1 :: n2 :: tail =>
          match twoDigits h1 h2, twoDigits n1 n2, isoSecondsAndOffset tail with
          | some h, some n, some (ms, off) =>
            if h ≤ 23 ∧ n ≤ 59 then
              some (day + ((h * 3600000 + n * 60000 + ms : Nat) : Int) - off * 60000)
            else none
          | _, _, _ => none
        | _ => none
      else none
    | _, _, _ => none
  | _ => none

/-- The parts of the JavaScript runtime and of the build environment the
script depends on and this development leaves open. -/
structure Runtime where
  /-- The value of `CONFIG.apiBaseUrl`, read from the environment. -/
  apiBaseUrl : String
  /-- The function `JSON.parse`: `none` when it throws. -/
  jsonParse : String → Option JSValue
  /-- What `Date.parse` makes of a string outside the forms of `isoDateParse`
  (engines differ there): `none` is `NaN`. -/
  hostDateParse : String → Option Int
  /-- The test `page < s` for a string `s`. -/
  ltString : Nat → String → Bool
  /-- The time value the `k`-th `new Date()` of the run reads (from 0). -/
  clock : Nat → Int
  /-- What the file system makes of creating the output directory and
  writing the given text to `CONFIG.outputPath`: done, or an exception. -/
  fsWrite : String → Except JSError Unit

/-- The function `Date.parse`: `none` is `NaN`. -/
def dateParse (rt : Runtime) (s : String) : Option Int :=
  match isoDateParse s.data with
  | some t => some t
  | none =>
    match rt.hostDateParse s with
    | some t => timeClip t
    | none => none

/-- The time value of `new Date(v)` (`none` for an invalid date): a string is
parsed, a number is clipped, an array or object is first turned into a
string. -/
def newDate (rt : Runtime) (v : JSValue) : Except JSError (Option Int) :=
  match v with
  | .undefined => .ok none
  | .null => .ok (some 0)
  | .bool b => .ok (some (if b then 1 else 0))
  | .num n => .ok (timeClip n)
  | .str s => .ok (dateParse rt s)
  | .arr items =>
    match JSValue.toJSString (.arr items) with
    | .error e => .error e
    | .ok s => .ok (dateParse rt s)
  | .obj fields =>
    match JSValue.toJSString (.obj fields) with
    | .error e => .error e
    | .ok s => .ok (dateParse rt s)

/-! ## The two documents -/

/-- The value of `CONFIG.siteUrl`. -/
def siteUrl : String := "https://samah-store.tech"

/-- The function `generateFallbackSitemap`; `now` is the time value its
`new Date()` reads. -/
def generateFallbackSitemap (now : Int) : String :=
  "<?xml version=\"1.0\" encoding=\"UTF-8\"?>\n" ++
  "<urlset xmlns=\"http://www.sitemaps.org/schemas/sitemap/0.9\">\n" ++
  "  <!-- Fallback sitemap - API unavailable during build -->\n" ++
  "  <!-- Generated: " ++ toISOString now ++ " -->\n" ++
  "  <url>\n" ++
  "    <loc>" ++ siteUrl ++ "/products</loc>\n" ++
  "    <changefreq>daily</changefreq>\n" ++
  "    <priority>0.9</priority>\n" ++
  "  </url>\n" ++
  "</urlset>\n"

/-- The filter callback `p => p.slug && p.active !== false`, as the truth
value `filter` takes from it.  `p.active` is read only when `p.slug` is
truthy. -/
def keepsProduct (p : JSValue) : Except JSError Bool :=
  match p.getProp "slug" with
  | .error e => .error e
  | .ok slug =>
    if slug.truthy then
      match p.getProp "active" with
      | .error e => .error e
      | .ok active => .ok active.notStrictlyFalse
    else .ok false

/-- The call `products.filter(p => p.slug && p.active !== false)`: the
callback runs on the items in order and the first exception ends the call. -/
def filterProducts : List JSValue → Except JSError (List JSValue)
  | [] => .ok []
  | p :: rest =>
    match keepsProduct p with
    | .error e => .error e
    | .ok keep =>
      match filterProducts rest with
      | .error e => .error e
      | .ok kept => .ok (if keep then p :: kept else kept)

/-- The text of one `<url>` entry, the template literal of the `map`
callback with its three holes filled. -/
def urlEntryText (site slug lastmod : String) : String :=
  "  <url>\n" ++
  "    <loc>" ++ site ++ "/products/" ++ slug ++ "</loc>\n" ++
  "    <lastmod>" ++ lastmod ++ "</lastmod>\n" ++
  "    <changefreq>weekly</changefreq>\n" ++
  "    <priority>0.8</priority>\n" ++
  "  </url>"

/-- The constant `lastmod` of the `map` callback:
`product.updatedAt ? new Date(product.updatedAt).toISOString().split('T')[0] : today`. -/
def lastmodOf (rt : Runtime) (today : String) (product : JSValue) : Except JSError String :=
  match product.getProp "updatedAt" with
  | .error e => .error e
  | .ok updatedAt =>
    if updatedAt.truthy then
      match newDate rt updatedAt with
      | .error e => .error e
      | .ok date =>
        match dateToISOString date with
        | .error e => .error e
        | .ok iso => .ok (splitTFirst iso)
    else .ok today

/-- The `map` callback of `generateSitemapXml`: `lastmod` is computed first,
then the template literal converts `product.slug` to a string. -/
def urlEntry (rt : Runtime) (today : String) (product : JSValue) : Except JSError String :=
  match lastmodOf rt today product with
  | .error e => .error e
  | .ok lastmod =>
    match product.getProp "slug" with
    | .error e => .error e
    | .ok slug =>
      match slug.toJSString with
      | .error e => .error e
      | .ok slugText => .ok (urlEntryText siteUrl slugText lastmod)

/-- The call `.map(callback)` with a callback that may throw. -/
def mapEntries (rt : Runtime) (today : String) : List JSValue → Except JSError (List String)
  | [] => .ok []
  | p :: rest =>
    match urlEntry rt today p with
    | .error e => .error e
    | .ok entry =>
      match mapEntries rt today rest with
      | .error e => .error e
      | .ok entries => .ok (entry :: entries)

/-- The constant `urlEntries` of `generateSitemapXml`. -/
def urlEntries (rt : Runtime) (today : String) (products : List JSValue) :
    Except JSError (List String) :=
  match filterProducts products with
  | .error e => .error e
  | .ok kept => mapEntries rt today kept

/-- The call `lines.join('\n')` on an array of strings. -/
def joinLines : List String → String
  | [] => ""
  | [x] => x
  | x :: y :: rest => x ++ "\n" ++ joinLines (y :: rest)

/-- The template literal that `generateSitemapXml` returns. -/
def sitemapDocument (generated : String) (entries : List String) : String :=
  "<?xml version=\"1.0\" encoding=\"UTF-8\"?>\n" ++
  "<urlset xmlns=\"http://www.sitemaps.org/schemas/sitemap/0.9\">\n" ++
  "  <!-- Generated: " ++ generated ++ " -->\n" ++
  "  <!-- Products: " ++ toString entries.length ++ " -->\n" ++
  joinLines entries ++ "\n" ++
  "</urlset>\n"

/-- The function `generateSitemapXml`.  It reads the clock twice: `nowToday`
for the constant `today`, `nowGenerated` for the comment in the document. -/
def generateSitemapXml (rt : Runtime) (nowToday nowGenerated : Int) (products : List JSValue) :
    Except JSError String :=
  let today := splitTFirst (toISOString nowToday)
  match urlEntries rt today products with
  | .error e => .error e
  | .ok entries => .ok (sitemapDocument (toISOString nowGenerated) entries)

/-! ## Fetching the product pages -/

/-- The value of `CONFIG.pageSize`. -/
def pageSize : Nat := 100

/-- The value of `CONFIG.maxRetries`. -/
def maxRetries : Nat := 2

/-- The value of `CONFIG.retryDelayMs`. -/
def retryDelayMs : Nat := 500

/-- The value of `CONFIG.timeoutMs`. -/
def timeoutMs : Nat := 5000

/-- The hard page cap in the loop condition of `fetchProducts`. -/
def pageCap : Nat := 10

/-- How one request made by `httpGet` ends. -/
inductive HttpEvent where
  /-- The response arrived in full, with this status code and body. -/
  | response (status : Nat) (body : String) : HttpEvent
  /-- The request emitted `error`. -/
  | networkError (err : JSError) : HttpEvent
  /-- The request emitted `timeout`. -/
  | timeout : HttpEvent

/-- The network as the run meets it: `net page attempt` ends the request
number `attempt` (from 1) for page `page`. -/
abbrev Net := Nat → Nat → HttpEvent

/-- What the script does to the outside world, in order. -/
inductive Effect where
  /-- A call `httpGet(url, timeout)`, made as attempt number `attempt` (from 1)
  for page `page`. -/
  | request (page attempt : Nat) (url : String) (timeout : Nat) : Effect
  /-- A wait of `ms` milliseconds between two attempts. -/
  | delay (ms : Nat) : Effect
  /-- The text `writeSitemap` wrote to the output file. -/
  | write (xml : String) : Effect
  deriving DecidableEq, Repr

/-- The promise `httpGet` returns, settled by the event that ends the
request: `.ok` is the value it resolves to, `.error` the reason it rejects
with. -/
def httpGet (rt : Runtime) (event : HttpEvent) : Except JSError JSValue :=
  match event with
  | .response status body =>
    if status ≠ 200 then .error (.error ("HTTP " ++ toString status))
    else
      match rt.jsonParse body with
      | some value => .ok value
      | none => .error (.error "Invalid JSON")
  | .networkError err => .error err
  | .timeout => .error (.error "Timeout")

/-- The URL of the request for page `page`. -/
def pageUrl (rt : Runtime) (page : Nat) : String :=
  rt.apiBaseUrl ++ "/api/products?page=" ++ toString page ++ "&size=" ++ toString pageSize

/-- The inner loop of `fetchProducts`,
`while (attempts < CONFIG.maxRetries && !data)`, from the state
(`attempts`, `data`): the effects of the remaining attempts and the final
`data`. -/
def retryLoop (rt : Runtime) (net : Net) (page : Nat) (attempts : Nat) (data : JSValue) :
    List Effect × JSValue :=
  if attempts < maxRetries ∧ data.truthy = false then
    match httpGet rt (net page (attempts + 1)) with
    | .ok value =>
      let rest := retryLoop rt net page (attempts + 1) value
      (Effect.request page (attempts + 1) (pageUrl rt page) timeoutMs :: rest.1, rest.2)
    | .error _ =>
      if attempts + 1 < maxRetries then
        let rest := retryLoop rt net page (attempts + 1) data
        (Effect.request page (attempts + 1) (pageUrl rt page) timeoutMs :: Effect.delay retryDelayMs :: rest.1, rest.2)
      else
        let rest := retryLoop rt net page (attempts + 1) data
        (Effect.request page (attempts + 1) (pageUrl rt page) timeoutMs :: rest.1, rest.2)
  else ([], data)
termination_by maxRetries - attempts

/-- The comparison `page < totalPages` of the outer loop condition.  A number
is compared as such, `true` counts as 1, `null` and `false` as 0, `undefined`
and a plain object as `NaN`; a string is read as a number by the runtime, an
array by way of its string. -/
def pageLt (rt : Runtime) (page : Nat) (totalPages : JSValue) : Except JSError Bool :=
  match totalPages with
  | .undefined => .ok false
  | .null => .ok false
  | .bool b => .ok (b && page == 0)
  | .num n => .ok ((page : Int) < n)
  | .str s => .ok (rt.ltString page s)
  | .arr items =>
    match JSValue.toJSString (.arr items) with
    | .error e => .error e
    | .ok s => .ok (rt.ltString page s)
  | .obj fields => if JSValue.hasField "toString" fields then .error .typeError else .ok false

/-- The items `products.push(...data.content)` appends, when the test
`data.content && Array.isArray(data.content)` passes; `none` when it fails. -/
def pageItems (content : JSValue) : Option (List JSValue) :=
  if content.truthy && content.isArray then
    match content with
    | .arr items => some items
    | _ => none
  else none

/-- The value `data.totalPages || 1`. -/
def totalPagesOr1 (totalPages : JSValue) : JSValue :=
  if totalPages.truthy then totalPages else .num 1

/-- The outer loop of `fetchProducts`,
`while (page < totalPages && page < 10)`, from the state
(`page`, `totalPages`, `products`): the effects from there on and how the
function ends, by returning `products` or by throwing. -/
def fetchLoop (rt : Runtime) (net : Net) (page : Nat) (totalPages : JSValue)
    (products : List JSValue) : List Effect × Except JSError (List JSValue) :=
  match pageLt rt page totalPages with
  | .error e => ([], .error e)
  | .ok below =>
    if _h : below = true ∧ page < pageCap then
      let fetched := retryLoop rt net page 0 .null
      if fetched.2.truthy = false then
        (fetched.1, .error (.error "Failed to fetch after retries"))
      else
        match fetched.2.getProp "content" with
        | .error e => (fetched.1, .error e)
        | .ok content =>
          match pageItems content with
          | some items =>
            match fetched.2.getProp "totalPages" with
            | .error e => (fetched.1, .error e)
            | .ok reported =>
              let rest := fetchLoop rt net (page + 1) (totalPagesOr1 reported) (products ++ items)
              (fetched.1 ++ rest.1, rest.2)
          | none =>
            let rest := fetchLoop rt net (page + 1) totalPages products
            (fetched.1 ++ rest.1, rest.2)
    else ([], .ok products)
termination_by pageCap - page
decreasing_by all_goals (simp_wf; omega)

/-- The function `fetchProducts`: its effects, and the array it resolves to
or the error it rejects with. -/
def fetchProducts (rt : Runtime) (net : Net) : List Effect × Except JSError (List JSValue) :=
  fetchLoop rt net 0 (.num 1) []

/-! ## Writing the file -/

/-- The function `writeSitemap`: on success the file holds `xml`. -/
def writeSitemap (rt : Runtime) (xml : String) : List Effect × Except JSError Unit :=
  match rt.fsWrite xml with
  | .error e => ([], .error e)
  | .ok _ => ([Effect.write xml], .ok ())

/-- The value of the variable `xml` of `main` once its `try` statement is
over, given how `fetchProducts` ended.  The clock is read by
`generateSitemapXml` (twice, reads 0 and 1) or by `generateFallbackSitemap`
(read 0, or read 1 when `generateSitemapXml` threw after its first read). -/
def mainXml (rt : Runtime) (fetched : Except JSError (List JSValue)) : String :=
  match fetched with
  | .ok products =>
    if products.length > 0 then
      match generateSitemapXml rt (rt.clock 0) (rt.clock 1) products with
      | .ok xml => xml
      | .error _ => generateFallbackSitemap (rt.clock 1)
    else generateFallbackSitemap (rt.clock 0)
  | .error _ => generateFallbackSitemap (rt.clock 0)

/-- The function `main`: its effects, and whether its promise resolves or
rejects. -/
def main (rt : Runtime) (net : Net) : List Effect × Except JSError Unit :=
  let fetched := fetchProducts rt net
  let written := writeSitemap rt (mainXml rt fetched.2)
  (fetched.1 ++ written.1, written.2)

/-! ## The product records of the specification

The data model of the specification gives a product record a string `slug`,
a boolean `active` (default true) and an optional timestamp `updatedAt`.  The
predicates below say this of a `JSValue`; absent fields and `null` count as
not given. -/

/-- The value is an object whose `slug`, when given, is a string. -/
def hasStringSlug : JSValue → Bool
  | .obj fields =>
    match JSValue.lookupField "slug" fields with
    | .undefined => true
    | .null => true
    | .str _ => true
    | _ => false
  | _ => false

/-- Following the specification: the record's `slug` is a non-empty string. -/
def slugIsNonEmptyString : JSValue → Bool
  | .obj fields =>
    match JSValue.lookupField "slug" fields with
    | .str s => s != ""
    | _ => false
  | _ => false

/-- Following the specification: the record's `active` is explicitly `false`. -/
def activeIsExplicitlyFalse : JSValue → Bool
  | .obj fields =>
    match JSValue.lookupField "active" fields with
    | .bool false => true
    | _ => false
  | _ => false

/-- Following the specification: the record appears in the output. -/
def survivesFilter (p : JSValue) : Bool :=
  slugIsNonEmptyString p && !activeIsExplicitlyFalse p

/-- The text of the record's `slug` when it is a string. -/
def slugText : JSValue → String
  | .obj fields =>
    match JSValue.lookupField "slug" fields with
    | .str s => s
    | _ => ""
  | _ => ""

/-- Following the specification: the date portion `YYYY-MM-DD` (UTC) of a
time value. -/
def utcDateString (t : Int) : String := String.mk (isoDate t)

/-- The value is an object whose `updatedAt` is not given, or is a non-empty
string that `Date.parse` accepts. -/
def hasValidUpdatedAt (rt : Runtime) : JSValue → Bool
  | .obj fields =>
    match JSValue.lookupField "updatedAt" fields with
    | .undefined => true
    | .null => true
    | .str s => s != "" && (dateParse rt s).isSome
    | _ => false
  | _ => false

/-- Following the specification: the `lastModified` of a record, the date
portion of `updatedAt` when it is given and else the date of `now`. -/
def specLastmod (rt : Runtime) (now : Int) (p : JSValue) : String :=
  match p with
  | .obj fields =>
    match JSValue.lookupField "updatedAt" fields with
    | .str s =>
      match dateParse rt s with
      | some t => utcDateString t
      | none => utcDateString now
    | _ => utcDateString now
  | _ => utcDateString now

/-- Following the specification: the `<url>` entry of a surviving record. -/
def specUrlEntry (rt : Runtime) (now : Int) (p : JSValue) : String :=
  urlEntryText siteUrl (slugText p) (specLastmod rt now p)

/-! ## Example inputs -/

/-- A runtime for the examples: `JSON.parse` knows a few bodies by name, the
host adds nothing to `Date.parse`, no string counts as a number above a page
index, the clock starts at 2025-11-05T08:00:00.000Z and gains a millisecond
per read, and the file system accepts every write. -/
def exampleRuntime : Runtime where
  apiBaseUrl := "https://samah-store.tech"
  jsonParse := fun body =>
    if body = "EMPTY" then
      some (.obj [("content", .arr []), ("totalPages", .num 1)])
    else if body = "BADDATE" then
      some (.obj [("content", .arr [.obj [("slug", .str "a"), ("updatedAt", .str "not-a-date")]]),
        ("totalPages", .num 1)])
    else if body = "AMP" then
      some (.obj [("content", .arr [.obj [("slug", .str "a&b")]]), ("totalPages", .num 1)])
    else if body = "HIDDEN" then
      some (.obj [("content", .arr [.obj [("slug", .str "a"), ("active", .bool false)]]),
        ("totalPages", .num 1)])
    else if body = "FIFTY" then
      some (.obj [("content", .arr [.obj [("slug", .str "p")]]), ("totalPages", .num 50)])
    else none
  hostDateParse := fun _ => none
  ltString := fun _ _ => false
  clock := fun k => 1762329600000 + k
  fsWrite := fun _ => .ok ()

/-- The record `{slug: 'a', active: false}`. -/
def recordInactive : JSValue := .obj [("slug", .str "a"), ("active", .bool false)]

/-- The record `{slug: 'b'}`. -/
def recordPlain : JSValue := .obj [("slug", .str "b")]

/-- The record `{active: true}`. -/
def recordNoSlug : JSValue := .obj [("active", .bool true)]

/-- The record `{slug: 'c', updatedAt: '2024-03-15T10:00:00Z'}`. -/
def recordDated : JSValue :=
  .obj [("slug", .str "c"), ("updatedAt", .str "2024-03-15T10:00:00Z")]

/-- The record `{slug: 'a', updatedAt: 'not-a-date'}`. -/
def recordBadDate : JSValue := .obj [("slug", .str "a"), ("updatedAt", .str "not-a-date")]

/-! ## Describing a run of the API -/

/-- The first request for `page` resolves to a value whose `content` is the
array `items` and whose `totalPages` is `total`. -/
def pageResolves (rt : Runtime) (net : Net) (page : Nat) (items : List JSValue)
    (total : JSValue) : Prop :=
  ∃ data, httpGet rt (net page 1) = .ok data ∧
    data.getProp "content" = .ok (.arr items) ∧ data.getProp "totalPages" = .ok total

/-- Following the specification: a request has failed when the request errs,
when it times out, when the status is not 200 and when the body is not valid
JSON. -/
def requestFails (rt : Runtime) (event : HttpEvent) : Bool :=
  match event with
  | .networkError _ => true
  | .timeout => true
  | .response status body => status != 200 || (rt.jsonParse body).isNone

/-- One first-attempt request for each of the `count` pages from `page` on, in
order. -/
def pageRequests (rt : Runtime) (page : Nat) : Nat → List Effect
  | 0 => []
  | count + 1 =>
    Effect.request page 1 (pageUrl rt page) timeoutMs :: pageRequests rt (page + 1) count

/-- The records of the `count` pages from `page` on, page after page. -/
def pageContents (items : Nat → List JSValue) (page : Nat) : Nat → List JSValue
  | 0 => []
  | count + 1 => items page ++ pageContents items (page + 1) count

/-- A network that answers every request with status 200 and the body
`body`. -/
def constantNet (body : String) : Net := fun _ _ => HttpEvent.response 200 body

/-- A network whose every request times out. -/
def deadNet : Net := fun _ _ => HttpEvent.timeout

/-- A network that answers page 0 with the body `FIFTY` (one record, 50 pages
in all) and lets every later request time out. -/
def failingSecondPageNet : Net := fun page _ =>
  if page = 0 then HttpEvent.response 200 "FIFTY" else HttpEvent.timeout

/-! ## Well-formed XML

Modelled on the XML 1.0 recommendation, for documents without a document type
declaration: an optional XML declaration, then comments, processing
instructions and white space around one root element; inside elements,
character data, references to the predefined entities and to characters,
comments, CDATA sections, processing instructions and elements, properly
nested.  The document is read one character at a time. -/

namespace Xml

/-- White space (production `S`). -/
def isSpace (c : Char) : Bool :=
  c == ' ' || c == '\n' || c == '\t' || c == '\r'

/-- A legal code point (production `Char`). -/
def isCharCode (n : Nat) : Bool :=
  n == 9 || n == 10 || n == 13 || (0x20 ≤ n && n ≤ 0xD7FF) ||
    (0xE000 ≤ n && n ≤ 0xFFFD) || (0x10000 ≤ n && n ≤ 0x10FFFF)

/-- A legal character (production `Char`). -/
def isChar (c : Char) : Bool := isCharCode c.toNat

/-- A character that can start a name (production `NameStartChar`). -/
def isNameStart (c : Char) : Bool :=
  let n := c.toNat
  c == ':' || c == '_' || (65 ≤ n && n ≤ 90) || (97 ≤ n && n ≤ 122) ||
    (0xC0 ≤ n && n ≤ 0xD6) || (0xD8 ≤ n && n ≤ 0xF6) || (0xF8 ≤ n && n ≤ 0x2FF) ||
    (0x370 ≤ n && n ≤ 0x37D) || (0x37F ≤ n && n ≤ 0x1FFF) || (0x200C ≤ n && n ≤ 0x200D) ||
    (0x2070 ≤ n && n ≤ 0x218F) || (0x2C00 ≤ n && n ≤ 0x2FEF) || (0x3001 ≤ n && n ≤ 0xD7FF) ||
    (0xF900 ≤ n && n ≤ 0xFDCF) || (0xFDF0 ≤ n && n ≤ 0xFFFD) || (0x10000 ≤ n && n ≤ 0xEFFFF)

/-- A character that can continue a name (production `NameChar`). -/
def isNameChar (c : Char) : Bool :=
  let n := c.toNat
  isNameStart c || c == '-' || c == '.' || (48 ≤ n && n ≤ 57) || n == 0xB7 ||
    (0x300 ≤ n && n ≤ 0x36F) || (0x203F ≤ n && n ≤ 0x2040)

/-- The value of a hexadecimal digit. -/
def hexVal (c : Char) : Option Nat :=
  let n := c.toNat
  if 48 ≤ n ∧ n ≤ 57 then some (n - 48)
  else if 65 ≤ n ∧ n ≤ 70 then some (n - 55)
  else if 97 ≤ n ∧ n ≤ 102 then some (n - 87)
  else none

/-- The tag whose attributes are being read: whether it is the XML
declaration, its name, and the names of the attributes read so far, latest
first. -/
structure Tag where
  decl : Bool
  name : List Char
  seen : List (List Char)
  deriving DecidableEq, Repr

/-- Where a reference stands: in character data, or in an attribute value of
the given tag with the given quote. -/
inductive Context where
  | content : Context
  | value (tag : Tag) (quote : Char) : Context
  deriving DecidableEq, Repr

/-- What the reader is in the middle of. -/
inductive Mode where
  /-- Between markup; `brackets` counts the `]` just read (at most 2). -/
  | text (brackets : Nat) : Mode
  /-- After `<`; `atStart` says that it was the first character. -/
  | lt (atStart : Bool) : Mode
  /-- After `<!`. -/
  | bang : Mode
  /-- After `<!-`. -/
  | bangDash : Mode
  /-- In a comment, after `dashes` hyphens in a row (at most 2). -/
  | comment (dashes : Nat) : Mode
  /-- After `<![` and the first `matched` characters of `CDATA[`. -/
  | cdataOpen (matched : Nat) : Mode
  /-- In a CDATA section, after `brackets` closing brackets in a row. -/
  | cdata (brackets : Nat) : Mode
  /-- In the target of a processing instruction. -/
  | piTarget (atStart : Bool) (name : List Char) : Mode
  /-- In the body of a processing instruction; `question` says that the last
  character was `?`. -/
  | pi (question : Bool) : Mode
  /-- In the name of a start tag. -/
  | tagName (name : List Char) : Mode
  /-- Among the attributes of a tag; `spaced` says that white space was just
  read. -/
  | beforeAttr (tag : Tag) (spaced : Bool) : Mode
  /-- After the `/` of an empty-element tag. -/
  | emptyTag : Mode
  /-- After the `?` that ends the XML declaration. -/
  | declEnd : Mode
  /-- In the name of an attribute. -/
  | attrName (tag : Tag) (name : List Char) : Mode
  /-- After an attribute name and white space. -/
  | afterAttrName (tag : Tag) : Mode
  /-- After the `=` of an attribute. -/
  | beforeValue (tag : Tag) : Mode
  /-- In an attribute value opened by `quote`. -/
  | value (tag : Tag) (quote : Char) : Mode
  /-- After `&`. -/
  | refStart (ctx : Context) : Mode
  /-- In the name of an entity reference. -/
  | refName (ctx : Context) (name : List Char) : Mode
  /-- After `&#`. -/
  | refHash (ctx : Context) : Mode
  /-- In a decimal character reference with the value read so far. -/
  | refDec (ctx : Context) (code : Nat) : Mode
  /-- In a hexadecimal character reference; `code` is `none` before the first
  digit. -/
  | refHex (ctx : Context) (code : Option Nat) : Mode
  /-- In the name of an end tag. -/
  | closeName (name : List Char) : Mode
  /-- After the name of an end tag and white space. -/
  | closeSpace (name : List Char) : Mode
  deriving DecidableEq, Repr

/-- The state of the reader. -/
structure State where
  /-- What the reader is in the middle of. -/
  mode : Mode
  /-- The names of the open elements, innermost first. -/
  stack : List (List Char)
  /-- Whether the root element has been closed. -/
  rootDone : Bool
  /-- Whether nothing has been read yet. -/
  first : Bool
  deriving DecidableEq, Repr

/-- The state before the first character. -/
def start : State :=
  { mode := .text 0, stack := [], rootDone := false, first := true }

/-- The predefined entities. -/
def isPredefinedEntity (name : List Char) : Bool :=
  name == "amp".data || name == "lt".data || name == "gt".data || name == "apos".data ||
    name == "quot".data

/-- Whether a processing-instruction target is the reserved name `xml` in any
letter case. -/
def isReservedTarget (name : List Char) : Bool :=
  match name with
  | [a, b, c] => (a == 'x' || a == 'X') && (b == 'm' || b == 'M') && (c == 'l' || c == 'L')
  | _ => false

/-- The pseudo-attributes an XML declaration can have, latest first. -/
def isDeclAttributes (seen : List (List Char)) : Bool :=
  seen == ["version".data] || seen == ["encoding".data, "version".data] ||
    seen == ["standalone".data, "version".data] ||
    seen == ["standalone".data, "encoding".data, "version".data]

/-- The mode after a reference, back where the reference stood. -/
def afterReference (ctx : Context) : Mode :=
  match ctx with
  | .content => .text 0
  | .value tag quote => .value tag quote

/-- The state after the `>` of a start tag: the element is open. -/
def openElement (st : State) (name : List Char) : State :=
  { st with mode := .text 0, stack := name :: st.stack }

/-- The state after the `>` of an empty-element tag. -/
def emptyElement (st : State) : State :=
  { st with mode := .text 0, rootDone := st.rootDone || st.stack.isEmpty }

/-- The state after the `>` of an end tag with the given name, if it closes
the innermost open element. -/
def closeElement (st : State) (name : List Char) : Option State :=
  match st.stack with
  | top :: outer =>
    if name == top then some { st with mode := .text 0, stack := outer, rootDone := outer.isEmpty }
    else none
  | [] => none

/-- The mode after an attribute name, if the tag does not have the name
already. -/
def addAttribute (tag : Tag) (name : List Char) (next : Tag → Mode) : Option Mode :=
  if tag.seen.contains name then none else some (next { tag with seen := name :: tag.seen })

/-- One character read in a given mode; `none` when the character cannot
stand there. -/
def stepMode (st : State) (c : Char) : Option State :=
  match st.mode with
  | .text brackets =>
    if c == '<' then some { st with mode := .lt st.first }
    else if st.stack.isEmpty then
      if isSpace c then some { st with mode := .text 0 } else none
    else if c == '&' then some { st with mode := .refStart .content }
    else if c == '>' && brackets ≥ 2 then none
    else if isChar c then
      some { st with mode := .text (if c == ']' then min 2 (brackets + 1) else 0) }
    else none
  | .lt atStart =>
    if c == '!' then some { st with mode := .bang }
    else if c == '?' then some { st with mode := .piTarget atStart [] }
    else if c == '/' then (if st.stack.isEmpty then none else some { st with mode := .closeName [] })
    else if isNameStart c then
      if st.stack.isEmpty && st.rootDone then none else some { st with mode := .tagName [c] }
    else none
  | .bang =>
    if c == '-' then some { st with mode := .bangDash }
    else if c == '[' && !st.stack.isEmpty then some { st with mode := .cdataOpen 0 }
    else none
  | .bangDash => if c == '-' then some { st with mode := .comment 0 } else none
  | .comment dashes =>
    if dashes ≥ 2 then (if c == '>' then some { st with mode := .text 0 } else none)
    else if c == '-' then some { st with mode := .comment (dashes + 1) }
    else if isChar c then some { st with mode := .comment 0 }
    else none
  | .cdataOpen matched =>
    if "CDATA[".data.get? matched == some c then
      some { st with mode := if matched == 5 then .cdata 0 else .cdataOpen (matched + 1) }
    else none
  | .cdata brackets =>
    if c == '>' && brackets ≥ 2 then some { st with mode := .text 0 }
    else if c == ']' then some { st with mode := .cdata (min 2 (brackets + 1)) }
    else if isChar c then some { st with mode := .cdata 0 }
    else none
  | .piTarget atStart name =>
    if name.isEmpty then
      (if isNameStart c then some { st with mode := .piTarget atStart [c] } else none)
    else if isNameChar c then some { st with mode := .piTarget atStart (name ++ [c]) }
    else if isSpace c then
      if name == "xml".data && atStart then
        some { st with mode := .beforeAttr { decl := true, name := name, seen := [] } true }
      else if isReservedTarget name then none
      else some { st with mode := .pi false }
    else if c == '?' then (if isReservedTarget name then none else some { st with mode := .pi true })
    else none
  | .pi question =>
    if c == '>' && question then some { st with mode := .text 0 }
    else if c == '?' then some { st with mode := .pi true }
    else if isChar c then some { st with mode := .pi false }
    else none
  | .tagName name =>
    if isNameChar c then some { st with mode := .tagName (name ++ [c]) }
    else if isSpace c then
      some { st with mode := .beforeAttr { decl := false, name := name, seen := [] } true }
    else if c == '>' then some (openElement st name)
    else if c == '/' then some { st with mode := .emptyTag }
    else none
  | .beforeAttr tag spaced =>
    if isSpace c then some { st with mode := .beforeAttr tag true }
    else if tag.decl then
      if c == '?' then (if isDeclAttributes tag.seen then some { st with mode := .declEnd } else none)
      else if isNameStart c && spaced then some { st with mode := .attrName tag [c] }
      else none
    else if c == '>' then some (openElement st tag.name)
    else if c == '/' then some { st with mode := .emptyTag }
    else if isNameStart c && spaced then some { st with mode := .attrName tag [c] }
    else none
  | .emptyTag => if c == '>' then some (emptyElement st) else none
  | .declEnd => if c == '>' then some { st with mode := .text 0 } else none
  | .attrName tag name =>
    if isNameChar c then some { st with mode := .attrName tag (name ++ [c]) }
    else if isSpace c then
      match addAttribute tag name .afterAttrName with
      | some next => some { st with mode := next }
      | none => none
    else if c == '=' then
      match addAttribute tag name .beforeValue with
      | some next => some { st with mode := next }
      | none => none
    else none
  | .afterAttrName tag =>
    if isSpace c then some st
    else if c == '=' then some { st with mode := .beforeValue tag }
    else none
  | .beforeValue tag =>
    if isSpace c then some st
    else if c == '"' || c == '\'' then some { st with mode := .value tag c }
    else none
  | .value tag quote =>
    if c == quote then some { st with mode := .beforeAttr tag false }
    else if c == '<' then none
    else if c == '&' then some { st with mode := .refStart (.value tag quote) }
    else if isChar c then some st
    else none
  | .refStart ctx =>
    if c == '#' then some { st with mode := .refHash ctx }
    else if isNameStart c then some { st with mode := .refName ctx [c] }
    else none
  | .refName ctx name =>
    if c == ';' then
      (if isPredefinedEntity name then some { st with mode := afterReference ctx } else none)
    else if isNameChar c then some { st with mode := .refName ctx (name ++ [c]) }
    else none
  | .refHash ctx =>
    if c == 'x' then some { st with mode := .refHex ctx none }
    else if 48 ≤ c.toNat && c.toNat ≤ 57 then some { st with mode := .refDec ctx (c.toNat - 48) }
    else none
  | .refDec ctx code =>
    if c == ';' then (if isCharCode code then some { st with mode := afterReference ctx } else none)
    else if 48 ≤ c.toNat && c.toNat ≤ 57 then
      some { st with mode := .refDec ctx (min 0x110000 (10 * code + (c.toNat - 48))) }
    else none
  | .refHex ctx code =>
    if c == ';' then
      match code with
      | some n => if isCharCode n then some { st with mode := afterReference ctx } else none
      | none => none
    else
      match hexVal c with
      | some d => some { st with mode := .refHex ctx (some (min 0x110000 (16 * code.getD 0 + d))) }
      | none => none
  | .closeName name =>
    if name.isEmpty then (if isNameStart c then some { st with mode := .closeName [c] } else none)
    else if isNameChar c then some { st with mode := .closeName (name ++ [c]) }
    else if isSpace c then some { st with mode := .closeSpace name }
    else if c == '>' then closeElement st name
    else none
  | .closeSpace name =>
    if isSpace c then some st
    else if c == '>' then closeElement st name
    else none

/-- One character read: as `stepMode`, and from then on something has been
read. -/
def step (st : State) (c : Char) : Option State :=
  match stepMode st c with
  | some next => some { next with first := false }
  | none => none

/-- The state after a text has been read, `none` once a character could not
stand where it was. -/
def run : Option State → List Char → Option State
  | none, _ => none
  | some st, [] => some st
  | some st, c :: rest => run (step st c) rest

/-- Whether the reader may stop: it is between markup, no element is open and
the root element has been read. -/
def accepts : Option State → Bool
  | some st =>
    (match st.mode with
      | .text _ => true
      | _ => false) && st.stack.isEmpty && st.rootDone
  | none => false

/-- Whether a text is a well-formed XML document (one without a document type
declaration). -/
def wellFormed (text : String) : Bool :=
  accepts (run (some start) text.data)

/-- The reader inside a comment of a document, with the given elements open. -/
def inComment (stack : List (List Char)) : State :=
  { mode := .comment 0, stack := stack, rootDone := false, first := false }

/-- The reader in the character data of the given open elements. -/
def inText (brackets : Nat) (stack : List (List Char)) : State :=
  { mode := .text brackets, stack := stack, rootDone := false, first := false }

/-- A character that can stand anywhere in a comment. -/
def isCommentPlain (c : Char) : Bool := isChar c && c != '-'

/-- A character that can stand anywhere in character data. -/
def isTextPlain (c : Char) : Bool := isChar c && c != '<' && c != '&' && c != '>'

/-- The reader after `<` in the content of the given open elements. -/
def afterLt (stack : List (List Char)) : State :=
  { mode := .lt false, stack := stack, rootDone := false, first := false }

/-- The state in which a document ends well. -/
def done : State :=
  { mode := .text 0, stack := [], rootDone := true, first := false }

/-- Whether every character of a text can stand in character data as it is:
a legal character other than `<`, `&` and `>`. -/
def isSafeText (s : String) : Bool := s.data.all isTextPlain

/-- An entry as `generateSitemapXml` builds it, with a slug and a date that
can stand in character data as they are. -/
def IsSafeEntry (entry : String) : Prop :=
  ∃ slug lastmod, entry = urlEntryText siteUrl slug lastmod ∧ isSafeText slug = true ∧
    isSafeText lastmod = true

end Xml

/-- The record `{slug: 'a&b'}`. -/
def recordAmpersand : JSValue := .obj [("slug", .str "a&b")]

/-- Every record's slug, when truthy, prints as a text that can stand in
character data as it is. -/
def SafeSlugs (products : List JSValue) : Prop :=
  ∀ p ∈ products, ∀ slug text, p.getProp "slug" = .ok slug → slug.truthy = true →
    slug.toJSString = .ok text → Xml.isSafeText text = true

/-! ## The script as a whole -/

/-- The delay of the global timer, in milliseconds. -/
def globalTimeoutMs : Nat := 30000

/-- How long the requests take: `timing page attempt` is the time in
milliseconds from the call of `httpGet` to the event that ends the request
number `attempt` for page `page`. -/
abbrev Timing := Nat → Nat → Nat

/-- The time `main` stays suspended at one of its awaits; the synchronous
steps take no time. -/
def awaitTime (timing : Timing) : Effect → Nat
  | .request page attempt _ _ => timing page attempt
  | .delay ms => ms
  | .write _ => 0

/-- The awaits of `main` that have begun when the global timer fires, the
last of them still pending, given the awaits `main` would go through and the
time elapsed so far; `none` when `main` is through all of them before the
timer is due.  An await that would end at the very millisecond of the deadline
loses to the timer. -/
def begunAtDeadline (timing : Timing) (elapsed : Nat) : List Effect → Option (List Effect)
  | [] => none
  | eff :: rest =>
    if elapsed + awaitTime timing eff < globalTimeoutMs then
      match begunAtDeadline timing (elapsed + awaitTime timing eff) rest with
      | some begun => some (eff :: begun)
      | none => none
    else some [eff]

/-- The exit code of a Node.js process that an uncaught exception ends. -/
def uncaughtExceptionExitCode : Nat := 1

/-- The script from `setTimeout(..., 30000)` to the end of the process: its
effects and its exit code.  The awaits of `main` are those of
`fetchProducts`; what `main` does after them is synchronous up to the
handlers of `main().then(...).catch(...)`, so the timer fires either while one
of these awaits is pending or not at all. -/
def script (rt : Runtime) (net : Net) (timing : Timing) : List Effect × Nat :=
  match begunAtDeadline timing 0 (fetchProducts rt net).1 with
  | some begun =>
    match writeSitemap rt (generateFallbackSitemap (rt.clock 0)) with
    | (written, .ok _) => (begun ++ written, 0)
    | (written, .error _) => (begun ++ written, uncaughtExceptionExitCode)
  | none =>
    match main rt net with
    | (effects, .ok _) => (effects, 0)
    | (effects, .error _) => (effects, 0)

/-! ## Pages and requests of a run -/

/-- The value of `data` with which the inner loop leaves page `page`. -/
def pageData (rt : Runtime) (net : Net) (page : Nat) : JSValue :=
  (retryLoop rt net page 0 .null).2

/-- The records that a page whose `data` is truthy adds to `products`: the
items of `data.content` when that is an array, none otherwise. -/
def contentItems (data : JSValue) : List JSValue :=
  match data.getProp "content" with
  | .ok (.arr items) => items
  | _ => []

/-- Whether an effect is a request for page `page`. -/
def isRequestFor (page : Nat) : Effect → Bool
  | .request p _ _ _ => p == page
  | _ => false

/-- Whether an effect is a request. -/
def isRequest : Effect → Bool
  | .request _ _ _ _ => true
  | _ => false

/-! ## Finding one text in another -/

/-- The number of places of a text at which `pat` begins. -/
def countSub (pat : List Char) : List Char → Nat
  | [] => 0
  | c :: rest => countSub pat rest + (if pat.isPrefixOf (c :: rest) then 1 else 0)

/-- How often the text `pat` occurs in `text`. -/
def occurrences (pat text : String) : Nat := countSub pat.data text.data

/-- Reading `seg` adds `k` to the count of `pat`, whatever text follows: no
place at which `pat` begins lies across the end of `seg`. -/
def CountsIn (pat seg : List Char) (k : Nat) : Prop :=
  ∀ rest, countSub pat (seg ++ rest) = countSub pat rest + k

/-! ## Further example inputs -/

/-- The example runtime on a machine whose output directory cannot be written:
every write throws. -/
def brokenDiskRuntime : Runtime :=
  { exampleRuntime with fsWrite := fun _ => .error (.error "EACCES: permission denied") }

/-- The example runtime with a `JSON.parse` that also knows three more bodies
by name: `NULL` is the JSON text `null`, `NOCONTENT` an object with
`totalPages: 3` and no `content`, `THREE` a page of one record with
`totalPages: 3`. -/
def looseRuntime : Runtime :=
  { exampleRuntime with
    jsonParse := fun body =>
      if body = "NULL" then some .null
      else if body = "NOCONTENT" then some (.obj [("totalPages", .num 3)])
      else if body = "THREE" then
        some (.obj [("content", .arr [.obj [("slug", .str "q")]]), ("totalPages", .num 3)])
      else exampleRuntime.jsonParse body }

/-- The example runtime with a `JSON.parse` that knows one more body by name:
`FIFTYONLY` is an object with `totalPages: 50` and no `content`. -/
def countOnlyRuntime : Runtime :=
  { exampleRuntime with
    jsonParse := fun body =>
      if body = "FIFTYONLY" then some (.obj [("totalPages", .num 50)])
      else exampleRuntime.jsonParse body }

/-- Requests that take four seconds each. -/
def fourSeconds : Timing := fun _ _ => 4000

/-- Requests that take a tenth of a second each. -/
def quick : Timing := fun _ _ => 100

/-! ## The writes of a run -/

/-- Whether an effect is a write of the output file. -/
def isWrite : Effect → Bool
  | .write _ => true
  | _ => false

/-! ## More of the JavaScript values -/

namespace JSValue

/-- Whether a value is a primitive: no array and no object. -/
def isPrimitive : JSValue → Bool
  | arr _ => false
  | obj _ => false
  | _ => true

/-- The test `a === b` when one of the two is a primitive: the same type
and the same value.  An array or an object is a reference, and equals no
primitive. -/
def strictEq : JSValue → JSValue → Bool
  | undefined, undefined => true
  | null, null => true
  | bool a, bool b => a == b
  | num a, num b => a == b
  | str a, str b => a == b
  | _, _ => false

end JSValue

/-! ## The SEO utilities (`src/utils/seo.js`) -/

namespace Seo

/-- The constant `SITE_NAME`. -/
def SITE_NAME : String := "سماح ستور - Samah Store"

/-- The constant `SITE_URL`. -/
def SITE_URL : String := "https://samah-store.tech"

/-- The constant `DEFAULT_IMAGE`. -/
def DEFAULT_IMAGE : String := "/assets/heroImage.jpg"

/-- The constant `DEFAULT_DESCRIPTION`. -/
def DEFAULT_DESCRIPTION : String :=
  "سماح ستور - متجر أزياء نسائية عصرية وأنيقة. تسوقي أحدث الموديلات بأفضل الأسعار مع توصيل سريع في الأردن."

/-- The call `s.startsWith(p)` on strings. -/
def startsWith (s p : String) : Bool := p.data.isPrefixOf s.data

/-- A list of characters without the slashes at its end. -/
def dropTrailingSlashes : List Char → List Char
  | [] => []
  | c :: rest =>
    match dropTrailingSlashes rest with
    | [] => if c = '/' then [] else [c]
    | kept => c :: kept

/-- The call `s.replace(/\/+$/, '')`: the one match of the pattern, if any, is
the run of slashes at the end of `s`. -/
def stripTrailingSlashes (s : String) : String := String.mk (dropTrailingSlashes s.data)

/-- The first step of `normalizeUrl`, "make absolute": the initial value of
`normalized`. -/
def makeAbsolute (url : String) : String :=
  if startsWith url "http" then url
  else SITE_URL ++ (if startsWith url "/" then "" else "/") ++ url

/-- The function `normalizeUrl`, on a string. -/
def normalizeUrl (url : String) : String :=
  let normalized := makeAbsolute url
  if normalized ≠ SITE_URL ∧ normalized ≠ SITE_URL ++ "/" then stripTrailingSlashes normalized
  else SITE_URL ++ "/"

/-- Whether a text ends with a slash. -/
def endsWithSlash (s : String) : Bool := s.data.getLast? == some '/'

end Seo

namespace Seo

/-! ### The document as `updatePageMeta` sees it -/

/-- An element of the document: its tag name, in lower case, and its
attributes. -/
structure Element where
  tag : String
  attrs : List (String × String)
  deriving DecidableEq, Repr

/-- The document: its title, the elements inside `document.head` in tree
order, and the elements of the rest of the document in tree order. -/
structure Document where
  title : String
  head : List Element
  rest : List Element
  deriving DecidableEq, Repr

/-- The call `el.getAttribute(name)`. -/
def getAttribute (attrs : List (String × String)) (name : String) : Option String :=
  match attrs with
  | [] => none
  | (k, v) :: more => if k = name then some v else getAttribute more name

/-- The call `el.setAttribute(name, value)`: the value of the attribute is
replaced, or the attribute is added. -/
def setAttribute (attrs : List (String × String)) (name value : String) :
    List (String × String) :=
  match attrs with
  | [] => [(name, value)]
  | (k, v) :: more =>
    if k = name then (k, value) :: more else (k, v) :: setAttribute more name value

/-- A selector of the form `tag[attr="value"]`. -/
structure Selector where
  tag : String
  attr : String
  value : String
  deriving DecidableEq, Repr

/-- Whether the value of an attribute is the one a selector asks for.  The
values of `rel` are compared without regard to ASCII case, as HTML documents
have it; those of `name` and `property` are compared as they are. -/
def valueMatches (attr asked actual : String) : Bool :=
  if attr = "rel" then asked.toLower = actual.toLower else asked = actual

/-- Whether an element matches a selector. -/
def selects (sel : Selector) (el : Element) : Bool :=
  el.tag = sel.tag &&
    match getAttribute el.attrs sel.attr with
    | some actual => valueMatches sel.attr sel.value actual
    | none => false

/-- The elements of the document in tree order: what `document.querySelector`
and `document.querySelectorAll` search. -/
def Document.elements (doc : Document) : List Element := doc.head ++ doc.rest

/-- The call `document.querySelectorAll(sel).length`. -/
def countMatches (sel : Selector) (doc : Document) : Nat :=
  (doc.elements.filter (selects sel)).length

/-- The first element of a list that matches the selector gets the attribute
`name` set to `value`; `none` when no element matches. -/
def setOnFirst (sel : Selector) (name value : String) : List Element → Option (List Element)
  | [] => none
  | el :: more =>
    if selects sel el then some ({ el with attrs := setAttribute el.attrs name value } :: more)
    else
      match setOnFirst sel name value more with
      | some changed => some (el :: changed)
      | none => none

/-- The pattern that `setMeta` and the canonical block share: the first
element that `document.querySelector(sel)` finds, or else a new element with
the attribute of the selector, appended to `document.head`, gets the attribute
`name` set to `value`. -/
def findOrCreate (sel : Selector) (name value : String) (doc : Document) : Document :=
  match setOnFirst sel name value doc.head with
  | some head => { doc with head := head }
  | none =>
    match setOnFirst sel name value doc.rest with
    | some rest => { doc with rest := rest }
    | none =>
      { doc with
        head := doc.head ++
          [{ tag := sel.tag, attrs := setAttribute [(sel.attr, sel.value)] name value }] }

/-- The helper `setMeta(name, content, isProperty)` of `updatePageMeta`. -/
def setMeta (name content : String) (isProperty : Bool) (doc : Document) : Document :=
  findOrCreate { tag := "meta", attr := if isProperty then "property" else "name", value := name }
    "content" content doc

/-- The canonical block of `updatePageMeta`. -/
def setCanonical (href : String) (doc : Document) : Document :=
  findOrCreate { tag := "link", attr := "rel", value := "canonical" } "href" href doc

/-- The argument of `updatePageMeta`, an object of which the function reads
six properties; `none` is a property that is `undefined`, for which the
default value stands in. -/
structure PageMeta where
  title : Option String
  description : Option String
  image : Option String
  url : Option String
  type : Option String
  noindex : Option Bool

/-- The function `updatePageMeta`; `pathname` is `window.location.pathname`. -/
def updatePageMeta (pathname : String) (args : PageMeta) (doc : Document) : Document :=
  let description := args.description.getD DEFAULT_DESCRIPTION
  let image := args.image.getD DEFAULT_IMAGE
  let url := args.url.getD pathname
  let type := args.type.getD "website"
  let noindex := args.noindex.getD false
  let fullTitle :=
    match args.title with
    | some title => if title ≠ "" then title ++ " | " ++ SITE_NAME else SITE_NAME
    | none => SITE_NAME
  let doc := { doc with title := fullTitle }
  let canonicalUrl := normalizeUrl url
  let imageUrl :=
    if startsWith image "http" then image
    else SITE_URL ++ (if startsWith image "/" then "" else "/") ++ image
  let doc := setMeta "description" description false doc
  let doc := setMeta "robots" (if noindex then "noindex, nofollow" else "index, follow") false doc
  let doc := setCanonical canonicalUrl doc
  let doc := setMeta "og:title" fullTitle true doc
  let doc := setMeta "og:description" description true doc
  let doc := setMeta "og:image" imageUrl true doc
  let doc := setMeta "og:url" canonicalUrl true doc
  let doc := setMeta "og:type" type true doc
  let doc := setMeta "og:site_name" SITE_NAME true doc
  let doc := setMeta "og:locale" "ar_JO" true doc
  let doc := setMeta "twitter:card" "summary_large_image" false doc
  let doc := setMeta "twitter:title" fullTitle false doc
  let doc := setMeta "twitter:description" description false doc
  let doc := setMeta "twitter:image" imageUrl false doc
  doc

/-- The tags that `updatePageMeta` manages, as selectors. -/
def managedTags : List Selector :=
  [{ tag := "meta", attr := "name", value := "description" },
   { tag := "meta", attr := "name", value := "robots" },
   { tag := "link", attr := "rel", value := "canonical" },
   { tag := "meta", attr := "property", value := "og:title" },
   { tag := "meta", attr := "property", value := "og:description" },
   { tag := "meta", attr := "property", value := "og:image" },
   { tag := "meta", attr := "property", value := "og:url" },
   { tag := "meta", attr := "property", value := "og:type" },
   { tag := "meta", attr := "property", value := "og:site_name" },
   { tag := "meta", attr := "property", value := "og:locale" },
   { tag := "meta", attr := "name", value := "twitter:card" },
   { tag := "meta", attr := "name", value := "twitter:title" },
   { tag := "meta", attr := "name", value := "twitter:description" },
   { tag := "meta", attr := "name", value := "twitter:image" }]

/-- The document after a series of calls of `updatePageMeta`, the first call
first. -/
def updatePageMetaAll (pathname : String) : List PageMeta → Document → Document
  | [], doc => doc
  | args :: more, doc => updatePageMetaAll pathname more (updatePageMeta pathname args doc)

/-- A document with an empty head. -/
def emptyDocument : Document := { title := "", head := [], rest := [] }

/-- The argument `{ title: 'Cart', noindex: true }`. -/
def cartMeta : PageMeta :=
  { title := some "Cart", description := none, image := none, url := some "/cart",
    type := none, noindex := some true }

/-- The argument `{}`. -/
def plainMeta : PageMeta :=
  { title := none, description := none, image := none, url := none, type := none,
    noindex := none }

end Seo

namespace Seo

/-- One find-or-create step: the selector, and the attribute and value that
are set. -/
structure MetaStep where
  sel : Selector
  name : String
  value : String

/-- A series of find-or-create steps, the first one first. -/
def applySteps : List MetaStep → Document → Document
  | [], doc => doc
  | st :: more, doc => applySteps more (findOrCreate st.sel st.name st.value doc)

/-- Whether the element that a step for `made` creates matches `sel`. -/
def newElementSelects (sel made : Selector) : Bool :=
  made.tag = sel.tag && (made.attr = sel.attr && valueMatches sel.attr sel.value made.value)

/-- The find-or-create steps of one call of `updatePageMeta`, in the order
of the calls of `setMeta` and the canonical block, for the given values. -/
def pageMetaSteps (description robots canonicalUrl fullTitle imageUrl type : String) :
    List MetaStep :=
  [{ sel := { tag := "meta", attr := "name", value := "description" },
     name := "content", value := description },
   { sel := { tag := "meta", attr := "name", value := "robots" },
     name := "content", value := robots },
   { sel := { tag := "link", attr := "rel", value := "canonical" },
     name := "href", value := canonicalUrl },
   { sel := { tag := "meta", attr := "property", value := "og:title" },
     name := "content", value := fullTitle },
   { sel := { tag := "meta", attr := "property", value := "og:description" },
     name := "content", value := description },
   { sel := { tag := "meta", attr := "property", value := "og:image" },
     name := "content", value := imageUrl },
   { sel := { tag := "meta", attr := "property", value := "og:url" },
     name := "content", value := canonicalUrl },
   { sel := { tag := "meta", attr := "property", value := "og:type" },
     name := "content", value := type },
   { sel := { tag := "meta", attr := "property", value := "og:site_name" },
     name := "content", value := SITE_NAME },
   { sel := { tag := "meta", attr := "property", value := "og:locale" },
     name := "content", value := "ar_JO" },
   { sel := { tag := "meta", attr := "name", value := "twitter:card" },
     name := "content", value := "summary_large_image" },
   { sel := { tag := "meta", attr := "name", value := "twitter:title" },
     name := "content", value := fullTitle },
   { sel := { tag := "meta", attr := "name", value := "twitter:description" },
     name := "content", value := description },
   { sel := { tag := "meta", attr := "name", value := "twitter:image" },
     name := "content", value := imageUrl }]

end Seo

namespace Seo

/-! ### The product schema -/

/-- The numeric functions of the host that `getProductSchema` calls.  They
are parameters: every theorem holds for all of them. -/
structure SchemaHost where
  /-- The text `Number(v).toFixed(2)` for a primitive `v`. -/
  toFixed2 : JSValue → String
  /-- The test `s > 0` for a string `s`. -/
  stringGtZero : String → Bool

/-- Whether a value is `null` or `undefined`. -/
def isNullish : JSValue → Bool
  | .undefined => true
  | .null => true
  | _ => false

/-- The read `v?.key`, for the keys that `getProductSchema` reads. -/
def optionalProp (v : JSValue) (key : String) : JSValue :=
  match v with
  | .obj fields => JSValue.lookupField key fields
  | _ => .undefined

/-- The read `v[0]` of a value that is neither `null` nor `undefined`: the
first item of an array, the first character of a string, the property `0` of
an object. -/
def firstItem (v : JSValue) : JSValue :=
  match v with
  | .arr (x :: _) => x
  | .str s =>
    match s.data with
    | c :: _ => .str (String.singleton c)
    | [] => .undefined
  | .obj fields => JSValue.lookupField "0" fields
  | _ => .undefined

/-- The comparison `v > 0`.  A number is compared as such, `true` counts as
1, `null` and `false` as 0, `undefined` and a plain object as `NaN`; a string is
read as a number by the host, an array by way of its string. -/
def gtZero (host : SchemaHost) (v : JSValue) : Except JSError Bool :=
  match v with
  | .undefined => .ok false
  | .null => .ok false
  | .bool b => .ok b
  | .num n => .ok (decide (0 < n))
  | .str s => .ok (host.stringGtZero s)
  | .arr items =>
    match JSValue.toJSString (.arr items) with
    | .error e => .error e
    | .ok s => .ok (host.stringGtZero s)
  | .obj fields => if JSValue.hasField "toString" fields then .error .typeError else .ok false

/-- The text `Number(price).toFixed(2)`: an array or an object is first turned
into a string. -/
def priceText (host : SchemaHost) (price : JSValue) : Except JSError String :=
  match price with
  | .arr items =>
    match JSValue.toJSString (.arr items) with
    | .error e => .error e
    | .ok s => .ok (host.toFixed2 (.str s))
  | .obj fields =>
    match JSValue.toJSString (.obj fields) with
    | .error e => .error e
    | .ok s => .ok (host.toFixed2 (.str s))
  | v => .ok (host.toFixed2 v)

/-- The constant `variant` of `getProductSchema`:
`selectedVariant || (product.variants && product.variants[0])`. -/
def effectiveVariant (product selectedVariant : JSValue) : Except JSError JSValue :=
  if selectedVariant.truthy then .ok selectedVariant
  else
    match product.getProp "variants" with
    | .error e => .error e
    | .ok variants => if variants.truthy then .ok (firstItem variants) else .ok variants

/-- The constant `inStock` of `getProductSchema`:
`variant ? variant.stockQuantity > 0 : true`. -/
def inStockOf (host : SchemaHost) (variant : JSValue) : Except JSError Bool :=
  if variant.truthy then gtZero host (optionalProp variant "stockQuantity") else .ok true

/-- The property `description` of the schema:
`product.description || (product.name + " - ...")`. -/
def descriptionOf (described name : JSValue) : Except JSError JSValue :=
  if described.truthy then .ok described
  else
    match name.toJSString with
    | .error e => .error e
    | .ok text => .ok (JSValue.str (text ++ " - منتج من سماح ستور"))

/-- The property `price` of the offer:
`price ? Number(price).toFixed(2) : '0.00'`. -/
def priceShownOf (host : SchemaHost) (price : JSValue) : Except JSError String :=
  if price.truthy then priceText host price else .ok "0.00"

/-- The function `getProductSchema`; a `selectedVariant` that is not given
is `null`. -/
def getProductSchema (host : SchemaHost) (product selectedVariant : JSValue) :
    Except JSError JSValue :=
  match effectiveVariant product selectedVariant with
  | .error e => .error e
  | .ok variant =>
  match (if (optionalProp variant "price").truthy then .ok (optionalProp variant "price")
          else product.getProp "minVariantPrice") with
  | .error e => .error e
  | .ok price =>
  match inStockOf host variant with
  | .error e => .error e
  | .ok inStock =>
  match product.getProp "images" with
  | .error e => .error e
  | .ok images =>
  let first := if isNullish images then JSValue.undefined else firstItem images
  let url := optionalProp first "url"
  let image := if url.truthy then url else JSValue.str DEFAULT_IMAGE
  match product.getProp "name" with
  | .error e => .error e
  | .ok name =>
  match product.getProp "description" with
  | .error e => .error e
  | .ok described =>
  match descriptionOf described name with
  | .error e => .error e
  | .ok description =>
  match image with
  | .str imageText =>
    match product.getProp "slug" with
    | .error e => .error e
    | .ok slug =>
    match slug.toJSString with
    | .error e => .error e
    | .ok slugText =>
    match product.getProp "category" with
    | .error e => .error e
    | .ok category =>
    match priceShownOf host price with
    | .error e => .error e
    | .ok priceShown =>
      .ok (.obj
        [("@context", .str "https://schema.org"),
         ("@type", .str "Product"),
         ("name", name),
         ("description", description),
         ("image", .str (if startsWith imageText "http" then imageText else SITE_URL ++ imageText)),
         ("url", .str (SITE_URL ++ "/products/" ++ slugText)),
         ("brand", .obj [("@type", .str "Brand"), ("name", .str "سماح ستور")]),
         ("category", optionalProp category "name"),
         ("offers", .obj
           [("@type", .str "Offer"),
            ("url", .str (SITE_URL ++ "/products/" ++ slugText)),
            ("priceCurrency", .str "JOD"),
            ("price", .str priceShown),
            ("availability",
              .str (if inStock then "https://schema.org/InStock"
                    else "https://schema.org/OutOfStock")),
            ("seller", .obj [("@type", .str "Organization"), ("name", .str "سماح ستور")])])])
  | _ => .error .typeError

/-- The value of `schema.offers.availability`. -/
def availabilityOf (schema : JSValue) : JSValue :=
  optionalProp (optionalProp schema "offers") "availability"

/-- A variant as the API gives it: an object whose `stockQuantity`, when
given, is a number and whose `price` is a primitive. -/
def isVariant (v : JSValue) : Bool :=
  match v with
  | .obj fields =>
    (match JSValue.lookupField "stockQuantity" fields with
      | .num _ => true
      | .undefined => true
      | .null => true
      | _ => false) &&
      (JSValue.lookupField "price" fields).isPrimitive
  | _ => false

/-- The first variant of a product, `product.variants && product.variants[0]`,
for a product that is an object. -/
def firstVariant (product : JSValue) : JSValue :=
  if (optionalProp product "variants").truthy then firstItem (optionalProp product "variants")
  else optionalProp product "variants"

/-- A product as the API gives it: an object whose `name`, `slug` and
`minVariantPrice` are primitives, whose `images`, when given, is an array
of objects with a string `url`, and whose `variants`, when given, is an array
of variants. -/
def isProduct (p : JSValue) : Bool :=
  match p with
  | .obj fields =>
    (JSValue.lookupField "name" fields).isPrimitive &&
    (JSValue.lookupField "slug" fields).isPrimitive &&
    (JSValue.lookupField "minVariantPrice" fields).isPrimitive &&
    (match JSValue.lookupField "images" fields with
      | .undefined => true
      | .null => true
      | .arr [] => true
      | .arr (.obj image :: _) =>
        (match JSValue.lookupField "url" image with
          | .str _ => true
          | .undefined => true
          | .null => true
          | _ => false)
      | _ => false) &&
    (match JSValue.lookupField "variants" fields with
      | .undefined => true
      | .null => true
      | .arr [] => true
      | .arr (v :: _) => isVariant v
      | _ => false)
  | _ => false

/-- A host for the examples. -/
def exampleSchemaHost : SchemaHost where
  toFixed2 := fun v =>
    match v with
    | .num n => toString n ++ ".00"
    | _ => "NaN"
  stringGtZero := fun _ => false

/-- A product with two variants, the first of them out of stock. -/
def exampleProduct : JSValue :=
  .obj [("name", .str "Dress"), ("slug", .str "dress"), ("minVariantPrice", .num 20),
    ("variants", .arr [.obj [("price", .num 25), ("stockQuantity", .num 0)],
                       .obj [("price", .num 20), ("stockQuantity", .num 4)]])]

/-- The second variant of the example product. -/
def exampleVariant : JSValue := .obj [("price", .num 20), ("stockQuantity", .num 4)]

end Seo

/-! ## Colour swatches (`OrderDetailsPage.jsx`, `admin/AdminOrders.jsx`) -/

/-- What a property read `map[key]` on an object literal yields. -/
inductive Looked where
  /-- The value of an own property of the literal. -/
  | own (value : String) : Looked
  /-- The property of that name of `Object.prototype`: a function, or for
  `__proto__` the prototype itself; truthy, and no string. -/
  | inherited (key : String) : Looked
  /-- No such property. -/
  | undefined : Looked
  deriving DecidableEq, Repr

/-- The names of the properties of `Object.prototype`. -/
def objectPrototypeKeys : List String :=
  ["constructor", "__defineGetter__", "__defineSetter__", "hasOwnProperty",
   "__lookupGetter__", "__lookupSetter__", "isPrototypeOf", "propertyIsEnumerable",
   "toString", "valueOf", "__proto__", "toLocaleString"]

/-- The value of the first property of that name in an object literal. -/
def ownProperty (key : String) : List (String × String) → Option String
  | [] => none
  | (k, v) :: rest => if k = key then some v else ownProperty key rest

/-- The property read `map[key]` for a string `key` on an object literal with
string values: an own property first, then `Object.prototype`. -/
def readProperty (map : List (String × String)) (key : String) : Looked :=
  match ownProperty key map with
  | some v => .own v
  | none => if key ∈ objectPrototypeKeys then .inherited key else .undefined

/-- JavaScript `ToBoolean` of what a property read yields. -/
def Looked.truthy : Looked → Bool
  | .own value => value != ""
  | .inherited _ => true
  | .undefined => false

/-- The string methods of the host that the components call.  They are
parameters: every theorem holds for all of them. -/
structure StringHost where
  /-- The method `toLowerCase`. -/
  toLowerCase : String → String
  /-- The method `trim`. -/
  trim : String → String

/-- What `getColorHex` returns. -/
inductive ColorHex where
  /-- The value `null`. -/
  | null : ColorHex
  /-- A string. -/
  | hex (value : String) : ColorHex
  /-- A property of `Object.prototype`, which is no string. -/
  | inherited (key : String) : ColorHex
  deriving DecidableEq, Repr

/-- What a property read yields when it is truthy, as `getColorHex` can
return it; `none` when it is falsy. -/
def Looked.value? : Looked → Option ColorHex
  | .own value => if value != "" then some (.hex value) else none
  | .inherited key => some (.inherited key)
  | .undefined => none

/-- The value of `a || b || null` for two property reads. -/
def firstTruthy (a b : Looked) : ColorHex :=
  match a.value? with
  | some found => found
  | none =>
    match b.value? with
    | some found => found
    | none => .null

/-- What `ColorSwatch` renders: the `style.backgroundColor`, whether the
border classes are there, and the `title`. -/
structure Swatch where
  backgroundColor : String
  bordered : Bool
  title : JSValue

/-- The body that the two copies of `ColorSwatch` share after the call of
`getColorHex`: `null` for a falsy `hex`, otherwise `hex.toLowerCase()` is
called, which only a string has. -/
def renderSwatch (host : StringHost) (color : JSValue) (hex : ColorHex) :
    Except JSError (Option Swatch) :=
  match hex with
  | .null => .ok none
  | .hex value =>
    .ok (some { backgroundColor := value, bordered := host.toLowerCase value = "#ffffff",
                title := color })
  | .inherited _ => .error .typeError

namespace OrderDetailsPage

/-- The constant `COLOR_HEX_MAP` of `OrderDetailsPage.jsx`. -/
def COLOR_HEX_MAP : List (String × String) :=
  [("أحمر", "#dc2626"), ("أزرق", "#2563eb"), ("أخضر", "#16a34a"), ("أصفر", "#eab308"),
   ("برتقالي", "#ea580c"), ("بنفسجي", "#9333ea"), ("وردي", "#ec4899"), ("أسود", "#171717"),
   ("أبيض", "#ffffff"), ("رمادي", "#6b7280"), ("بني", "#92400e"), ("بيج", "#d4a574"),
   ("كحلي", "#1e3a5f"), ("ذهبي", "#d4af37"), ("فضي", "#c0c0c0"), ("سماوي", "#06b6d4"),
   ("زهري", "#f472b6"), ("كريمي", "#fffdd0"), ("عنابي", "#722f37"), ("زيتي", "#556b2f"),
   ("red", "#dc2626"), ("blue", "#2563eb"), ("green", "#16a34a"), ("yellow", "#eab308"),
   ("orange", "#ea580c"), ("purple", "#9333ea"), ("pink", "#ec4899"), ("black", "#171717"),
   ("white", "#ffffff"), ("gray", "#6b7280"), ("grey", "#6b7280"), ("brown", "#92400e"),
   ("beige", "#d4a574"), ("navy", "#1e3a5f"), ("gold", "#d4af37"), ("silver", "#c0c0c0")]

/-- The function `getColorHex` of `OrderDetailsPage.jsx`. -/
def getColorHex (host : StringHost) (colorName : JSValue) : ColorHex :=
  match colorName with
  | .str name =>
    if name = "" then .null
    else
      let normalized := host.trim (host.toLowerCase name)
      firstTruthy (readProperty COLOR_HEX_MAP name) (readProperty COLOR_HEX_MAP normalized)
  | _ => .null

/-- The component `ColorSwatch` of `OrderDetailsPage.jsx`, as far as the
colour goes. -/
def ColorSwatch (host : StringHost) (color : JSValue) : Except JSError (Option Swatch) :=
  renderSwatch host color (getColorHex host color)

end OrderDetailsPage

namespace AdminOrders

/-- The constant `COLOR_HEX_MAP` of `AdminOrders.jsx`. -/
def COLOR_HEX_MAP : List (String × String) :=
  [("أحمر", "#dc2626"), ("أزرق", "#2563eb"), ("أخضر", "#16a34a"), ("أصفر", "#eab308"),
   ("برتقالي", "#ea580c"), ("بنفسجي", "#9333ea"), ("وردي", "#ec4899"), ("أسود", "#171717"),
   ("أبيض", "#ffffff"), ("رمادي", "#6b7280"), ("بني", "#92400e"), ("بيج", "#d4a574"),
   ("كحلي", "#1e3a5f"), ("ذهبي", "#d4af37"), ("فضي", "#c0c0c0"), ("سماوي", "#06b6d4"),
   ("زهري", "#f472b6"), ("كريمي", "#fffdd0"), ("عنابي", "#722f37"), ("زيتي", "#556b2f"),
   ("red", "#dc2626"), ("blue", "#2563eb"), ("green", "#16a34a"), ("black", "#171717"),
   ("white", "#ffffff"), ("gray", "#6b7280"), ("pink", "#ec4899"), ("beige", "#d4a574")]

/-- The function `getColorHex` of `AdminOrders.jsx`. -/
def getColorHex (host : StringHost) (colorName : JSValue) : ColorHex :=
  match colorName with
  | .str name =>
    if name = "" then .null
    else
      firstTruthy (readProperty COLOR_HEX_MAP name)
        (readProperty COLOR_HEX_MAP (host.trim (host.toLowerCase name)))
  | _ => .null

/-- The component `ColorSwatch` of `AdminOrders.jsx`, as far as the colour
goes. -/
def ColorSwatch (host : StringHost) (color : JSValue) : Except JSError (Option Swatch) :=
  renderSwatch host color (getColorHex host color)

end AdminOrders

/-- A host for the examples: ASCII letters are lowered, blanks at both ends
are trimmed. -/
def asciiHost : StringHost where
  toLowerCase := fun s => s.toLower
  trim := fun s => s.trim

/-! ## The orders page of the back office (`admin/AdminOrders.jsx`) -/

namespace AdminOrders

/-- An order of the list: an object, given by its properties. -/
abbrev Order := List (String × JSValue)

/-- The property `o.id` of an order. -/
def Order.id (o : Order) : JSValue := JSValue.lookupField "id" o

/-- The state of the component that `handleStatusUpdate` reads and sets. -/
structure OrdersState where
  orders : List Order
  filteredOrders : List Order
  statusFilter : String
  deliveredTab : Bool

/-- The updater `prev => prev.filter(o => o.id !== orderId)`. -/
def removeOrder (orderId : JSValue) (prev : List Order) : List Order :=
  prev.filter (fun o => !(o.id.strictEq orderId))

/-- How a call of `handleStatusUpdate` goes on the outside: what
`window.confirm` returns, whether `adminApi.updateOrderStatus` resolves, and
what `loadOrders` sets as `orders` if it is called (`none` when its request
fails and it sets nothing). -/
structure UpdateRun where
  confirmed : Bool
  updated : Bool
  reloaded : Option (List Order)

/-- The function `handleStatusUpdate`: the state after the call. -/
def handleStatusUpdate (run : UpdateRun) (orderId : JSValue) (newStatus : String)
    (s : OrdersState) : OrdersState :=
  if !run.confirmed then s
  else if !run.updated then s
  else if newStatus = "FAILED_PICKUP" ∨ (newStatus = "DELIVERED" ∧ s.deliveredTab = false) then
    { s with orders := removeOrder orderId s.orders,
             filteredOrders := removeOrder orderId s.filteredOrders }
  else
    match run.reloaded with
    | some content => { s with orders := content }
    | none => s

/-- The filter of the effect on `[orders, statusFilter]`: what it sets as
`filteredOrders`. -/
def applyFilter (statusFilter : String) (orders : List Order) : List Order :=
  if statusFilter = "" then orders
  else if statusFilter = "UNASSIGNED" then
    orders.filter (fun o => !(JSValue.lookupField "assignedEmployee" o).truthy)
  else if statusFilter = "ASSIGNED" then
    orders.filter (fun o => (JSValue.lookupField "assignedEmployee" o).truthy)
  else
    orders.filter (fun o => (JSValue.lookupField "status" o).strictEq (.str statusFilter))

/-- The state once the effect on `[orders, statusFilter]` has run. -/
def afterEffect (s : OrdersState) : OrdersState :=
  { s with filteredOrders := applyFilter s.statusFilter s.orders }

/-- A list of three orders with the ids 1, 2 and 1. -/
def threeOrders : List Order :=
  [[("id", .num 1), ("status", .str "SHIPPED")], [("id", .num 2), ("status", .str "NEW")],
   [("id", .num 1), ("status", .str "NEW")]]

/-- A run in which the user confirms and the API call succeeds. -/
def successfulRun : UpdateRun := { confirmed := true, updated := true, reloaded := none }

end AdminOrders

/-! ## The form of the administrators page (`admin/AdminUsers.jsx`) -/

namespace AdminUsers

/-- The white space of the language: what `trim` removes and what `\s`
matches (the code points `WhiteSpace` and `LineTerminator`). -/
def isWhiteSpace (c : Char) : Bool :=
  c.val = 0x9 || c.val = 0xA || c.val = 0xB || c.val = 0xC || c.val = 0xD || c.val = 0x20 ||
  c.val = 0xA0 || c.val = 0x1680 || (0x2000 ≤ c.val && c.val ≤ 0x200A) || c.val = 0x2028 ||
  c.val = 0x2029 || c.val = 0x202F || c.val = 0x205F || c.val = 0x3000 || c.val = 0xFEFF

/-- The method `trim` of a string. -/
def trim (s : String) : String :=
  String.mk ((s.data.dropWhile isWhiteSpace).reverse.dropWhile isWhiteSpace).reverse

/-- The property `length` of a string: the number of its UTF-16 code units,
two for a character outside the basic plane. -/
def length (s : String) : Nat :=
  s.data.foldr (fun c n => (if c.val ≥ 0x10000 then 2 else 1) + n) 0

/-- A regular expression over characters, as far as the pattern of the form
needs it. -/
inductive Regex where
  /-- Matches nothing. -/
  | nothing : Regex
  /-- Matches the empty text. -/
  | empty : Regex
  /-- Matches one character of a class. -/
  | cls (p : Char → Bool) : Regex
  /-- One expression after the other. -/
  | seq (a b : Regex) : Regex
  /-- One expression or the other. -/
  | alt (a b : Regex) : Regex
  /-- An expression any number of times. -/
  | star (a : Regex) : Regex

namespace Regex

/-- Whether the expression matches the empty text. -/
def nullable : Regex → Bool
  | nothing => false
  | empty => true
  | cls _ => false
  | seq a b => a.nullable && b.nullable
  | alt a b => a.nullable || b.nullable
  | star _ => true

/-- The expression for what may follow the character `c`. -/
def deriv (c : Char) : Regex → Regex
  | nothing => nothing
  | empty => nothing
  | cls p => if p c then empty else nothing
  | seq a b => if a.nullable then alt (seq (a.deriv c) b) (b.deriv c) else seq (a.deriv c) b
  | alt a b => alt (a.deriv c) (b.deriv c)
  | star a => seq (a.deriv c) (star a)

/-- Whether the expression matches the whole of a text: the test
`/^...$/.test(text)`. -/
def test (r : Regex) : List Char → Bool
  | [] => r.nullable
  | c :: rest => test (r.deriv c) rest

/-- An expression once or more: `a+`. -/
def plus (a : Regex) : Regex := seq a (star a)

/-- An expression that is certain to match no text. -/
def isDead : Regex → Bool
  | nothing => true
  | empty => false
  | cls _ => false
  | seq a b => a.isDead || b.isDead
  | alt a b => a.isDead && b.isDead
  | star _ => false

end Regex

/-- The class `[^\s@]`. -/
def notSpaceNorAt (c : Char) : Bool := !isWhiteSpace c && c != '@'

/-- The pattern `^[^\s@]+@[^\s@]+\.[^\s@]+$`. -/
def emailPattern : Regex :=
  .seq (Regex.plus (.cls notSpaceNorAt))
    (.seq (.cls (fun c => c == '@'))
      (.seq (Regex.plus (.cls notSpaceNorAt))
        (.seq (.cls (fun c => c == '.')) (Regex.plus (.cls notSpaceNorAt)))))

/-- The state `formData`. -/
structure FormData where
  username : String
  email : String
  password : String

/-- The function `validateForm`: the object `errors` that it passes to
`setFormErrors`, by its properties in the order in which they are set, and the
value it returns. -/
def validateForm (formData : FormData) : List (String × String) × Bool :=
  let errors : List (String × String) := []
  let errors :=
    if trim formData.username = "" then errors ++ [("username", "اسم المستخدم مطلوب")]
    else if length formData.username < 3 then
      errors ++ [("username", "اسم المستخدم يجب أن يكون 3 أحرف على الأقل")]
    else errors
  let errors :=
    if trim formData.email = "" then errors ++ [("email", "البريد الإلكتروني مطلوب")]
    else if !(emailPattern.test formData.email.data) then
      errors ++ [("email", "البريد الإلكتروني غير صالح")]
    else errors
  let errors :=
    if formData.password = "" then errors ++ [("password", "كلمة المرور مطلوبة")]
    else if length formData.password < 8 then
      errors ++ [("password", "كلمة المرور يجب أن تكون 8 أحرف على الأقل")]
    else errors
  (errors, errors.length == 0)

end AdminUsers


/-! # Properties -/

open JSValue

/-! ## Filtering -/

theorem notStrictlyFalse_eq (v : JSValue) :
    v.notStrictlyFalse = !(match v with | .bool false => true | _ => false) := by
  cases v with
  | bool b => cases b <;> rfl
  | _ => rfl

theorem keepsProduct_of_hasStringSlug (p : JSValue) (h : hasStringSlug p = true) :
    keepsProduct p = .ok (survivesFilter p) := by
  cases p with
  | obj fields =>
    simp only [hasStringSlug] at h
    simp only [keepsProduct, getProp, survivesFilter, slugIsNonEmptyString,
      activeIsExplicitlyFalse, notStrictlyFalse_eq]
    generalize lookupField "slug" fields = slug at h ⊢
    cases slug with
    | str s =>
      by_cases hs : s = "" <;> simp [truthy, hs]
    | undefined => simp [truthy]
    | null => simp [truthy]
    | _ => simp at h
  | _ => simp [hasStringSlug] at h

theorem filterProducts_of_hasStringSlug (products : List JSValue)
    (h : ∀ p ∈ products, hasStringSlug p = true) :
    filterProducts products = .ok (products.filter survivesFilter) := by
  induction products with
  | nil => rfl
  | cons p rest ih =>
    have hp := keepsProduct_of_hasStringSlug p (h p (List.mem_cons_self _ _))
    have hrest := ih (fun q hq => h q (List.mem_cons_of_mem _ hq))
    simp only [filterProducts, hp, hrest, List.filter_cons]

theorem takeWhile_append_stop {α : Type} (p : α → Bool) (l : List α) (a : α) (r : List α)
    (hl : ∀ x ∈ l, p x = true) (ha : p a = false) :
    (l ++ a :: r).takeWhile p = l := by
  induction l with
  | nil => simp [List.takeWhile, ha]
  | cons x xs ih =>
    have hx := hl x (List.mem_cons_self _ _)
    simp [List.takeWhile, hx, ih (fun y hy => hl y (List.mem_cons_of_mem _ hy))]

theorem digitChar_ne_T (n : Nat) : (digitChar n != 'T') = true := by
  unfold digitChar
  split <;> decide

theorem isoYear_no_T (y : Int) : ∀ c ∈ isoYear y, (c != 'T') = true := by
  intro c hc
  unfold isoYear at hc
  split at hc
  · simp only [pad4, pad3, pad2, List.mem_cons, List.mem_singleton, List.mem_nil_iff, or_false] at hc
    rcases hc with h | h | h | h <;> subst h <;> exact digitChar_ne_T _
  · split at hc <;>
    · simp only [pad6, pad4, pad3, pad2, List.mem_cons, List.mem_singleton, List.mem_nil_iff, or_false] at hc
      rcases hc with h | h | h | h | h | h | h <;> subst h <;> first | exact digitChar_ne_T _ | decide

theorem isoDate_no_T (t : Int) : ∀ c ∈ isoDate t, (c != 'T') = true := by
  intro c hc
  simp only [isoDate, List.mem_append, List.mem_cons, pad2, List.mem_singleton, List.mem_nil_iff, or_false] at hc
  rcases hc with (h | h | h | h) | h | h | h
  · exact isoYear_no_T _ c h
  all_goals (subst h; first | exact digitChar_ne_T _ | decide)

theorem splitTFirst_toISOString (t : Int) : splitTFirst (toISOString t) = utcDateString t := by
  simp only [splitTFirst, toISOString, utcDateString]
  rw [takeWhile_append_stop _ _ _ _ (isoDate_no_T t) (by decide)]


/-! ## The entries -/

theorem hasValidUpdatedAt_cases (rt : Runtime) (p : JSValue) (h : hasValidUpdatedAt rt p = true) :
    ∃ fields, p = .obj fields ∧
      (lookupField "updatedAt" fields = .undefined ∨ lookupField "updatedAt" fields = .null ∨
        ∃ s t, lookupField "updatedAt" fields = .str s ∧ s ≠ "" ∧ dateParse rt s = some t) := by
  cases p with
  | obj fields =>
    refine ⟨fields, rfl, ?_⟩
    simp only [hasValidUpdatedAt] at h
    generalize lookupField "updatedAt" fields = updatedAt at h ⊢
    cases updatedAt with
    | str s =>
      simp only [Bool.and_eq_true, bne_iff_ne, ne_eq, Option.isSome_iff_exists] at h
      obtain ⟨hs, t, ht⟩ := h
      exact Or.inr (Or.inr ⟨s, t, rfl, hs, ht⟩)
    | undefined => exact Or.inl rfl
    | null => exact Or.inr (Or.inl rfl)
    | _ => simp at h
  | _ => simp [hasValidUpdatedAt] at h

theorem lastmodOf_of_hasValidUpdatedAt (rt : Runtime) (now : Int) (p : JSValue)
    (h : hasValidUpdatedAt rt p = true) :
    lastmodOf rt (utcDateString now) p = .ok (specLastmod rt now p) := by
  obtain ⟨fields, rfl, hu⟩ := hasValidUpdatedAt_cases rt p h
  unfold lastmodOf specLastmod getProp
  rcases hu with hu | hu | ⟨s, t, hu, hs, ht⟩
  · simp only [hu, truthy]; rfl
  · simp only [hu, truthy]; rfl
  · have h1 : (JSValue.str s).truthy = true := by simp [truthy, hs]
    have h2 : newDate rt (.str s) = .ok (some t) := by unfold newDate; simp only [ht]
    simp only [hu, h1, if_true, h2, dateToISOString, splitTFirst_toISOString, ht]

theorem slug_toJSString_of_survives (p : JSValue) (h : survivesFilter p = true) :
    ∃ slug, p.getProp "slug" = .ok slug ∧ slug.toJSString = .ok (slugText p) := by
  cases p with
  | obj fields =>
    simp only [survivesFilter, slugIsNonEmptyString, Bool.and_eq_true] at h
    simp only [getProp, slugText]
    generalize lookupField "slug" fields = slug at h ⊢
    cases slug with
    | str s => exact ⟨_, rfl, by simp [toJSString]⟩
    | _ => simp at h
  | _ => simp [survivesFilter, slugIsNonEmptyString] at h

theorem urlEntry_of_record (rt : Runtime) (now : Int) (p : JSValue)
    (hu : hasValidUpdatedAt rt p = true) (hs : survivesFilter p = true) :
    urlEntry rt (utcDateString now) p = .ok (specUrlEntry rt now p) := by
  obtain ⟨slug, h1, h2⟩ := slug_toJSString_of_survives p hs
  unfold urlEntry
  simp only [lastmodOf_of_hasValidUpdatedAt rt now p hu, h1, h2, specUrlEntry]

theorem mapEntries_of_records (rt : Runtime) (now : Int) (kept : List JSValue)
    (h : ∀ p ∈ kept, hasValidUpdatedAt rt p = true ∧ survivesFilter p = true) :
    mapEntries rt (utcDateString now) kept = .ok (kept.map (specUrlEntry rt now)) := by
  induction kept with
  | nil => rfl
  | cons p rest ih =>
    obtain ⟨hu, hs⟩ := h p (List.mem_cons_self _ _)
    simp only [mapEntries, urlEntry_of_record rt now p hu hs,
      ih (fun q hq => h q (List.mem_cons_of_mem _ hq)), List.map_cons]

theorem generateSitemapXml_of_records (rt : Runtime) (nowToday nowGenerated : Int)
    (products : List JSValue)
    (h : ∀ p ∈ products, hasStringSlug p = true ∧ hasValidUpdatedAt rt p = true) :
    generateSitemapXml rt nowToday nowGenerated products =
      .ok (sitemapDocument (toISOString nowGenerated)
        ((products.filter survivesFilter).map (specUrlEntry rt nowToday))) := by
  have hf := filterProducts_of_hasStringSlug products (fun p hp => (h p hp).1)
  have hm := mapEntries_of_records rt nowToday (products.filter survivesFilter) (by
    intro p hp
    rw [List.mem_filter] at hp
    exact ⟨(h p hp.1).2, hp.2⟩)
  unfold generateSitemapXml urlEntries
  simp only [hf, splitTFirst_toISOString, hm]


theorem mapEntries_length (rt : Runtime) (today : String) (kept : List JSValue) :
    ∀ entries, mapEntries rt today kept = .ok entries → entries.length = kept.length := by
  induction kept with
  | nil => intro entries h; simp only [mapEntries, Except.ok.injEq] at h; subst h; rfl
  | cons p rest ih =>
    intro entries h
    unfold mapEntries at h
    cases hp : urlEntry rt today p with
    | error e => simp only [hp] at h; cases h
    | ok entry =>
      cases hr : mapEntries rt today rest with
      | error e => simp only [hp, hr] at h; cases h
      | ok others =>
        simp only [hp, hr, Except.ok.injEq] at h
        subst h
        simp [ih others hr]

/-- C1: for every list of product records (objects whose `slug`, when given,
is a string) the records that pass the filter of `generateSitemapXml` are
exactly those whose `slug` is a non-empty string and whose `active` is not
explicitly `false`: the filter returns them in input order, the `<url>` entries
are computed from them alone, one entry each. -/
theorem generateSitemapXml_filter_iff (rt : Runtime) (today : String) (products : List JSValue)
    (h : ∀ p ∈ products, hasStringSlug p = true) :
    filterProducts products = .ok (products.filter survivesFilter) ∧
    urlEntries rt today products = mapEntries rt today (products.filter survivesFilter) ∧
    (∀ entries, urlEntries rt today products = .ok entries →
      entries.length = (products.filter survivesFilter).length) ∧
    (∀ p ∈ products, p ∈ products.filter survivesFilter ↔
      (slugIsNonEmptyString p = true ∧ activeIsExplicitlyFalse p = false)) := by
  have hf := filterProducts_of_hasStringSlug products h
  have hu : urlEntries rt today products = mapEntries rt today (products.filter survivesFilter) := by
    unfold urlEntries
    simp only [hf]
  refine ⟨hf, hu, ?_, ?_⟩
  · intro entries he
    rw [hu] at he
    exact mapEntries_length rt today _ entries he
  · intro p hp
    simp [List.mem_filter, hp, survivesFilter]

/-- C1 at the three records of the specification: `{slug:'a', active:false}`
is excluded, `{slug:'b'}` is included, `{active:true}` is excluded. -/
theorem generateSitemapXml_filter_iff_witness :
    (∀ p ∈ [recordInactive, recordPlain, recordNoSlug], hasStringSlug p = true) ∧
    filterProducts [recordInactive, recordPlain, recordNoSlug] = .ok [recordPlain] :=
  ⟨by decide,
   (generateSitemapXml_filter_iff exampleRuntime "" [recordInactive, recordPlain, recordNoSlug]
      (by decide)).1⟩


/-! ## The calendar -/

theorem yearOfEra_eq (yoe doy : Int) (h0 : 0 ≤ yoe) (h1 : yoe ≤ 399) (hd0 : 0 ≤ doy)
    (hd : doy ≤ 365) (hleap : doy = 365 → (yoe % 4 = 3 ∧ (yoe % 100 ≠ 99 ∨ yoe = 399)))
    (doe : Int) (hdoe : doe = yoe * 365 + yoe / 4 - yoe / 100 + doy) :
    (doe - doe / 1460 + doe / 36524 - doe / 146096) / 365 = yoe := by
  have he : yoe / 100 = 0 ∨ yoe / 100 = 1 ∨ yoe / 100 = 2 ∨ yoe / 100 = 3 := by omega
  have hf : doe / 1460 = yoe / 4 ∨ doe / 1460 = yoe / 4 + 1 := by omega
  have hg : doe / 36524 = yoe / 100 ∨ (doe / 36524 = 4 ∧ yoe = 399 ∧ doy = 365) := by omega
  rcases he with he | he | he | he <;> rcases hf with hf | hf <;> rcases hg with hg | hg <;> omega

theorem civilFromDays_of_parts (era yoe doy : Int) (h0 : 0 ≤ yoe) (h1 : yoe ≤ 399)
    (hd0 : 0 ≤ doy) (hd : doy ≤ 365)
    (hleap : doy = 365 → (yoe % 4 = 3 ∧ (yoe % 100 ≠ 99 ∨ yoe = 399))) :
    civilFromDays (era * 146097 + (yoe * 365 + yoe / 4 - yoe / 100 + doy) - 719468) =
      (if (if (5 * doy + 2) / 153 < 10 then (5 * doy + 2) / 153 + 3 else (5 * doy + 2) / 153 - 9) ≤ 2
        then yoe + era * 400 + 1 else yoe + era * 400,
       (if (5 * doy + 2) / 153 < 10 then (5 * doy + 2) / 153 + 3
        else (5 * doy + 2) / 153 - 9).toNat,
       (doy - (153 * ((5 * doy + 2) / 153) + 2) / 5 + 1).toNat) := by
  generalize hdoe : yoe * 365 + yoe / 4 - yoe / 100 + doy = doe
  have hz : era * 146097 + doe - 719468 + 719468 = era * 146097 + doe := by omega
  have hera : (era * 146097 + doe) / 146097 = era := by omega
  have hdoe2 : era * 146097 + doe - era * 146097 = doe := by omega
  have hyoe := yearOfEra_eq yoe doy h0 h1 hd0 hd hleap doe hdoe.symm
  have hdoy : doe - (365 * yoe + yoe / 4 - yoe / 100) = doy := by omega
  simp only [civilFromDays, hz, hera, hdoe2, hyoe, hdoy]


theorem monthDay_roundtrip (m d dim : Int) (mp : Int) (hm1 : 1 ≤ m) (hm : m ≤ 12)
    (hmp : mp = if m > 2 then m - 3 else m + 9)
    (hd1 : 1 ≤ d) (hd : d ≤ dim)
    (hdim : dim ≤ 31 ∧ ((m = 4 ∨ m = 6 ∨ m = 9 ∨ m = 11) → dim ≤ 30) ∧ (m = 2 → dim ≤ 29)) :
    (5 * ((153 * mp + 2) / 5 + d - 1) + 2) / 153 = mp ∧
    ((153 * mp + 2) / 5 + d - 1) - (153 * ((5 * ((153 * mp + 2) / 5 + d - 1) + 2) / 153) + 2) / 5 + 1 = d ∧
    0 ≤ (153 * mp + 2) / 5 + d - 1 ∧ (153 * mp + 2) / 5 + d - 1 ≤ 365 ∧
    ((153 * mp + 2) / 5 + d - 1 = 365 → m = 2 ∧ d = 29) := by
  have h12 : m = 1 ∨ m = 2 ∨ m = 3 ∨ m = 4 ∨ m = 5 ∨ m = 6 ∨ m = 7 ∨ m = 8 ∨ m = 9 ∨ m = 10 ∨
      m = 11 ∨ m = 12 := by omega
  rcases h12 with h | h | h | h | h | h | h | h | h | h | h | h <;> subst h <;>
    simp only [gt_iff_lt, show ¬ ((2:Int) < 1) by decide, show ¬ ((2:Int) < 2) by decide, if_false, if_true,
      show ((2:Int) < 3) by decide, show ((2:Int) < 4) by decide, show ((2:Int) < 5) by decide,
      show ((2:Int) < 6) by decide, show ((2:Int) < 7) by decide, show ((2:Int) < 8) by decide,
      show ((2:Int) < 9) by decide, show ((2:Int) < 10) by decide, show ((2:Int) < 11) by decide,
      show ((2:Int) < 12) by decide] at hmp <;>
    subst hmp <;> omega

theorem daysInMonth_bounds (y : Int) (m : Nat) :
    ((daysInMonth y m : Nat) : Int) ≤ 31 ∧
    (((m : Int) = 4 ∨ (m : Int) = 6 ∨ (m : Int) = 9 ∨ (m : Int) = 11) →
      ((daysInMonth y m : Nat) : Int) ≤ 30) ∧
    ((m : Int) = 2 → ((daysInMonth y m : Nat) : Int) ≤ 29) ∧
    ((m : Int) = 2 → (29 : Int) ≤ ((daysInMonth y m : Nat) : Int) →
      (y % 4 = 0 ∧ (y % 100 ≠ 0 ∨ y % 400 = 0))) := by
  unfold daysInMonth
  split <;> simp
  · split <;> simp
    rename_i h
    simpa [isLeapYear] using h

theorem civilFromDays_daysFromCivil (y : Int) (m d : Nat) (hm1 : 1 ≤ m) (hm : m ≤ 12)
    (hd1 : 1 ≤ d) (hd : d ≤ daysInMonth y m) :
    civilFromDays (daysFromCivil y m d) = (y, m, d) := by
  obtain ⟨b1, b2, b3, b4⟩ := daysInMonth_bounds y m
  have hmpeq : (if m > 2 then (m : Int) - 3 else (m : Int) + 9) =
      (if (m : Int) > 2 then (m : Int) - 3 else (m : Int) + 9) := by
    by_cases h : m > 2
    · have : (m : Int) > 2 := by omega
      simp [h, this]
    · have : ¬ (m : Int) > 2 := by omega
      simp [h, this]
  generalize hmp : (if m > 2 then (m : Int) - 3 else (m : Int) + 9) = mp at hmpeq
  generalize hy1 : (if m ≤ 2 then y - 1 else y) = y1
  have hy1' : ((m : Int) ≤ 2 → y1 = y - 1) ∧ (¬ (m : Int) ≤ 2 → y1 = y) := by
    by_cases h : m ≤ 2
    · simp only [h, if_true] at hy1; constructor <;> intro <;> omega
    · simp only [h, if_false] at hy1; constructor <;> intro <;> omega
  obtain ⟨r1, r2, r3, r4, r5⟩ := monthDay_roundtrip (m : Int) (d : Int) (daysInMonth y m : Nat) mp
    (by omega) (by omega) hmpeq (by omega) (by omega) ⟨b1, b2, b3⟩
  have hdays : daysFromCivil y m d =
      y1 / 400 * 146097 + ((y1 - y1 / 400 * 400) * 365 + (y1 - y1 / 400 * 400) / 4
        - (y1 - y1 / 400 * 400) / 100 + ((153 * mp + 2) / 5 + (d : Int) - 1)) - 719468 := by
    unfold daysFromCivil
    simp only [hmp, hy1]
  rw [hdays, civilFromDays_of_parts _ _ _ (by omega) (by omega) r3 r4 (by
    intro h365
    obtain ⟨hm2, hd29⟩ := r5 h365
    have := b4 hm2 (by omega)
    omega)]
  rw [r1]
  have hdback : ((153 * mp + 2) / 5 + (d : Int) - 1 - (153 * mp + 2) / 5 + 1) = (d : Int) := by
    omega
  have hmback : (if mp < 10 then mp + 3 else mp - 9) = (m : Int) := by
    split at hmpeq <;> split <;> omega
  rw [hdback, hmback]
  simp only [Prod.mk.injEq, Int.toNat_ofNat, and_true]
  by_cases h : (m : Int) ≤ 2
  · simp only [h, if_true]; have := hy1'.1 h; omega
  · simp only [h, if_false]; have := hy1'.2 h; omega


theorem digitVal_digitChar (c : Char) (x : Nat) (h : digitVal c = some x) :
    digitChar x = c ∧ x ≤ 9 := by
  unfold digitVal at h
  split at h <;> simp only [Option.some.injEq, reduceCtorEq] at h <;> subst h <;>
    exact ⟨by decide, by decide⟩

theorem digitChar_mod (n : Nat) : digitChar (n % 10) = digitChar n := by
  unfold digitChar
  rw [Nat.mod_mod]

theorem twoDigits_pad2 (a b : Char) (n : Nat) (h : twoDigits a b = some n) :
    pad2 n = [a, b] ∧ n ≤ 99 := by
  unfold twoDigits at h
  cases ha : digitVal a with
  | none => simp [ha] at h
  | some x =>
    cases hb : digitVal b with
    | none => simp [ha, hb] at h
    | some y =>
      simp only [ha, hb, Option.some.injEq] at h
      obtain ⟨hx, hx9⟩ := digitVal_digitChar a x ha
      obtain ⟨hy, hy9⟩ := digitVal_digitChar b y hb
      subst h
      refine ⟨?_, by omega⟩
      unfold pad2
      have h1 : (10 * x + y) / 10 = x := by omega
      have h2 : digitChar (10 * x + y) = digitChar y := by
        rw [← digitChar_mod]
        have : (10 * x + y) % 10 = y := by omega
        rw [this]
      rw [h1, h2, hx, hy]

theorem fourDigits_pad4 (a b c d : Char) (n : Nat) (h : fourDigits a b c d = some n) :
    pad4 n = [a, b, c, d] ∧ n ≤ 9999 := by
  unfold fourDigits at h
  cases hab : twoDigits a b with
  | none => simp [hab] at h
  | some x =>
    cases hcd : twoDigits c d with
    | none => simp [hab, hcd] at h
    | some y =>
      simp only [hab, hcd, Option.some.injEq] at h
      obtain ⟨hx, hx99⟩ := twoDigits_pad2 a b x hab
      obtain ⟨hy, hy99⟩ := twoDigits_pad2 c d y hcd
      subst h
      refine ⟨?_, by omega⟩
      unfold pad2 at hx hy
      simp only [List.cons.injEq, and_true] at hx hy
      unfold pad4 pad3 pad2
      have h1 : (100 * x + y) / 1000 = x / 10 := by omega
      have h2 : digitChar ((100 * x + y) / 100) = digitChar x := by
        have : (100 * x + y) / 100 = x := by omega
        rw [this]
      have h3 : (100 * x + y) / 10 = 10 * x + y / 10 := by omega
      have h4 : digitChar (10 * x + y / 10) = digitChar (y / 10) := by
        rw [← digitChar_mod, ← digitChar_mod (y / 10)]
        have : (10 * x + y / 10) % 10 = (y / 10) % 10 := by omega
        rw [this]
      have h5 : digitChar (100 * x + y) = digitChar y := by
        rw [← digitChar_mod, ← digitChar_mod y]
        have : (100 * x + y) % 10 = y % 10 := by omega
        rw [this]
      rw [h1, h2, h3, h4, h5, hx.1, hx.2, hy.1, hy.2]


theorem isoOffsetMinutes_of_Z (r : List Char) (off : Int) (h : isoOffsetMinutes r = some off)
    (hz : r.getLast? = some 'Z') : off = 0 := by
  unfold isoOffsetMinutes at h
  split at h
  · simpa using h.symm
  · rename_i sign h1 h2 m1 m2
    simp only [List.getLast?_cons_cons, List.getLast?_singleton, Option.some.injEq] at hz
    subst hz
    have : twoDigits m1 'Z' = none := by
      unfold twoDigits
      have : digitVal 'Z' = none := by decide
      rw [this]
      cases digitVal m1 <;> rfl
    rw [this] at h
    split at h <;> simp_all
  · cases h


theorem isoSecondsAndOffset_of_Z (tail : List Char) (ms : Nat) (off : Int)
    (h : isoSecondsAndOffset tail = some (ms, off)) (hz : tail.getLast? = some 'Z') :
    off = 0 ∧ ms ≤ 59999 := by
  unfold isoSecondsAndOffset at h
  split at h
  · rename_i s1 s2 f1 f2 f3 rest
    have hz' : rest.getLast? = some 'Z' := by
      cases rest with
      | nil =>
        simp only [isoOffsetMinutes] at h
        split at h <;> simp_all
      | cons a as => simpa [List.getLast?_cons_cons] using hz
    split at h
    · rename_i s f off' hs hf hoff
      split at h
      · simp only [Option.some.injEq, Prod.mk.injEq] at h
        obtain ⟨h1, h2⟩ := h
        subst h2
        have hf999 : f ≤ 999 := by
          unfold threeDigits at hf
          cases ha : digitVal f1 with
          | none => simp [ha] at hf
          | some x =>
            cases hb : twoDigits f2 f3 with
            | none => simp [ha, hb] at hf
            | some y =>
              simp only [ha, hb, Option.some.injEq] at hf
              have := (digitVal_digitChar f1 x ha).2
              have := (twoDigits_pad2 f2 f3 y hb).2
              omega
        exact ⟨isoOffsetMinutes_of_Z rest _ hoff hz', by omega⟩
      · cases h
    · cases h
  · rename_i s1 s2 rest _
    have hz' : rest.getLast? = some 'Z' := by
      cases rest with
      | nil =>
        simp only [isoOffsetMinutes] at h
        split at h <;> simp_all
      | cons a as => simpa [List.getLast?_cons_cons] using hz
    split at h
    · rename_i s off' hs hoff
      split at h
      · simp only [Option.some.injEq, Prod.mk.injEq] at h
        obtain ⟨h1, h2⟩ := h
        subst h2
        exact ⟨isoOffsetMinutes_of_Z rest _ hoff hz', by omega⟩
      · cases h
    · cases h
  · split at h
    · rename_i off' hoff
      simp only [Option.some.injEq, Prod.mk.injEq] at h
      obtain ⟨h1, h2⟩ := h
      subst h2
      exact ⟨isoOffsetMinutes_of_Z tail _ hoff hz, by omega⟩
    · cases h


theorem isoYear_of_fourDigits (y : Nat) (hy : y ≤ 9999) : isoYear (y : Int) = pad4 y := by
  unfold isoYear
  have h : (0 : Int) ≤ (y : Int) ∧ (y : Int) ≤ 9999 := by omega
  simp only [h, and_self, if_true, Int.toNat_ofNat]

theorem isoDate_of_day (y : Int) (m d : Nat) (hm1 : 1 ≤ m) (hm : m ≤ 12) (hd1 : 1 ≤ d)
    (hd : d ≤ daysInMonth y m) (t : Int) (h0 : daysFromCivil y m d * msPerDay ≤ t)
    (h1 : t < daysFromCivil y m d * msPerDay + msPerDay) :
    isoDate t = isoYear y ++ '-' :: pad2 m ++ '-' :: pad2 d := by
  have hday : t / msPerDay = daysFromCivil y m d := by
    unfold msPerDay at h0 h1 ⊢
    omega
  unfold isoDate
  simp only [hday, civilFromDays_daysFromCivil y m d hm1 hm hd1 hd]

/-- The date part of a parsed string that is UTC-designated (it ends in `Z`)
or has no time part is the first ten characters of the string. -/
theorem isoDate_isoDateParse (s : List Char) (t : Int) (h : isoDateParse s = some t)
    (hz : s.length = 10 ∨ s.getLast? = some 'Z') : isoDate t = s.take 10 := by
  unfold isoDateParse at h
  split at h
  · rename_i y1 y2 y3 y4 m1 m2 d1 d2 rest
    split at h
    · rename_i y m d hy hm hd
      obtain ⟨py, hy9⟩ := fourDigits_pad4 _ _ _ _ y hy
      obtain ⟨pm, _⟩ := twoDigits_pad2 _ _ m hm
      obtain ⟨pd, _⟩ := twoDigits_pad2 _ _ d hd
      split at h
      · rename_i hvalid
        have target : ∀ t', daysFromCivil y m d * msPerDay ≤ t' →
            t' < daysFromCivil y m d * msPerDay + msPerDay →
            isoDate t' = (y1 :: y2 :: y3 :: y4 :: '-' :: m1 :: m2 :: '-' :: d1 :: d2 :: rest).take 10 := by
          intro t' h0 h1
          rw [isoDate_of_day (y : Int) m d hvalid.1 hvalid.2.1 hvalid.2.2.1 hvalid.2.2.2 t' h0 h1,
            isoYear_of_fourDigits y hy9, py, pm, pd]
          rfl
        split at h
        · simp only [Option.some.injEq] at h
          subst h
          exact target _ (le_refl _) (by unfold msPerDay; omega)
        · rename_i h1 h2 n1 n2 tail
          have hz' : tail.getLast? = some 'Z' := by
            rcases hz with hz | hz
            · simp at hz
            · cases tail with
              | nil =>
                exfalso
                split at h
                · rename_i hh hn ms off hhh hnn hso
                  simp [isoSecondsAndOffset, isoOffsetMinutes] at hso
                · cases h
              | cons a as => simpa [List.getLast?_cons_cons] using hz
          split at h
          · rename_i hh hn ms off hhh hnn hso
            obtain ⟨hoff, hms⟩ := isoSecondsAndOffset_of_Z tail ms off hso hz'
            split at h
            · rename_i hrange
              simp only [Option.some.injEq] at h
              subst h hoff
              apply target
              · omega
              · unfold msPerDay; omega
            · cases h
          · cases h
        · cases h
      · cases h
    · cases h
  · cases h


/-! ## The claims about `generateSitemapXml` -/

/-- C2: for every record that survives the filter and whose `updatedAt` is
not given or is a non-empty string that `Date.parse` accepts, the entry
`generateSitemapXml` emits carries as `<lastmod>` the UTC date portion of
`updatedAt` when it is given, and otherwise the UTC date of the clock read
that `generateSitemapXml` makes for `today`.  For an `updatedAt` in the
language's own format that is UTC-designated (ends in `Z`) or has no time
part, that date portion is the first ten characters `YYYY-MM-DD` of the
string. -/
theorem generateSitemapXml_lastmod (rt : Runtime) (nowToday : Int) (p : JSValue)
    (hkeep : survivesFilter p = true) (hvalid : hasValidUpdatedAt rt p = true) :
    urlEntry rt (splitTFirst (toISOString nowToday)) p =
      .ok (urlEntryText siteUrl (slugText p) (specLastmod rt nowToday p)) ∧
    (∀ s t, p.getProp "updatedAt" = .ok (.str s) → dateParse rt s = some t →
      specLastmod rt nowToday p = utcDateString t) ∧
    (∀ s t, p.getProp "updatedAt" = .ok (.str s) → isoDateParse s.data = some t →
      (s.data.length = 10 ∨ s.data.getLast? = some 'Z') →
      specLastmod rt nowToday p = String.mk (s.data.take 10)) ∧
    (p.getProp "updatedAt" = .ok .undefined →
      specLastmod rt nowToday p = utcDateString nowToday) := by
  obtain ⟨fields, rfl, _⟩ := hasValidUpdatedAt_cases rt p hvalid
  have hstr : ∀ s t, (JSValue.obj fields).getProp "updatedAt" = .ok (.str s) →
      dateParse rt s = some t → specLastmod rt nowToday (.obj fields) = utcDateString t := by
    intro s t hs ht
    simp only [getProp, Except.ok.injEq] at hs
    unfold specLastmod
    simp only [hs, ht]
  refine ⟨?_, hstr, ?_, ?_⟩
  · rw [splitTFirst_toISOString]
    exact urlEntry_of_record rt nowToday _ hvalid hkeep
  · intro s t hs ht hz
    have hp : dateParse rt s = some t := by
      unfold dateParse
      simp only [ht]
    rw [hstr s t hs hp]
    unfold utcDateString
    rw [isoDate_isoDateParse s.data t ht hz]
  · intro hs
    simp only [getProp, Except.ok.injEq] at hs
    unfold specLastmod
    simp only [hs]

set_option maxRecDepth 100000 in
/-- C2 at the records of the specification: `updatedAt:
'2024-03-15T10:00:00Z'` yields `<lastmod>2024-03-15</lastmod>`, and a record
without `updatedAt` yields the date of the clock, here 2025-11-05. -/
theorem generateSitemapXml_lastmod_witness :
    (survivesFilter recordDated = true ∧ hasValidUpdatedAt exampleRuntime recordDated = true) ∧
    urlEntry exampleRuntime (splitTFirst (toISOString 1762329600000)) recordDated =
      .ok (urlEntryText siteUrl "c" "2024-03-15") ∧
    urlEntry exampleRuntime (splitTFirst (toISOString 1762329600000)) recordPlain =
      .ok (urlEntryText siteUrl "b" "2025-11-05") :=
  ⟨by decide,
   (generateSitemapXml_lastmod exampleRuntime 1762329600000 recordDated (by decide) (by decide)).1,
   (generateSitemapXml_lastmod exampleRuntime 1762329600000 recordPlain (by decide) (by decide)).1⟩


theorem generateSitemapXml_badDate (rt : Runtime)
    (nowToday nowGenerated : Int) (h : rt.hostDateParse "not-a-date" = none) :
    generateSitemapXml rt nowToday nowGenerated [recordBadDate] = .error .rangeError := by
  have hp : dateParse rt "not-a-date" = none := by
    unfold dateParse
    have : isoDateParse "not-a-date".data = none := by decide
    simp only [this, h]
  have hd : newDate rt (.str "not-a-date") = .ok none := by
    unfold newDate
    simp only [hp]
  have hl : lastmodOf rt (splitTFirst (toISOString nowToday)) recordBadDate
      = .error .rangeError := by
    unfold lastmodOf
    have hu : recordBadDate.getProp "updatedAt" = .ok (.str "not-a-date") := rfl
    have ht : (JSValue.str "not-a-date").truthy = true := by decide
    simp only [hu, ht, if_true, hd, dateToISOString]
  have hf : filterProducts [recordBadDate] = .ok [recordBadDate] := rfl
  unfold generateSitemapXml urlEntries
  simp only [hf, mapEntries, urlEntry, hl]

/-- C3, at the failing input `[{slug: 'a', updatedAt: 'not-a-date'}]`: on
every engine whose `Date.parse` rejects `'not-a-date'`, `generateSitemapXml`
returns no string; it throws the `RangeError` of `toISOString`. -/
theorem generateSitemapXml_throws_on_unparseable_updatedAt (rt : Runtime)
    (nowToday nowGenerated : Int) (h : rt.hostDateParse "not-a-date" = none) :
    generateSitemapXml rt nowToday nowGenerated [recordBadDate] = .error .rangeError :=
  generateSitemapXml_badDate rt nowToday nowGenerated h

/-- C3 on the example runtime, whose `Date.parse` knows only the format of
the language. -/
theorem generateSitemapXml_throws_on_unparseable_updatedAt_witness :
    exampleRuntime.hostDateParse "not-a-date" = none ∧
    generateSitemapXml exampleRuntime 0 0 [recordBadDate] = .error .rangeError :=
  ⟨rfl, generateSitemapXml_throws_on_unparseable_updatedAt exampleRuntime 0 0 rfl⟩

/-- C4: for every list of product records (objects whose `slug`, when given,
is a string and whose `updatedAt` is not given or a non-empty string that
`Date.parse` accepts) `generateSitemapXml` returns the document whose entries
are, in input order, one `<url>` entry per record that survives the filter,
with `loc` = `siteUrl` + `/products/` + `slug`, `changefreq` `weekly` and
`priority` `0.8`; with no surviving record the document has no entry. -/
theorem generateSitemapXml_entries (rt : Runtime) (nowToday nowGenerated : Int)
    (products : List JSValue)
    (h : ∀ p ∈ products, hasStringSlug p = true ∧ hasValidUpdatedAt rt p = true) :
    generateSitemapXml rt nowToday nowGenerated products =
      .ok (sitemapDocument (toISOString nowGenerated)
        ((products.filter survivesFilter).map (specUrlEntry rt nowToday))) ∧
    (∀ p, specUrlEntry rt nowToday p =
      "  <url>\n" ++
      "    <loc>" ++ "https://samah-store.tech" ++ "/products/" ++ slugText p ++ "</loc>\n" ++
      "    <lastmod>" ++ specLastmod rt nowToday p ++ "</lastmod>\n" ++
      "    <changefreq>weekly</changefreq>\n" ++
      "    <priority>0.8</priority>\n" ++
      "  </url>") ∧
    (products.filter survivesFilter = [] →
      generateSitemapXml rt nowToday nowGenerated products =
        .ok (sitemapDocument (toISOString nowGenerated) [])) := by
  have hmain := generateSitemapXml_of_records rt nowToday nowGenerated products h
  refine ⟨hmain, fun p => rfl, ?_⟩
  intro hnone
  rw [hmain, hnone]
  rfl

set_option maxRecDepth 100000 in
/-- C4 at a list of four records, two of which survive. -/
theorem generateSitemapXml_entries_witness :
    (∀ p ∈ [recordInactive, recordPlain, recordNoSlug, recordDated],
      hasStringSlug p = true ∧ hasValidUpdatedAt exampleRuntime p = true) ∧
    generateSitemapXml exampleRuntime 1762329600000 1762329600001
        [recordInactive, recordPlain, recordNoSlug, recordDated] =
      .ok (sitemapDocument "2025-11-05T08:00:00.001Z"
        [urlEntryText siteUrl "b" "2025-11-05", urlEntryText siteUrl "c" "2024-03-15"]) :=
  ⟨by decide,
   (generateSitemapXml_entries exampleRuntime 1762329600000 1762329600001
      [recordInactive, recordPlain, recordNoSlug, recordDated] (by decide)).1⟩


/-! ## The two documents differ -/

theorem fallback_data (now : Int) : ∃ rest,
    (generateFallbackSitemap now).data =
      "<?xml version=\"1.0\" encoding=\"UTF-8\"?>\n<urlset xmlns=\"http://www.sitemaps.org/schemas/sitemap/0.9\">\n  <!-- ".data ++ 'F' :: rest :=
  ⟨_, rfl⟩

theorem sitemapDocument_data (generated : String) (entries : List String) : ∃ rest,
    (sitemapDocument generated entries).data =
      "<?xml version=\"1.0\" encoding=\"UTF-8\"?>\n<urlset xmlns=\"http://www.sitemaps.org/schemas/sitemap/0.9\">\n  <!-- ".data ++ 'G' :: rest :=
  ⟨_, rfl⟩

theorem sitemapDocument_ne_fallback (generated : String) (entries : List String) (now : Int) :
    sitemapDocument generated entries ≠ generateFallbackSitemap now := by
  intro h
  obtain ⟨r1, h1⟩ := sitemapDocument_data generated entries
  obtain ⟨r2, h2⟩ := fallback_data now
  rw [h, h2] at h1
  have := List.append_cancel_left h1
  simp at this


/-! ## Fetching -/

/-- The inner loop from its start, spelled out: at most two attempts, with
one delay after a first attempt that was rejected. -/
theorem retryLoop_start (rt : Runtime) (net : Net) (page : Nat) :
    retryLoop rt net page 0 .null =
      match httpGet rt (net page 1) with
      | .ok first =>
        if first.truthy = false then
          match httpGet rt (net page 2) with
          | .ok second =>
            ([Effect.request page 1 (pageUrl rt page) timeoutMs,
              Effect.request page 2 (pageUrl rt page) timeoutMs], second)
          | .error _ =>
            ([Effect.request page 1 (pageUrl rt page) timeoutMs,
              Effect.request page 2 (pageUrl rt page) timeoutMs], first)
        else ([Effect.request page 1 (pageUrl rt page) timeoutMs], first)
      | .error _ =>
        match httpGet rt (net page 2) with
        | .ok second =>
          ([Effect.request page 1 (pageUrl rt page) timeoutMs, Effect.delay retryDelayMs,
            Effect.request page 2 (pageUrl rt page) timeoutMs], second)
        | .error _ =>
          ([Effect.request page 1 (pageUrl rt page) timeoutMs, Effect.delay retryDelayMs,
            Effect.request page 2 (pageUrl rt page) timeoutMs], .null) := by
  have stop : ∀ data, retryLoop rt net page 2 data = ([], data) := by
    intro data
    rw [retryLoop]
    simp [maxRetries]
  have hnull : (JSValue.null).truthy = false := rfl
  rw [retryLoop]
  simp only [maxRetries, hnull, Nat.zero_lt_succ, and_self, if_true, Nat.zero_add]
  cases h1 : httpGet rt (net page 1) with
  | ok first =>
    simp only []
    rw [retryLoop]
    by_cases ht : first.truthy = false
    · simp only [maxRetries, ht, Nat.one_lt_ofNat, and_self, if_true]
      cases h2 : httpGet rt (net page 2) with
      | ok second => simp [stop]
      | error e => simp [stop]
    · simp [maxRetries, ht]
  | error e =>
    simp only [Nat.one_lt_ofNat, if_true]
    rw [retryLoop]
    simp only [maxRetries, hnull, Nat.one_lt_ofNat, and_self, if_true]
    cases h2 : httpGet rt (net page 2) with
    | ok second => simp [stop]
    | error e => simp [stop]


theorem getProp_of_truthy (v : JSValue) (key : String) (h : v.truthy = true) :
    ∃ x, v.getProp key = .ok x := by
  cases v <;> simp [truthy] at h <;> exact ⟨_, rfl⟩

theorem fetchLoop_throw (rt : Runtime) (net : Net) (page : Nat) (tp : JSValue)
    (products : List JSValue) (e : JSError) (h : pageLt rt page tp = .error e) :
    fetchLoop rt net page tp products = ([], .error e) := by
  rw [fetchLoop]
  simp only [h]

theorem fetchLoop_stop (rt : Runtime) (net : Net) (page : Nat) (tp : JSValue)
    (products : List JSValue) (below : Bool) (h : pageLt rt page tp = .ok below)
    (hstop : ¬ (below = true ∧ page < pageCap)) :
    fetchLoop rt net page tp products = ([], .ok products) := by
  rw [fetchLoop]
  simp only [h, hstop, dite_false]

theorem fetchLoop_fail (rt : Runtime) (net : Net) (page : Nat) (tp : JSValue)
    (products : List JSValue) (h : pageLt rt page tp = .ok true) (hcap : page < pageCap)
    (hdata : (retryLoop rt net page 0 .null).2.truthy = false) :
    fetchLoop rt net page tp products =
      ((retryLoop rt net page 0 .null).1, .error (.error "Failed to fetch after retries")) := by
  rw [fetchLoop]
  simp only [h, hcap, and_self, dite_true, hdata, if_true]

theorem fetchLoop_page (rt : Runtime) (net : Net) (page : Nat) (tp : JSValue)
    (products : List JSValue) (h : pageLt rt page tp = .ok true) (hcap : page < pageCap)
    (content reported : JSValue) (items : List JSValue)
    (hdata : (retryLoop rt net page 0 .null).2.truthy = true)
    (hcontent : (retryLoop rt net page 0 .null).2.getProp "content" = .ok content)
    (hitems : pageItems content = some items)
    (hreported : (retryLoop rt net page 0 .null).2.getProp "totalPages" = .ok reported) :
    fetchLoop rt net page tp products =
      ((retryLoop rt net page 0 .null).1 ++
        (fetchLoop rt net (page + 1) (totalPagesOr1 reported) (products ++ items)).1,
       (fetchLoop rt net (page + 1) (totalPagesOr1 reported) (products ++ items)).2) := by
  rw [fetchLoop]
  simp only [h, hcap, and_self, dite_true, hdata, Bool.true_eq_false, if_false, hcontent, hitems,
    hreported]

theorem fetchLoop_skip (rt : Runtime) (net : Net) (page : Nat) (tp : JSValue)
    (products : List JSValue) (h : pageLt rt page tp = .ok true) (hcap : page < pageCap)
    (content : JSValue)
    (hdata : (retryLoop rt net page 0 .null).2.truthy = true)
    (hcontent : (retryLoop rt net page 0 .null).2.getProp "content" = .ok content)
    (hitems : pageItems content = none) :
    fetchLoop rt net page tp products =
      ((retryLoop rt net page 0 .null).1 ++ (fetchLoop rt net (page + 1) tp products).1,
       (fetchLoop rt net (page + 1) tp products).2) := by
  rw [fetchLoop]
  simp only [h, hcap, and_self, dite_true, hdata, Bool.true_eq_false, if_false, hcontent, hitems]


/-- Every way one turn of the outer loop can go. -/
theorem fetchLoop_cases (rt : Runtime) (net : Net) (page : Nat) (tp : JSValue)
    (products : List JSValue) :
    (∃ e, pageLt rt page tp = .error e ∧ fetchLoop rt net page tp products = ([], .error e)) ∨
    (∃ below, pageLt rt page tp = .ok below ∧ ¬ (below = true ∧ page < pageCap) ∧
      fetchLoop rt net page tp products = ([], .ok products)) ∨
    (page < pageCap ∧ (retryLoop rt net page 0 .null).2.truthy = false ∧
      fetchLoop rt net page tp products =
        ((retryLoop rt net page 0 .null).1, .error (.error "Failed to fetch after retries"))) ∨
    (page < pageCap ∧ (retryLoop rt net page 0 .null).2.truthy = true ∧
      ∃ tp2 products2,
        fetchLoop rt net page tp products =
          ((retryLoop rt net page 0 .null).1 ++ (fetchLoop rt net (page + 1) tp2 products2).1,
           (fetchLoop rt net (page + 1) tp2 products2).2)) := by
  cases hlt : pageLt rt page tp with
  | error e => exact Or.inl ⟨e, rfl, fetchLoop_throw rt net page tp products e hlt⟩
  | ok below =>
    by_cases hcond : below = true ∧ page < pageCap
    · obtain ⟨hb, hcap⟩ := hcond
      subst hb
      by_cases hdata : (retryLoop rt net page 0 .null).2.truthy = true
      · obtain ⟨content, hcontent⟩ := getProp_of_truthy _ "content" hdata
        obtain ⟨reported, hreported⟩ := getProp_of_truthy _ "totalPages" hdata
        cases hitems : pageItems content with
        | none =>
          exact Or.inr (Or.inr (Or.inr ⟨hcap, hdata, _, _,
            fetchLoop_skip rt net page tp products hlt hcap content hdata hcontent hitems⟩))
        | some items =>
          exact Or.inr (Or.inr (Or.inr ⟨hcap, hdata, _, _,
            fetchLoop_page rt net page tp products hlt hcap content reported items hdata hcontent
              hitems hreported⟩))
      · have hfalse : (retryLoop rt net page 0 .null).2.truthy = false := by
          simpa using hdata
        exact Or.inr (Or.inr (Or.inl ⟨hcap, hfalse,
          fetchLoop_fail rt net page tp products hlt hcap hfalse⟩))
    · exact Or.inr (Or.inl ⟨below, rfl, hcond, fetchLoop_stop rt net page tp products below hlt hcond⟩)

/-- What the inner loop does for one page: requests for that page only,
numbered 1 and 2, to the page's URL with the configured timeout, and delays of
the configured length. -/
theorem retryLoop_effects (rt : Runtime) (net : Net) (page : Nat) :
    ∀ eff ∈ (retryLoop rt net page 0 .null).1,
      eff = Effect.request page 1 (pageUrl rt page) timeoutMs ∨
      eff = Effect.request page 2 (pageUrl rt page) timeoutMs ∨
      eff = Effect.delay retryDelayMs := by
  intro eff h
  rw [retryLoop_start] at h
  cases h1 : httpGet rt (net page 1) with
  | ok first =>
    cases h2 : httpGet rt (net page 2) with
    | ok second =>
      simp only [h1, h2] at h
      split at h <;> simp at h <;> tauto
    | error e =>
      simp only [h1, h2] at h
      split at h <;> simp at h <;> tauto
  | error e =>
    cases h2 : httpGet rt (net page 2) with
    | ok second => simp only [h1, h2] at h; simp at h; tauto
    | error e => simp only [h1, h2] at h; simp at h; tauto

/-- A page whose two attempts are both rejected leaves `data` at `null`. -/
theorem retryLoop_of_rejected (rt : Runtime) (net : Net) (page : Nat) (e1 e2 : JSError)
    (h1 : httpGet rt (net page 1) = .error e1) (h2 : httpGet rt (net page 2) = .error e2) :
    retryLoop rt net page 0 .null =
      ([Effect.request page 1 (pageUrl rt page) timeoutMs, Effect.delay retryDelayMs,
        Effect.request page 2 (pageUrl rt page) timeoutMs], .null) := by
  rw [retryLoop_start]
  simp only [h1, h2]

/-- Every request `fetchProducts` makes from a loop state on is for a page from
the current one up to, and not including, the cap of 10. -/
theorem fetchLoop_requests (rt : Runtime) (net : Net) :
    ∀ (n page : Nat) (tp : JSValue) (products : List JSValue), pageCap - page = n →
      ∀ k a url t, Effect.request k a url t ∈ (fetchLoop rt net page tp products).1 →
        page ≤ k ∧ k < pageCap ∧ 1 ≤ a ∧ a ≤ maxRetries ∧ url = pageUrl rt k ∧ t = timeoutMs := by
  intro n
  induction n using Nat.strong_induction_on with
  | _ n ih =>
    intro page tp products hn k a url t hmem
    rcases fetchLoop_cases rt net page tp products with
      ⟨e, _, h⟩ | ⟨_, _, _, h⟩ | ⟨hcap, _, h⟩ | ⟨hcap, _, tp2, p2, h⟩
    · rw [h] at hmem; simp at hmem
    · rw [h] at hmem; simp at hmem
    · rw [h] at hmem
      rcases retryLoop_effects rt net page _ hmem with he | he | he <;>
        simp only [Effect.request.injEq, reduceCtorEq] at he
      · obtain ⟨rfl, rfl, rfl, rfl⟩ := he
        exact ⟨le_refl _, hcap, by decide, by decide, rfl, rfl⟩
      · obtain ⟨rfl, rfl, rfl, rfl⟩ := he
        exact ⟨le_refl _, hcap, by decide, by decide, rfl, rfl⟩
    · rw [h] at hmem
      simp only [List.mem_append] at hmem
      rcases hmem with hmem | hmem
      · rcases retryLoop_effects rt net page _ hmem with he | he | he <;>
          simp only [Effect.request.injEq, reduceCtorEq] at he
        · obtain ⟨rfl, rfl, rfl, rfl⟩ := he
          exact ⟨le_refl _, hcap, by decide, by decide, rfl, rfl⟩
        · obtain ⟨rfl, rfl, rfl, rfl⟩ := he
          exact ⟨le_refl _, hcap, by decide, by decide, rfl, rfl⟩
      · obtain ⟨h1, h2, h3⟩ :=
          ih (pageCap - (page + 1)) (by omega) (page + 1) tp2 p2 rfl k a url t hmem
        exact ⟨by omega, h2, h3⟩


theorem httpGet_of_requestFails (rt : Runtime) (event : HttpEvent)
    (h : requestFails rt event = true) : ∃ e, httpGet rt event = .error e := by
  cases event with
  | networkError err => exact ⟨err, rfl⟩
  | timeout => exact ⟨_, rfl⟩
  | response status body =>
    simp only [requestFails, Bool.or_eq_true, bne_iff_ne, ne_eq, Option.isNone_iff_eq_none] at h
    unfold httpGet
    by_cases hs : status = 200
    · rcases h with h | h
      · exact absurd hs h
      · simp only [hs, ne_eq, not_true_eq_false, if_false, h]
        exact ⟨_, rfl⟩
    · simp only [ne_eq, hs, not_false_eq_true, if_true]
      exact ⟨_, rfl⟩

theorem httpGet_error_iff (rt : Runtime) (event : HttpEvent) :
    (∃ e, httpGet rt event = .error e) ↔ requestFails rt event = true := by
  constructor
  · rintro ⟨e, h⟩
    cases event with
    | networkError err => rfl
    | timeout => rfl
    | response status body =>
      unfold httpGet at h
      simp only [requestFails, Bool.or_eq_true, bne_iff_ne, ne_eq, Option.isNone_iff_eq_none]
      by_cases hs : status = 200
      · right
        simp only [hs, ne_eq, not_true_eq_false, if_false] at h
        cases hj : rt.jsonParse body with
        | none => rfl
        | some v => simp [hj] at h
      · exact Or.inl hs
  · exact httpGet_of_requestFails rt event

theorem truthy_of_getProp_arr (data : JSValue) (key : String) (items : List JSValue)
    (h : data.getProp key = .ok (.arr items)) : data.truthy = true := by
  cases data <;> simp [getProp] at h
  rfl

theorem retryLoop_of_pageResolves (rt : Runtime) (net : Net) (page : Nat)
    (items : List JSValue) (total : JSValue) (h : pageResolves rt net page items total) :
    ∃ data, retryLoop rt net page 0 .null =
        ([Effect.request page 1 (pageUrl rt page) timeoutMs], data) ∧
      data.truthy = true ∧ data.getProp "content" = .ok (.arr items) ∧
      data.getProp "totalPages" = .ok total := by
  obtain ⟨data, hget, hc, ht⟩ := h
  have htruthy := truthy_of_getProp_arr data "content" items hc
  refine ⟨data, ?_, htruthy, hc, ht⟩
  rw [retryLoop_start]
  simp only [hget, htruthy, Bool.true_eq_false, if_false]

theorem pageItems_arr (items : List JSValue) : pageItems (.arr items) = some items := rfl

theorem totalPagesOr1_num (T : Int) (hT : T ≠ 0) : totalPagesOr1 (.num T) = .num T := by
  simp [totalPagesOr1, truthy, hT]

/-- A run of successful pages: `count` pages from `page` on, each answered at
the first attempt with an array and the total `T`, take the loop `count`
turns further, with one request per page and the pages' records appended in
order. -/
theorem fetchLoop_prefix (rt : Runtime) (net : Net) (items : Nat → List JSValue) (T : Int)
    (hT : T ≠ 0) :
    ∀ (count page : Nat) (tp : JSValue) (products : List JSValue),
      (0 < count → pageLt rt page tp = .ok true) → page + count ≤ pageCap →
      ((page + count : Nat) : Int) ≤ T →
      (∀ j, page ≤ j → j < page + count → pageResolves rt net j (items j) (.num T)) →
      fetchLoop rt net page tp products =
        (pageRequests rt page count ++
          (fetchLoop rt net (page + count) (if count = 0 then tp else .num T)
            (products ++ pageContents items page count)).1,
         (fetchLoop rt net (page + count) (if count = 0 then tp else .num T)
            (products ++ pageContents items page count)).2) := by
  intro count
  induction count with
  | zero =>
    intro page tp products _ _ _ _
    simp [pageRequests, pageContents]
  | succ n ih =>
    intro page tp products hlt hcap hle hres
    obtain ⟨data, hretry, htruthy, hc, ht⟩ :=
      retryLoop_of_pageResolves rt net page (items page) (.num T)
        (hres page (le_refl _) (by omega))
    have hstep := fetchLoop_page rt net page tp products (hlt (by omega)) (by omega)
      (.arr (items page)) (.num T) (items page) (by rw [hretry]; exact htruthy)
      (by rw [hretry]; exact hc) (pageItems_arr _) (by rw [hretry]; exact ht)
    rw [hstep, hretry, totalPagesOr1_num T hT]
    have hnext := ih (page + 1) (.num T) (products ++ items page)
      (by
        intro hn
        have : ((page + 1 : Nat) : Int) < T := by push_cast at hle ⊢; omega
        simp only [pageLt]
        exact congrArg Except.ok (decide_eq_true this))
      (by omega) (by push_cast at hle ⊢; omega)
      (fun j h1 h2 => hres j (by omega) (by omega))
    have hidx : page + 1 + n = page + (n + 1) := by omega
    have htp : (if n = 0 then JSValue.num T else JSValue.num T) = JSValue.num T := by
      split <;> rfl
    rw [hnext, hidx, htp]
    simp [pageRequests, pageContents, List.append_assoc]


/-- A page that is requested and whose two attempts are both rejected ends
the loop with the error of `fetchProducts`. -/
theorem fetchLoop_exhausted (rt : Runtime) (net : Net) (k : Nat) (e1 e2 : JSError)
    (h1 : httpGet rt (net k 1) = .error e1) (h2 : httpGet rt (net k 2) = .error e2) :
    ∀ (n page : Nat) (tp : JSValue) (products : List JSValue), pageCap - page = n →
      (∃ a url t, Effect.request k a url t ∈ (fetchLoop rt net page tp products).1) →
      (fetchLoop rt net page tp products).2 = .error (.error "Failed to fetch after retries") := by
  intro n
  induction n using Nat.strong_induction_on with
  | _ n ih =>
    intro page tp products hn hmem
    obtain ⟨a, url, t, hmem⟩ := hmem
    rcases fetchLoop_cases rt net page tp products with
      ⟨e, _, h⟩ | ⟨_, _, _, h⟩ | ⟨hcap, _, h⟩ | ⟨hcap, htruthy, tp2, p2, h⟩
    · rw [h] at hmem; simp at hmem
    · rw [h] at hmem; simp at hmem
    · rw [h]
    · rw [h] at hmem ⊢
      simp only [List.mem_append] at hmem
      rcases hmem with hmem | hmem
      · exfalso
        have hk : k = page := by
          rcases retryLoop_effects rt net page _ hmem with he | he | he <;>
            simp only [Effect.request.injEq, reduceCtorEq] at he <;> exact he.1
        subst hk
        rw [retryLoop_of_rejected rt net k e1 e2 h1 h2] at htruthy
        simp [truthy] at htruthy
      · exact ih (pageCap - (page + 1)) (by omega) (page + 1) tp2 p2 rfl ⟨a, url, t, hmem⟩

theorem mainXml_of_error (rt : Runtime) (e : JSError) :
    mainXml rt (.error e) = generateFallbackSitemap (rt.clock 0) := rfl

theorem mainXml_of_nil (rt : Runtime) :
    mainXml rt (.ok []) = generateFallbackSitemap (rt.clock 0) := rfl

theorem mainXml_of_ok (rt : Runtime) (products : List JSValue) (xml : String)
    (hlen : products.length > 0)
    (h : generateSitemapXml rt (rt.clock 0) (rt.clock 1) products = .ok xml) :
    mainXml rt (.ok products) = xml := by
  unfold mainXml
  simp only [hlen, if_true, h]

theorem main_effects_of_write (rt : Runtime) (net : Net)
    (h : rt.fsWrite (mainXml rt (fetchProducts rt net).2) = .ok ()) :
    main rt net =
      ((fetchProducts rt net).1 ++ [Effect.write (mainXml rt (fetchProducts rt net).2)], .ok ()) := by
  unfold main writeSitemap
  simp only [h]


theorem pageLt_num (rt : Runtime) (page : Nat) (T : Int) :
    pageLt rt page (.num T) = .ok (decide ((page : Int) < T)) := rfl

/-- When every page up to the reported total or the cap, whichever comes
first, is answered at the first attempt with an array and the same total `T`,
`fetchProducts` requests exactly those pages once each and returns their
records in order. -/
theorem fetchProducts_of_pages (rt : Runtime) (net : Net) (items : Nat → List JSValue)
    (T : Nat) (hT : 1 ≤ T)
    (h : ∀ j, j < min T pageCap → pageResolves rt net j (items j) (.num (T : Int))) :
    fetchProducts rt net =
      (pageRequests rt 0 (min T pageCap), .ok (pageContents items 0 (min T pageCap))) := by
  unfold fetchProducts
  have hpre := fetchLoop_prefix rt net items (T : Int) (by omega) (min T pageCap) 0 (.num 1) []
    (fun _ => rfl) (by omega) (by push_cast; omega) (fun j _ hj => h j (by omega))
  have hcount : min T pageCap ≠ 0 := by unfold pageCap; omega
  rw [hpre]
  simp only [hcount, if_false, Nat.zero_add, List.nil_append]
  rw [fetchLoop_stop rt net _ _ _ _ (pageLt_num rt _ _) (by
    simp only [decide_eq_true_eq, not_and, not_lt]
    intro hlt
    have : (min T pageCap) < T := by exact_mod_cast hlt
    omega)]
  simp

/-- The first request of `fetchProducts` is always the one for page 0. -/
theorem fetchProducts_requests_page_zero (rt : Runtime) (net : Net) :
    Effect.request 0 1 (pageUrl rt 0) timeoutMs ∈ (fetchProducts rt net).1 := by
  have hfirst : Effect.request 0 1 (pageUrl rt 0) timeoutMs ∈ (retryLoop rt net 0 0 .null).1 := by
    rw [retryLoop_start]
    cases httpGet rt (net 0 1) with
    | ok first =>
      cases httpGet rt (net 0 2) with
      | ok second => simp only []; split <;> simp
      | error e => simp only []; split <;> simp
    | error e =>
      cases httpGet rt (net 0 2) with
      | ok second => simp
      | error e => simp
  unfold fetchProducts
  have hlt : pageLt rt 0 (.num 1) = .ok true := rfl
  rcases fetchLoop_cases rt net 0 (.num 1) [] with
    ⟨e, he, _⟩ | ⟨below, hb, hstop, _⟩ | ⟨_, _, h⟩ | ⟨_, _, tp2, p2, h⟩
  · rw [hlt] at he; cases he
  · rw [hlt] at hb
    simp only [Except.ok.injEq] at hb
    subst hb
    exact absurd ⟨rfl, by decide⟩ hstop
  · rw [h]; exact hfirst
  · rw [h]; exact List.mem_append_left _ hfirst


/-! ## The claims about `fetchProducts` and `main` -/

theorem main_eq (rt : Runtime) (net : Net) :
    main rt net =
      ((fetchProducts rt net).1 ++ (writeSitemap rt (mainXml rt (fetchProducts rt net).2)).1,
       (writeSitemap rt (mainXml rt (fetchProducts rt net).2)).2) := rfl

theorem constantNet_resolves (rt : Runtime) (body : String) (value : JSValue)
    (hparse : rt.jsonParse body = some value) (page attempt : Nat) :
    httpGet rt (constantNet body page attempt) = .ok value := by
  unfold constantNet httpGet
  simp only [ne_eq, not_true_eq_false, if_false, hparse]

/-- C6: when `fetchProducts` succeeds with zero records, `main` hands
`writeSitemap` exactly the document of `generateFallbackSitemap` (so that is
the text written when the file system accepts it), and that document is not
the empty `<urlset>` that `generateSitemapXml` builds from no entries. -/
theorem main_fallback_on_zero_products (rt : Runtime) (net : Net)
    (h : (fetchProducts rt net).2 = .ok []) :
    main rt net =
      ((fetchProducts rt net).1 ++ (writeSitemap rt (generateFallbackSitemap (rt.clock 0))).1,
       (writeSitemap rt (generateFallbackSitemap (rt.clock 0))).2) ∧
    (rt.fsWrite (generateFallbackSitemap (rt.clock 0)) = .ok () →
      main rt net =
        ((fetchProducts rt net).1 ++ [Effect.write (generateFallbackSitemap (rt.clock 0))],
         .ok ())) ∧
    (∀ generated, generateFallbackSitemap (rt.clock 0) ≠ sitemapDocument generated []) := by
  have hxml : mainXml rt (fetchProducts rt net).2 = generateFallbackSitemap (rt.clock 0) := by
    rw [h]; rfl
  refine ⟨?_, ?_, ?_⟩
  · rw [main_eq, hxml]
  · intro hw
    rw [main_effects_of_write rt net (by rw [hxml]; exact hw), hxml]
  · intro generated heq
    exact sitemapDocument_ne_fallback generated [] (rt.clock 0) heq.symm

theorem fetchProducts_constantNet_empty :
    fetchProducts exampleRuntime (constantNet "EMPTY") =
      ([Effect.request 0 1 (pageUrl exampleRuntime 0) timeoutMs], .ok []) :=
  fetchProducts_of_pages exampleRuntime (constantNet "EMPTY") (fun _ => []) 1 (le_refl _)
    (fun j _ => ⟨_, constantNet_resolves exampleRuntime "EMPTY" _ rfl j 1, rfl, rfl⟩)

/-- C6 on an API whose only page has an empty `content`: one request, then
the fallback document is written. -/
theorem main_fallback_on_zero_products_witness :
    (fetchProducts exampleRuntime (constantNet "EMPTY")).2 = .ok [] ∧
    main exampleRuntime (constantNet "EMPTY") =
      ((fetchProducts exampleRuntime (constantNet "EMPTY")).1 ++
        [Effect.write (generateFallbackSitemap 1762329600000)], .ok ()) :=
  ⟨congrArg Prod.snd fetchProducts_constantNet_empty,
   (main_fallback_on_zero_products exampleRuntime (constantNet "EMPTY")
      (congrArg Prod.snd fetchProducts_constantNet_empty)).2.1 rfl⟩


theorem fetchProducts_constantNet_badDate :
    fetchProducts exampleRuntime (constantNet "BADDATE") =
      ([Effect.request 0 1 (pageUrl exampleRuntime 0) timeoutMs], .ok [recordBadDate]) :=
  fetchProducts_of_pages exampleRuntime (constantNet "BADDATE") (fun _ => [recordBadDate]) 1
    (le_refl _)
    (fun j _ => ⟨_, constantNet_resolves exampleRuntime "BADDATE" _ rfl j 1, rfl, rfl⟩)

theorem fetchProducts_constantNet_hidden :
    fetchProducts exampleRuntime (constantNet "HIDDEN") =
      ([Effect.request 0 1 (pageUrl exampleRuntime 0) timeoutMs], .ok [recordInactive]) :=
  fetchProducts_of_pages exampleRuntime (constantNet "HIDDEN") (fun _ => [recordInactive]) 1
    (le_refl _)
    (fun j _ => ⟨_, constantNet_resolves exampleRuntime "HIDDEN" _ rfl j 1, rfl, rfl⟩)

/-- C7, at the failing input: the API answers its only page with the one
record `{slug: 'a', updatedAt: 'not-a-date'}`.  `fetchProducts` succeeds with
that record, and `main` writes the fallback document and not a generated one:
`generateSitemapXml` threw the `RangeError` of C3 inside the `try` of `main`
(after its first clock read, so the fallback carries the second). -/
theorem main_writes_fallback_after_successful_fetch :
    (fetchProducts exampleRuntime (constantNet "BADDATE")).2 = .ok [recordBadDate] ∧
    main exampleRuntime (constantNet "BADDATE") =
      ([Effect.request 0 1 "https://samah-store.tech/api/products?page=0&size=100" 5000,
        Effect.write (generateFallbackSitemap 1762329600001)], .ok ()) := by
  have hfetch := fetchProducts_constantNet_badDate
  have hgen : generateSitemapXml exampleRuntime (exampleRuntime.clock 0) (exampleRuntime.clock 1)
      [recordBadDate] = .error .rangeError :=
    generateSitemapXml_badDate exampleRuntime _ _ rfl
  have hxml : mainXml exampleRuntime (.ok [recordBadDate]) =
      generateFallbackSitemap 1762329600001 := by
    unfold mainXml
    simp only [List.length_singleton, gt_iff_lt, Nat.lt_one_iff, Nat.one_pos, if_true, hgen]
    rfl
  refine ⟨congrArg Prod.snd hfetch, ?_⟩
  rw [main_eq, hfetch]
  simp only [hxml, writeSitemap]
  rfl


theorem generateSitemapXml_of_filter_nil (rt : Runtime) (nowToday nowGenerated : Int)
    (products : List JSValue) (h : filterProducts products = .ok []) :
    generateSitemapXml rt nowToday nowGenerated products =
      .ok (sitemapDocument (toISOString nowGenerated) []) := by
  unfold generateSitemapXml urlEntries
  simp only [h, mapEntries]

theorem generateSitemapXml_is_sitemapDocument (rt : Runtime) (nowToday nowGenerated : Int)
    (products : List JSValue) (xml : String)
    (h : generateSitemapXml rt nowToday nowGenerated products = .ok xml) :
    ∃ entries, xml = sitemapDocument (toISOString nowGenerated) entries := by
  unfold generateSitemapXml at h
  cases hu : urlEntries rt (splitTFirst (toISOString nowToday)) products with
  | error e => simp only [hu] at h; cases h
  | ok entries =>
    simp only [hu, Except.ok.injEq] at h
    exact ⟨entries, h.symm⟩

/-- Where `generateSitemapXml` does not throw, `main` writes the generated
sitemap: whenever `fetchProducts` succeeds with at least one record and
`generateSitemapXml` returns a document for these records, `main` hands
`writeSitemap` that document, which is never a fallback document; this holds
also when every fetched record is filtered out, in which case the document
has no `<url>` entry. -/
theorem main_writes_generated_sitemap (rt : Runtime) (net : Net) (products : List JSValue)
    (xml : String) (hfetch : (fetchProducts rt net).2 = .ok products)
    (hlen : products.length > 0)
    (hgen : generateSitemapXml rt (rt.clock 0) (rt.clock 1) products = .ok xml) :
    main rt net =
      ((fetchProducts rt net).1 ++ (writeSitemap rt xml).1, (writeSitemap rt xml).2) ∧
    (rt.fsWrite xml = .ok () →
      main rt net = ((fetchProducts rt net).1 ++ [Effect.write xml], .ok ())) ∧
    (∀ now, xml ≠ generateFallbackSitemap now) ∧
    (filterProducts products = .ok [] →
      xml = sitemapDocument (toISOString (rt.clock 1)) []) := by
  have hxml : mainXml rt (fetchProducts rt net).2 = xml := by
    rw [hfetch]
    exact mainXml_of_ok rt products xml hlen hgen
  refine ⟨?_, ?_, ?_, ?_⟩
  · rw [main_eq, hxml]
  · intro hw
    rw [main_effects_of_write rt net (by rw [hxml]; exact hw), hxml]
  · intro now heq
    obtain ⟨entries, he⟩ := generateSitemapXml_is_sitemapDocument rt _ _ products xml hgen
    rw [he] at heq
    exact sitemapDocument_ne_fallback _ entries now heq
  · intro hnil
    have := generateSitemapXml_of_filter_nil rt (rt.clock 0) (rt.clock 1) products hnil
    rw [hgen] at this
    exact Except.ok.inj this

set_option maxRecDepth 100000 in
theorem generateSitemapXml_hidden :
    generateSitemapXml exampleRuntime (exampleRuntime.clock 0) (exampleRuntime.clock 1)
      [recordInactive] = .ok (sitemapDocument "2025-11-05T08:00:00.001Z" []) := by
  decide

/-- On an API whose only record is `{slug: 'a', active: false}`: the fetch
succeeds with one record, the record is filtered out, and `main` writes a
document with no `<url>` entry. -/
theorem main_writes_generated_sitemap_witness :
    ((fetchProducts exampleRuntime (constantNet "HIDDEN")).2 = .ok [recordInactive] ∧
      [recordInactive].length > 0) ∧
    main exampleRuntime (constantNet "HIDDEN") =
      ((fetchProducts exampleRuntime (constantNet "HIDDEN")).1 ++
        [Effect.write (sitemapDocument "2025-11-05T08:00:00.001Z" [])], .ok ()) :=
  ⟨⟨congrArg Prod.snd fetchProducts_constantNet_hidden, by decide⟩,
   (main_writes_generated_sitemap exampleRuntime (constantNet "HIDDEN") [recordInactive]
      (sitemapDocument "2025-11-05T08:00:00.001Z" [])
      (congrArg Prod.snd fetchProducts_constantNet_hidden) (by decide)
      generateSitemapXml_hidden).2.1 rfl⟩


theorem rejected_of_requestFails (rt : Runtime) (net : Net) (k : Nat)
    (hfail : ∀ a, 1 ≤ a → a ≤ maxRetries → requestFails rt (net k a) = true) :
    ∃ e1 e2, httpGet rt (net k 1) = .error e1 ∧ httpGet rt (net k 2) = .error e2 := by
  obtain ⟨e1, h1⟩ := httpGet_of_requestFails rt (net k 1) (hfail 1 (le_refl _) (by decide))
  obtain ⟨e2, h2⟩ := httpGet_of_requestFails rt (net k 2) (hfail 2 (by decide) (le_refl _))
  exact ⟨e1, e2, h1, h2⟩

/-- C8: if a page that `fetchProducts` requests fails on all `maxRetries`
attempts (each time a network error, a timeout, a status other than 200 or a
body that is not JSON), `fetchProducts` throws `Failed to fetch after
retries`, and `main` catches it and hands `writeSitemap` exactly the document
of `generateFallbackSitemap`. -/
theorem main_fallback_on_retry_exhaustion (rt : Runtime) (net : Net) (k : Nat)
    (hreq : ∃ a url t, Effect.request k a url t ∈ (fetchProducts rt net).1)
    (hfail : ∀ a, 1 ≤ a → a ≤ maxRetries → requestFails rt (net k a) = true) :
    (fetchProducts rt net).2 = .error (.error "Failed to fetch after retries") ∧
    main rt net =
      ((fetchProducts rt net).1 ++ (writeSitemap rt (generateFallbackSitemap (rt.clock 0))).1,
       (writeSitemap rt (generateFallbackSitemap (rt.clock 0))).2) ∧
    (rt.fsWrite (generateFallbackSitemap (rt.clock 0)) = .ok () →
      main rt net =
        ((fetchProducts rt net).1 ++ [Effect.write (generateFallbackSitemap (rt.clock 0))],
         .ok ())) := by
  obtain ⟨e1, e2, h1, h2⟩ := rejected_of_requestFails rt net k hfail
  have herr : (fetchProducts rt net).2 = .error (.error "Failed to fetch after retries") :=
    fetchLoop_exhausted rt net k e1 e2 h1 h2 _ 0 (.num 1) [] rfl hreq
  have hxml : mainXml rt (fetchProducts rt net).2 = generateFallbackSitemap (rt.clock 0) := by
    rw [herr]; rfl
  refine ⟨herr, ?_, ?_⟩
  · rw [main_eq, hxml]
  · intro hw
    rw [main_effects_of_write rt net (by rw [hxml]; exact hw), hxml]

/-- C8 on a network whose every request times out: page 0 is requested, both
attempts fail, and the fallback document is written. -/
theorem main_fallback_on_retry_exhaustion_witness :
    ((∃ a url t, Effect.request 0 a url t ∈ (fetchProducts exampleRuntime deadNet).1) ∧
      (∀ a, 1 ≤ a → a ≤ maxRetries → requestFails exampleRuntime (deadNet 0 a) = true)) ∧
    (fetchProducts exampleRuntime deadNet).2 = .error (.error "Failed to fetch after retries") :=
  ⟨⟨⟨1, _, _, fetchProducts_requests_page_zero exampleRuntime deadNet⟩, fun _ _ _ => rfl⟩,
   (main_fallback_on_retry_exhaustion exampleRuntime deadNet 0
      ⟨1, _, _, fetchProducts_requests_page_zero exampleRuntime deadNet⟩ (fun _ _ _ => rfl)).1⟩

/-- After `k` pages answered at the first attempt (each with an array of
records and the total `T`), a page `k` that fails on all its attempts ends
`fetchProducts` with the error, after the `k` successful requests, two
attempts and one delay. -/
theorem fetchProducts_fail_after_pages (rt : Runtime) (net : Net) (items : Nat → List JSValue)
    (T : Int) (k : Nat) (hT : T ≠ 0) (hk : k < pageCap) (hreach : k = 0 ∨ (k : Int) < T)
    (hpages : ∀ j, j < k → pageResolves rt net j (items j) (.num T))
    (hfail : ∀ a, 1 ≤ a → a ≤ maxRetries → requestFails rt (net k a) = true) :
    fetchProducts rt net =
      (pageRequests rt 0 k ++
        [Effect.request k 1 (pageUrl rt k) timeoutMs, Effect.delay retryDelayMs,
         Effect.request k 2 (pageUrl rt k) timeoutMs],
       .error (.error "Failed to fetch after retries")) := by
  obtain ⟨e1, e2, h1, h2⟩ := rejected_of_requestFails rt net k hfail
  have hretry := retryLoop_of_rejected rt net k e1 e2 h1 h2
  unfold fetchProducts
  have hdata : (retryLoop rt net k 0 .null).2.truthy = false := by rw [hretry]; rfl
  by_cases hk0 : k = 0
  · subst hk0
    rw [fetchLoop_fail rt net 0 (.num 1) [] rfl hk hdata, hretry]
    rfl
  · have hlt : (k : Int) < T := by
      rcases hreach with h0 | hlt
      · exact absurd h0 hk0
      · exact hlt
    have hpre := fetchLoop_prefix rt net items T hT k 0 (.num 1) [] (fun _ => rfl) (by omega)
      (by push_cast; omega) (fun j _ hj => hpages j (by omega))
    rw [hpre]
    simp only [hk0, if_false, Nat.zero_add, List.nil_append]
    rw [fetchLoop_fail rt net k (.num T) _
      (by rw [pageLt_num]; exact congrArg Except.ok (decide_eq_true hlt)) hk hdata, hretry]

theorem failingSecondPageNet_first (rt : Runtime) (value : JSValue)
    (hparse : rt.jsonParse "FIFTY" = some value) (attempt : Nat) :
    httpGet rt (failingSecondPageNet 0 attempt) = .ok value := by
  unfold failingSecondPageNet httpGet
  simp only [if_true, ne_eq, not_true_eq_false, if_false, hparse]

theorem fetchProducts_failingSecondPageNet :
    fetchProducts exampleRuntime failingSecondPageNet =
      ([Effect.request 0 1 (pageUrl exampleRuntime 0) timeoutMs,
        Effect.request 1 1 (pageUrl exampleRuntime 1) timeoutMs, Effect.delay 500,
        Effect.request 1 2 (pageUrl exampleRuntime 1) timeoutMs],
       .error (.error "Failed to fetch after retries")) :=
  fetchProducts_fail_after_pages exampleRuntime failingSecondPageNet
    (fun _ => [.obj [("slug", .str "p")]]) 50 1 (by decide) (by decide) (Or.inr (by decide))
    (fun j hj => by
      have hj0 : j = 0 := by omega
      subst hj0
      exact ⟨_, failingSecondPageNet_first exampleRuntime _ rfl 1, rfl, rfl⟩)
    (fun _ _ _ => rfl)

/-- The fetch phase writes nothing. -/
theorem fetchLoop_no_write (rt : Runtime) (net : Net) :
    ∀ (n page : Nat) (tp : JSValue) (products : List JSValue), pageCap - page = n →
      ∀ text, Effect.write text ∉ (fetchLoop rt net page tp products).1 := by
  intro n
  induction n using Nat.strong_induction_on with
  | _ n ih =>
    intro page tp products hn text hmem
    have hretry : Effect.write text ∉ (retryLoop rt net page 0 .null).1 := by
      intro h
      rcases retryLoop_effects rt net page _ h with he | he | he <;> cases he
    rcases fetchLoop_cases rt net page tp products with
      ⟨e, _, h⟩ | ⟨_, _, _, h⟩ | ⟨hcap, _, h⟩ | ⟨hcap, _, tp2, p2, h⟩
    · rw [h] at hmem; simp at hmem
    · rw [h] at hmem; simp at hmem
    · rw [h] at hmem; exact hretry hmem
    · rw [h] at hmem
      simp only [List.mem_append] at hmem
      rcases hmem with hmem | hmem
      · exact hretry hmem
      · exact ih (pageCap - (page + 1)) (by omega) (page + 1) tp2 p2 rfl text hmem

/-- Every text `main` writes is the value its variable `xml` has after the
`try` statement. -/
theorem main_writes (rt : Runtime) (net : Net) (xml : String)
    (h : Effect.write xml ∈ (main rt net).1) : xml = mainXml rt (fetchProducts rt net).2 := by
  rw [main_eq] at h
  simp only [List.mem_append] at h
  rcases h with h | h
  · exact absurd h (fetchLoop_no_write rt net _ 0 (.num 1) [] rfl xml)
  · unfold writeSitemap at h
    cases hw : rt.fsWrite (mainXml rt (fetchProducts rt net).2) with
    | error e => simp [hw] at h
    | ok u => simpa [hw] using h

/-- C9: when page k is requested (so the pages before it were fetched and
their records accumulated) and page k fails on all its attempts,
`fetchProducts` returns no list, partial or whole: it throws.  What `main`
hands to `writeSitemap`, and so every text it writes, is the fallback
document, a text fixed by the clock alone: it is the same whatever the pages
before page k held. -/
theorem fetchProducts_all_or_nothing (rt : Runtime) (net : Net) (k : Nat)
    (hreq : ∃ a url t, Effect.request k a url t ∈ (fetchProducts rt net).1)
    (hfail : ∀ a, 1 ≤ a → a ≤ maxRetries → requestFails rt (net k a) = true) :
    (∀ products, (fetchProducts rt net).2 ≠ .ok products) ∧
    mainXml rt (fetchProducts rt net).2 = generateFallbackSitemap (rt.clock 0) ∧
    (∀ xml, Effect.write xml ∈ (main rt net).1 → xml = generateFallbackSitemap (rt.clock 0)) ∧
    (∀ (other : Net) (j : Nat),
      (∃ a url t, Effect.request j a url t ∈ (fetchProducts rt other).1) →
      (∀ a, 1 ≤ a → a ≤ maxRetries → requestFails rt (other j a) = true) →
      mainXml rt (fetchProducts rt other).2 = mainXml rt (fetchProducts rt net).2) := by
  have herr : ∀ (n : Net) (i : Nat),
      (∃ a url t, Effect.request i a url t ∈ (fetchProducts rt n).1) →
      (∀ a, 1 ≤ a → a ≤ maxRetries → requestFails rt (n i a) = true) →
      (fetchProducts rt n).2 = .error (.error "Failed to fetch after retries") := by
    intro n i hr hf
    obtain ⟨e1, e2, h1, h2⟩ := rejected_of_requestFails rt n i hf
    exact fetchLoop_exhausted rt n i e1 e2 h1 h2 _ 0 (.num 1) [] rfl hr
  have hxml : mainXml rt (fetchProducts rt net).2 = generateFallbackSitemap (rt.clock 0) := by
    rw [herr net k hreq hfail]; rfl
  refine ⟨?_, hxml, ?_, ?_⟩
  · intro products h
    rw [herr net k hreq hfail] at h
    cases h
  · intro xml hmem
    rw [main_writes rt net xml hmem, hxml]
  · intro other j hr hf
    rw [hxml, herr other j hr hf]
    rfl

/-- C9 on an API that serves page 0 (one record, 50 pages in all) and then
times out: page 1 is requested and fails twice, the run throws, and the
fallback document is what `main` has for the file. -/
theorem fetchProducts_all_or_nothing_witness :
    ((∃ a url t, Effect.request 1 a url t ∈
        (fetchProducts exampleRuntime failingSecondPageNet).1) ∧
      (∀ a, 1 ≤ a → a ≤ maxRetries →
        requestFails exampleRuntime (failingSecondPageNet 1 a) = true)) ∧
    mainXml exampleRuntime (fetchProducts exampleRuntime failingSecondPageNet).2 =
      generateFallbackSitemap 1762329600000 :=
  ⟨⟨⟨1, pageUrl exampleRuntime 1, timeoutMs, by
      rw [fetchProducts_failingSecondPageNet]; simp⟩, fun _ _ _ => rfl⟩,
   (fetchProducts_all_or_nothing exampleRuntime failingSecondPageNet 1
      ⟨1, pageUrl exampleRuntime 1, timeoutMs, by
        rw [fetchProducts_failingSecondPageNet]; simp⟩ (fun _ _ _ => rfl)).2.1⟩

/-- C10 as amended: whatever the API does, `fetchProducts` never requests a
page index of 10 or more; and when every one of the pages 0 to 9 is answered
at the first attempt with a `content` array of records and `totalPages: 50`,
it makes exactly these ten requests, in order, and returns the records of the
ten pages without throwing. -/
theorem fetchProducts_page_cap (rt : Runtime) (net : Net) :
    (∀ k a url t, Effect.request k a url t ∈ (fetchProducts rt net).1 → k < 10) ∧
    (∀ items : Nat → List JSValue,
      (∀ j, j < 10 → pageResolves rt net j (items j) (.num 50)) →
      fetchProducts rt net = (pageRequests rt 0 10, .ok (pageContents items 0 10))) := by
  constructor
  · intro k a url t hmem
    exact (fetchLoop_requests rt net _ 0 (.num 1) [] rfl k a url t hmem).2.1
  · intro items h
    exact fetchProducts_of_pages rt net items 50 (by decide) (fun j hj => h j (by
      have : min 50 pageCap = 10 := by decide
      omega))

/-- C10 as amended, on an API that answers every page with one record and
`totalPages: 50`: ten requests, for the pages 0 to 9, and ten records. -/
theorem fetchProducts_page_cap_witness :
    (∀ j, j < 10 →
      pageResolves exampleRuntime (constantNet "FIFTY") j [.obj [("slug", .str "p")]] (.num 50)) ∧
    fetchProducts exampleRuntime (constantNet "FIFTY") =
      (pageRequests exampleRuntime 0 10,
       .ok (pageContents (fun _ => [.obj [("slug", .str "p")]]) 0 10)) ∧
    (pageRequests exampleRuntime 0 10).length = 10 ∧
    (pageContents (fun _ => [JSValue.obj [("slug", .str "p")]]) 0 10).length = 10 :=
  ⟨fun j _ => ⟨_, constantNet_resolves exampleRuntime "FIFTY" _ rfl j 1, rfl, rfl⟩,
   (fetchProducts_page_cap exampleRuntime (constantNet "FIFTY")).2
      (fun _ => [.obj [("slug", .str "p")]])
      (fun j _ => ⟨_, constantNet_resolves exampleRuntime "FIFTY" _ rfl j 1, rfl, rfl⟩),
   rfl, rfl⟩


/-! ## The claim about the written text -/

theorem fetchProducts_constantNet_ampersand :
    fetchProducts exampleRuntime (constantNet "AMP") =
      ([Effect.request 0 1 (pageUrl exampleRuntime 0) timeoutMs], .ok [recordAmpersand]) :=
  fetchProducts_of_pages exampleRuntime (constantNet "AMP") (fun _ => [recordAmpersand]) 1
    (le_refl _)
    (fun j _ => ⟨_, constantNet_resolves exampleRuntime "AMP" _ rfl j 1, rfl, rfl⟩)

set_option maxRecDepth 1000000 in
theorem generateSitemapXml_ampersand :
    generateSitemapXml exampleRuntime (exampleRuntime.clock 0) (exampleRuntime.clock 1)
      [recordAmpersand] =
      .ok (sitemapDocument "2025-11-05T08:00:00.001Z"
        [urlEntryText siteUrl "a&b" "2025-11-05"]) := by
  decide

set_option maxRecDepth 1000000 in
/-- C5, at the failing input: the API answers its only page with the one
record `{slug: 'a&b'}`.  `main` writes the product sitemap with
`<loc>https://samah-store.tech/products/a&b</loc>`, and that text is not
well-formed XML: its `&` starts no reference. -/
theorem main_writes_malformed_xml :
    main exampleRuntime (constantNet "AMP") =
      ([Effect.request 0 1 "https://samah-store.tech/api/products?page=0&size=100" 5000,
        Effect.write (sitemapDocument "2025-11-05T08:00:00.001Z"
          [urlEntryText siteUrl "a&b" "2025-11-05"])], .ok ()) ∧
    Xml.wellFormed (sitemapDocument "2025-11-05T08:00:00.001Z"
      [urlEntryText siteUrl "a&b" "2025-11-05"]) = false := by
  constructor
  · have hxml : mainXml exampleRuntime (fetchProducts exampleRuntime (constantNet "AMP")).2 =
        sitemapDocument "2025-11-05T08:00:00.001Z" [urlEntryText siteUrl "a&b" "2025-11-05"] := by
      rw [fetchProducts_constantNet_ampersand]
      exact mainXml_of_ok exampleRuntime [recordAmpersand] _ (by decide)
        generateSitemapXml_ampersand
    rw [main_effects_of_write exampleRuntime (constantNet "AMP") rfl, hxml,
      fetchProducts_constantNet_ampersand]
    rfl
  · decide

set_option maxRecDepth 1000000 in
/-- The checker accepts the fallback document and a product sitemap with
plain slugs. -/
theorem wellFormed_examples :
    Xml.wellFormed (generateFallbackSitemap 1762329600000) = true ∧
    Xml.wellFormed (sitemapDocument "2025-11-05T08:00:00.001Z"
      [urlEntryText siteUrl "b" "2025-11-05", urlEntryText siteUrl "c" "2024-03-15"]) = true ∧
    Xml.wellFormed (sitemapDocument "2025-11-05T08:00:00.001Z" []) = true := by
  decide


/-! ## Documents that are well-formed -/

namespace Xml

theorem run_none (l : List Char) : run none l = none := by
  cases l <;> rfl

theorem run_append (s : Option State) (a b : List Char) :
    run s (a ++ b) = run (run s a) b := by
  induction a generalizing s with
  | nil => cases s <;> simp [run, run_none]
  | cons c rest ih =>
    cases s with
    | none => simp [run, run_none]
    | some st => exact ih (step st c)

theorem step_comment_plain (stack : List (List Char)) (c : Char) (h : isCommentPlain c = true) :
    step (inComment stack) c = some (inComment stack) := by
  simp only [isCommentPlain, Bool.and_eq_true, bne_iff_ne, ne_eq] at h
  obtain ⟨h1, h2⟩ := h
  have h3 : (c == '-') = false := by simpa using h2
  simp [step, stepMode, inComment, h1, h3]

theorem step_comment_dash (stack : List (List Char)) (c : Char) (h : isCommentPlain c = true) :
    run (some (inComment stack)) ['-', c] = some (inComment stack) := by
  simp only [isCommentPlain, Bool.and_eq_true, bne_iff_ne, ne_eq] at h
  obtain ⟨h1, h2⟩ := h
  have h3 : (c == '-') = false := by simpa using h2
  simp [run, step, stepMode, inComment, h1, h3]

theorem run_comment_plain (stack : List (List Char)) (l : List Char)
    (h : ∀ c ∈ l, isCommentPlain c = true) :
    run (some (inComment stack)) l = some (inComment stack) := by
  induction l with
  | nil => rfl
  | cons c rest ih =>
    simp only [run, step_comment_plain stack c (h c (List.mem_cons_self _ _))]
    exact ih (fun d hd => h d (List.mem_cons_of_mem _ hd))

theorem digitChar_commentPlain (n : Nat) : isCommentPlain (digitChar n) = true := by
  unfold digitChar
  split <;> decide

theorem digitChar_textPlain (n : Nat) : isTextPlain (digitChar n) = true := by
  unfold digitChar
  split <;> decide

theorem natDigitChar_commentPlain (k : Nat) (hk : k < 10) :
    isCommentPlain (Nat.digitChar k) = true := by
  interval_cases k <;> decide

theorem toDigitsCore_commentPlain (fuel : Nat) :
    ∀ (n : Nat) (ds : List Char), (∀ c ∈ ds, isCommentPlain c = true) →
      ∀ c ∈ Nat.toDigitsCore 10 fuel n ds, isCommentPlain c = true := by
  induction fuel with
  | zero => intro n ds hds c hc; exact hds c (by simpa [Nat.toDigitsCore] using hc)
  | succ fuel ih =>
    intro n ds hds c hc
    unfold Nat.toDigitsCore at hc
    have hd : ∀ x ∈ Nat.digitChar (n % 10) :: ds, isCommentPlain x = true := by
      intro x hx
      rcases List.mem_cons.mp hx with rfl | hx
      · exact natDigitChar_commentPlain _ (Nat.mod_lt _ (by decide))
      · exact hds x hx
    by_cases h0 : n / 10 = 0
    · simp only [h0, if_true] at hc
      exact hd c hc
    · simp only [h0, if_false] at hc
      exact ih _ _ hd c hc

theorem toString_commentPlain (n : Nat) : ∀ c ∈ (toString n).data, isCommentPlain c = true := by
  intro c hc
  have : (toString n).data = Nat.toDigits 10 n := rfl
  rw [this] at hc
  exact toDigitsCore_commentPlain _ _ [] (by simp) c hc

theorem run_comment_isoYear (stack : List (List Char)) (y : Int) :
    run (some (inComment stack)) (isoYear y) = some (inComment stack) := by
  unfold isoYear
  split
  · apply run_comment_plain
    intro c hc
    simp only [pad4, pad3, pad2, List.mem_cons, List.mem_singleton, List.mem_nil_iff, or_false] at hc
    rcases hc with h | h | h | h <;> subst h <;> exact digitChar_commentPlain _
  · split
    · have : '-' :: pad6 y.natAbs =
          ['-', digitChar (y.natAbs / 100000)] ++ digitChar (y.natAbs / 10000) :: pad4 y.natAbs := rfl
      rw [this, run_append, step_comment_dash stack _ (digitChar_commentPlain _)]
      apply run_comment_plain
      intro c hc
      simp only [pad4, pad3, pad2, List.mem_cons, List.mem_singleton, List.mem_nil_iff,
        or_false] at hc
      rcases hc with h | h | h | h | h <;> subst h <;> exact digitChar_commentPlain _
    · apply run_comment_plain
      intro c hc
      simp only [pad6, pad4, pad3, pad2, List.mem_cons, List.mem_singleton, List.mem_nil_iff,
        or_false] at hc
      rcases hc with h | h | h | h | h | h | h <;> subst h <;>
        first | exact digitChar_commentPlain _ | decide

theorem run_comment_toISOString (stack : List (List Char)) (t : Int) :
    run (some (inComment stack)) (toISOString t).data = some (inComment stack) := by
  have hshape : (toISOString t).data =
      isoYear (civilFromDays (t / msPerDay)).1 ++
        (['-', digitChar ((civilFromDays (t / msPerDay)).2.1 / 10)] ++
          ([digitChar (civilFromDays (t / msPerDay)).2.1] ++
            (['-', digitChar ((civilFromDays (t / msPerDay)).2.2 / 10)] ++
              (digitChar (civilFromDays (t / msPerDay)).2.2 :: 'T' :: isoTime t)))) := by
    simp [toISOString, isoDate, pad2]
  rw [hshape, run_append, run_comment_isoYear, run_append,
    step_comment_dash stack _ (digitChar_commentPlain _), run_append,
    run_comment_plain stack [_] (by
      intro c hc
      simp only [List.mem_singleton] at hc
      subst hc
      exact digitChar_commentPlain _),
    run_append, step_comment_dash stack _ (digitChar_commentPlain _)]
  apply run_comment_plain
  intro c hc
  simp only [isoTime, pad3, pad2, List.mem_cons, List.mem_append, List.mem_singleton,
    List.mem_nil_iff, or_false] at hc
  rcases hc with h | h | h <;> try (subst h; first | exact digitChar_commentPlain _ | decide)
  rcases h with ((((h | h) | h | h | h) | h | h | h) | h | h | h | h) | h <;> subst h <;>
    first | exact digitChar_commentPlain _ | decide

theorem step_text_plain (brackets : Nat) (stack : List (List Char)) (hs : stack ≠ [])
    (c : Char) (h : isTextPlain c = true) :
    ∃ b, step (inText brackets stack) c = some (inText b stack) := by
  simp only [isTextPlain, Bool.and_eq_true, bne_iff_ne, ne_eq] at h
  obtain ⟨⟨⟨h1, h2⟩, h3⟩, h4⟩ := h
  have e2 : (c == '<') = false := by simpa using h2
  have e3 : (c == '&') = false := by simpa using h3
  have e4 : (c == '>') = false := by simpa using h4
  have hne : stack.isEmpty = false := by
    cases stack with
    | nil => exact absurd rfl hs
    | cons a as => rfl
  refine ⟨if c == ']' then min 2 (brackets + 1) else 0, ?_⟩
  simp [step, stepMode, inText, h1, e2, e3, e4, hne]

theorem run_text_plain (stack : List (List Char)) (hs : stack ≠ []) (l : List Char)
    (h : ∀ c ∈ l, isTextPlain c = true) :
    ∀ brackets, ∃ b, run (some (inText brackets stack)) l = some (inText b stack) := by
  induction l with
  | nil => intro brackets; exact ⟨brackets, rfl⟩
  | cons c rest ih =>
    intro brackets
    obtain ⟨b1, h1⟩ := step_text_plain brackets stack hs c (h c (List.mem_cons_self _ _))
    obtain ⟨b2, h2⟩ := ih (fun d hd => h d (List.mem_cons_of_mem _ hd)) b1
    exact ⟨b2, by simp only [run, h1, h2]⟩

theorem step_text_lt (brackets : Nat) (stack : List (List Char)) :
    step (inText brackets stack) '<' =
      some { mode := .lt false, stack := stack, rootDone := false, first := false } := rfl

theorem isoDate_textPlain (t : Int) : ∀ c ∈ isoDate t, isTextPlain c = true := by
  intro c hc
  simp only [isoDate, List.mem_append, List.mem_cons, pad2, List.mem_singleton,
    List.mem_nil_iff, or_false] at hc
  rcases hc with (h | h | h | h) | h | h | h
  · unfold isoYear at h
    split at h
    · simp only [pad4, pad3, pad2, List.mem_cons, List.mem_singleton, List.mem_nil_iff,
        or_false] at h
      rcases h with h | h | h | h <;> subst h <;> exact digitChar_textPlain _
    · split at h <;>
      · simp only [pad6, pad4, pad3, pad2, List.mem_cons, List.mem_singleton, List.mem_nil_iff,
          or_false] at h
        rcases h with h | h | h | h | h | h | h <;> subst h <;>
          first | exact digitChar_textPlain _ | decide
  all_goals (subst h; first | exact digitChar_textPlain _ | decide)

set_option maxRecDepth 1000000 in
theorem run_fallback_head :
    run (some start) ("<?xml version=\"1.0\" encoding=\"UTF-8\"?>\n" ++
      "<urlset xmlns=\"http://www.sitemaps.org/schemas/sitemap/0.9\">\n" ++
      "  <!-- Fallback sitemap - API unavailable during build -->\n" ++
      "  <!-- Generated: ").data = some (inComment ["urlset".data]) := by
  decide

set_option maxRecDepth 1000000 in
theorem run_fallback_tail :
    run (some (inComment ["urlset".data])) (" -->\n" ++
      "  <url>\n" ++
      "    <loc>" ++ siteUrl ++ "/products</loc>\n" ++
      "    <changefreq>daily</changefreq>\n" ++
      "    <priority>0.9</priority>\n" ++
      "  </url>\n" ++
      "</urlset>\n").data = some done := by
  decide

theorem wellFormed_fallback (now : Int) : wellFormed (generateFallbackSitemap now) = true := by
  have hdata : (generateFallbackSitemap now).data =
      ("<?xml version=\"1.0\" encoding=\"UTF-8\"?>\n" ++
        "<urlset xmlns=\"http://www.sitemaps.org/schemas/sitemap/0.9\">\n" ++
        "  <!-- Fallback sitemap - API unavailable during build -->\n" ++
        "  <!-- Generated: ").data ++ ((toISOString now).data ++ (" -->\n" ++
        "  <url>\n" ++
        "    <loc>" ++ siteUrl ++ "/products</loc>\n" ++
        "    <changefreq>daily</changefreq>\n" ++
        "    <priority>0.9</priority>\n" ++
        "  </url>\n" ++
        "</urlset>\n").data) := by
    simp only [generateFallbackSitemap, String.data_append, List.append_assoc]
  unfold wellFormed
  rw [hdata, run_append, run_fallback_head, run_append, run_comment_toISOString,
    run_fallback_tail]
  rfl

set_option maxRecDepth 1000000 in
theorem run_entry_head :
    run (some (inText 0 ["urlset".data])) ("  <url>\n" ++ "    <loc>" ++ siteUrl ++
      "/products/").data = some (inText 0 ["loc".data, "url".data, "urlset".data]) := by
  decide

set_option maxRecDepth 1000000 in
theorem run_entry_middle :
    run (some (afterLt ["loc".data, "url".data, "urlset".data])) ("/loc>\n" ++
      "    <lastmod>").data = some (inText 0 ["lastmod".data, "url".data, "urlset".data]) := by
  decide

set_option maxRecDepth 1000000 in
theorem run_entry_tail :
    run (some (afterLt ["lastmod".data, "url".data, "urlset".data])) ("/lastmod>\n" ++
      "    <changefreq>weekly</changefreq>\n" ++
      "    <priority>0.8</priority>\n" ++
      "  </url>").data = some (inText 0 ["urlset".data]) := by
  decide

theorem run_text_then_lt (stack : List (List Char)) (hs : stack ≠ []) (s : String)
    (h : isSafeText s = true) (rest : List Char) :
    run (some (inText 0 stack)) (s.data ++ '<' :: rest) = run (some (afterLt stack)) rest := by
  obtain ⟨b, hb⟩ := run_text_plain stack hs s.data
    (fun c hc => by
      simp only [isSafeText, List.all_eq_true] at h
      exact h c hc) 0
  rw [run_append, hb]
  simp only [run, step_text_lt]
  rfl

theorem run_entry (slug lastmod : String) (hslug : isSafeText slug = true)
    (hlastmod : isSafeText lastmod = true) :
    run (some (inText 0 ["urlset".data])) (urlEntryText siteUrl slug lastmod).data =
      some (inText 0 ["urlset".data]) := by
  have hdata : (urlEntryText siteUrl slug lastmod).data =
      ("  <url>\n" ++ "    <loc>" ++ siteUrl ++ "/products/").data ++
        (slug.data ++ '<' :: (("/loc>\n" ++ "    <lastmod>").data ++
          (lastmod.data ++ '<' :: ("/lastmod>\n" ++
            "    <changefreq>weekly</changefreq>\n" ++
            "    <priority>0.8</priority>\n" ++
            "  </url>").data))) := by
    simp only [urlEntryText, String.data_append, List.append_assoc]
    rfl
  rw [hdata, run_append, run_entry_head, run_text_then_lt _ (by simp) slug hslug, run_append,
    run_entry_middle, run_text_then_lt _ (by simp) lastmod hlastmod, run_entry_tail]

theorem run_newline : run (some (inText 0 ["urlset".data])) "\n".data =
    some (inText 0 ["urlset".data]) := by
  decide

theorem run_joinLines (entries : List String) (h : ∀ e ∈ entries, IsSafeEntry e) :
    run (some (inText 0 ["urlset".data])) (joinLines entries).data =
      some (inText 0 ["urlset".data]) := by
  induction entries with
  | nil => rfl
  | cons e rest ih =>
    obtain ⟨slug, lastmod, rfl, hs, hl⟩ := h _ (List.mem_cons_self _ _)
    cases rest with
    | nil => exact run_entry slug lastmod hs hl
    | cons e2 rest2 =>
      simp only [joinLines, String.data_append]
      rw [run_append, run_append, run_entry slug lastmod hs hl, run_newline]
      exact ih (fun x hx => h x (List.mem_cons_of_mem _ hx))

set_option maxRecDepth 1000000 in
theorem run_sitemap_head :
    run (some start) ("<?xml version=\"1.0\" encoding=\"UTF-8\"?>\n" ++
      "<urlset xmlns=\"http://www.sitemaps.org/schemas/sitemap/0.9\">\n" ++
      "  <!-- Generated: ").data = some (inComment ["urlset".data]) := by
  decide

set_option maxRecDepth 1000000 in
theorem run_sitemap_middle :
    run (some (inComment ["urlset".data])) (" -->\n" ++ "  <!-- Products: ").data =
      some (inComment ["urlset".data]) := by
  decide

set_option maxRecDepth 1000000 in
theorem run_sitemap_count_end :
    run (some (inComment ["urlset".data])) " -->\n".data = some (inText 0 ["urlset".data]) := by
  decide

set_option maxRecDepth 1000000 in
theorem run_sitemap_tail :
    run (some (inText 0 ["urlset".data])) ("\n" ++ "</urlset>\n").data = some done := by
  decide

theorem wellFormed_sitemapDocument (t : Int) (entries : List String)
    (h : ∀ e ∈ entries, IsSafeEntry e) :
    wellFormed (sitemapDocument (toISOString t) entries) = true := by
  have hdata : (sitemapDocument (toISOString t) entries).data =
      ("<?xml version=\"1.0\" encoding=\"UTF-8\"?>\n" ++
        "<urlset xmlns=\"http://www.sitemaps.org/schemas/sitemap/0.9\">\n" ++
        "  <!-- Generated: ").data ++ ((toISOString t).data ++
        ((" -->\n" ++ "  <!-- Products: ").data ++ ((toString entries.length).data ++
          (" -->\n".data ++ ((joinLines entries).data ++ ("\n" ++ "</urlset>\n").data))))) := by
    simp only [sitemapDocument, String.data_append, List.append_assoc]
  unfold wellFormed
  rw [hdata, run_append, run_sitemap_head, run_append, run_comment_toISOString, run_append,
    run_sitemap_middle, run_append,
    run_comment_plain _ _ (toString_commentPlain entries.length), run_append,
    run_sitemap_count_end, run_append, run_joinLines entries h, run_sitemap_tail]
  rfl

end Xml

theorem isSafeText_utcDateString (t : Int) : Xml.isSafeText (utcDateString t) = true := by
  simp only [Xml.isSafeText, utcDateString, List.all_eq_true]
  exact Xml.isoDate_textPlain t

theorem lastmodOf_safe (rt : Runtime) (now : Int) (p : JSValue) (lastmod : String)
    (h : lastmodOf rt (utcDateString now) p = .ok lastmod) : Xml.isSafeText lastmod = true := by
  unfold lastmodOf at h
  cases hu : p.getProp "updatedAt" with
  | error e => simp only [hu] at h; cases h
  | ok updatedAt =>
    simp only [hu] at h
    split at h
    · cases hd : newDate rt updatedAt with
      | error e => simp only [hd] at h; cases h
      | ok date =>
        simp only [hd] at h
        cases date with
        | none => simp only [dateToISOString] at h; cases h
        | some t =>
          simp only [dateToISOString, Except.ok.injEq] at h
          rw [← h, splitTFirst_toISOString]
          exact isSafeText_utcDateString t
    · simp only [Except.ok.injEq] at h
      rw [← h]
      exact isSafeText_utcDateString now

theorem filterProducts_mem (products : List JSValue) :
    ∀ kept, filterProducts products = .ok kept →
      ∀ p ∈ kept, p ∈ products ∧ keepsProduct p = .ok true := by
  induction products with
  | nil =>
    intro kept h p hp
    simp only [filterProducts, Except.ok.injEq] at h
    subst h
    cases hp
  | cons q rest ih =>
    intro kept h p hp
    unfold filterProducts at h
    cases hq : keepsProduct q with
    | error e => simp only [hq] at h; cases h
    | ok keep =>
      cases hr : filterProducts rest with
      | error e => simp only [hq, hr] at h; cases h
      | ok others =>
        simp only [hq, hr, Except.ok.injEq] at h
        subst h
        cases keep with
        | true =>
          simp only [if_true, List.mem_cons] at hp
          rcases hp with rfl | hp
          · exact ⟨List.mem_cons_self _ _, hq⟩
          · exact ⟨List.mem_cons_of_mem _ (ih others hr p hp).1, (ih others hr p hp).2⟩
        | false =>
          simp only [Bool.false_eq_true, if_false] at hp
          exact ⟨List.mem_cons_of_mem _ (ih others hr p hp).1, (ih others hr p hp).2⟩

theorem keepsProduct_true (p : JSValue) (h : keepsProduct p = .ok true) :
    ∃ slug, p.getProp "slug" = .ok slug ∧ slug.truthy = true := by
  unfold keepsProduct at h
  cases hs : p.getProp "slug" with
  | error e => simp only [hs] at h; cases h
  | ok slug =>
    simp only [hs] at h
    by_cases ht : slug.truthy = true
    · exact ⟨slug, rfl, ht⟩
    · simp only [ht, Bool.false_eq_true, if_false, Except.ok.injEq] at h

theorem mapEntries_safe (rt : Runtime) (now : Int) (kept : List JSValue)
    (hkept : ∀ p ∈ kept, ∀ slug text, p.getProp "slug" = .ok slug →
      slug.toJSString = .ok text → Xml.isSafeText text = true) :
    ∀ entries, mapEntries rt (utcDateString now) kept = .ok entries →
      ∀ e ∈ entries, Xml.IsSafeEntry e := by
  induction kept with
  | nil =>
    intro entries h e he
    simp only [mapEntries, Except.ok.injEq] at h
    subst h
    cases he
  | cons p rest ih =>
    intro entries h e he
    unfold mapEntries at h
    cases hp : urlEntry rt (utcDateString now) p with
    | error err => simp only [hp] at h; cases h
    | ok entry =>
      cases hr : mapEntries rt (utcDateString now) rest with
      | error err => simp only [hp, hr] at h; cases h
      | ok others =>
        simp only [hp, hr, Except.ok.injEq] at h
        subst h
        rcases List.mem_cons.mp he with rfl | he
        · unfold urlEntry at hp
          cases hl : lastmodOf rt (utcDateString now) p with
          | error err => simp only [hl] at hp; cases hp
          | ok lastmod =>
            cases hs : p.getProp "slug" with
            | error err => simp only [hl, hs] at hp; cases hp
            | ok slug =>
              cases ht : slug.toJSString with
              | error err => simp only [hl, hs, ht] at hp; cases hp
              | ok text =>
                simp only [hl, hs, ht, Except.ok.injEq] at hp
                exact ⟨text, lastmod, hp.symm,
                  hkept p (List.mem_cons_self _ _) slug text hs ht,
                  lastmodOf_safe rt now p lastmod hl⟩
        · exact ih (fun q hq => hkept q (List.mem_cons_of_mem _ hq)) others hr e he

/-- Whenever `generateSitemapXml` returns a document for records whose slugs
print as safe texts, the document is well-formed XML. -/
theorem generateSitemapXml_wellFormed (rt : Runtime) (nowToday nowGenerated : Int)
    (products : List JSValue) (xml : String) (hsafe : SafeSlugs products)
    (h : generateSitemapXml rt nowToday nowGenerated products = .ok xml) :
    Xml.wellFormed xml = true := by
  unfold generateSitemapXml urlEntries at h
  rw [splitTFirst_toISOString] at h
  cases hf : filterProducts products with
  | error e => simp only [hf] at h; cases h
  | ok kept =>
    simp only [hf] at h
    cases hm : mapEntries rt (utcDateString nowToday) kept with
    | error e => simp only [hm] at h; cases h
    | ok entries =>
      simp only [hm, Except.ok.injEq] at h
      rw [← h]
      apply Xml.wellFormed_sitemapDocument
      apply mapEntries_safe rt nowToday kept _ entries hm
      intro p hp slug text hs ht
      obtain ⟨hmem, hkeep⟩ := filterProducts_mem products kept hf p hp
      obtain ⟨slug2, hs2, htruthy⟩ := keepsProduct_true p hkeep
      rw [hs] at hs2
      cases hs2
      exact hsafe p hmem slug text hs htruthy ht

theorem fallback_begins (now : Int) : ∃ rest,
    (generateFallbackSitemap now).data =
      ("<?xml version=\"1.0\" encoding=\"UTF-8\"?>\n" ++
        "<urlset xmlns=\"http://www.sitemaps.org/schemas/sitemap/0.9\">").data ++ rest :=
  ⟨_, rfl⟩

theorem sitemapDocument_begins (generated : String) (entries : List String) : ∃ rest,
    (sitemapDocument generated entries).data =
      ("<?xml version=\"1.0\" encoding=\"UTF-8\"?>\n" ++
        "<urlset xmlns=\"http://www.sitemaps.org/schemas/sitemap/0.9\">").data ++ rest :=
  ⟨_, rfl⟩

/-- What `main` has for the file is the fallback document at the first or
second clock read, or the document `generateSitemapXml` returned. -/
theorem mainXml_cases (rt : Runtime) (fetched : Except JSError (List JSValue)) :
    mainXml rt fetched = generateFallbackSitemap (rt.clock 0) ∨
    mainXml rt fetched = generateFallbackSitemap (rt.clock 1) ∨
    ∃ products, fetched = .ok products ∧
      generateSitemapXml rt (rt.clock 0) (rt.clock 1) products = .ok (mainXml rt fetched) := by
  cases fetched with
  | error e => exact Or.inl rfl
  | ok products =>
    unfold mainXml
    by_cases hlen : products.length > 0
    · simp only [hlen, if_true]
      cases hg : generateSitemapXml rt (rt.clock 0) (rt.clock 1) products with
      | error e => exact Or.inr (Or.inl rfl)
      | ok xml => exact Or.inr (Or.inr ⟨products, rfl, hg⟩)
    · simp only [hlen, if_false]
      exact Or.inl trivial

/-- Whatever the API does, the text `main` has for the file, and so every
text it writes, is well-formed XML that begins with the XML declaration and
the `<urlset>` start tag in the sitemap namespace, provided the slugs of the
fetched records print as texts that can stand in character data as they are
(legal characters other than `<`, `&` and `>`). -/
theorem main_writes_wellFormed (rt : Runtime) (net : Net)
    (hsafe : ∀ products, (fetchProducts rt net).2 = .ok products → SafeSlugs products) :
    Xml.wellFormed (mainXml rt (fetchProducts rt net).2) = true ∧
    (∀ xml, Effect.write xml ∈ (main rt net).1 →
      Xml.wellFormed xml = true ∧
      ∃ rest, xml.data =
        ("<?xml version=\"1.0\" encoding=\"UTF-8\"?>\n" ++
          "<urlset xmlns=\"http://www.sitemaps.org/schemas/sitemap/0.9\">").data ++ rest) := by
  have hwf : Xml.wellFormed (mainXml rt (fetchProducts rt net).2) = true := by
    rcases mainXml_cases rt (fetchProducts rt net).2 with h | h | ⟨products, hp, hg⟩
    · rw [h]; exact Xml.wellFormed_fallback _
    · rw [h]; exact Xml.wellFormed_fallback _
    · exact generateSitemapXml_wellFormed rt _ _ products _ (hsafe products hp) hg
  have hbegin : ∃ rest, (mainXml rt (fetchProducts rt net).2).data =
      ("<?xml version=\"1.0\" encoding=\"UTF-8\"?>\n" ++
        "<urlset xmlns=\"http://www.sitemaps.org/schemas/sitemap/0.9\">").data ++ rest := by
    rcases mainXml_cases rt (fetchProducts rt net).2 with h | h | ⟨products, hp, hg⟩
    · rw [h]; exact fallback_begins _
    · rw [h]; exact fallback_begins _
    · obtain ⟨entries, he⟩ := generateSitemapXml_is_sitemapDocument rt _ _ products _ hg
      rw [he]
      exact sitemapDocument_begins _ entries
  refine ⟨hwf, ?_⟩
  intro xml hmem
  rw [main_writes rt net xml hmem]
  exact ⟨hwf, hbegin⟩

set_option maxRecDepth 1000000 in
/-- The statement above on an API that serves the one record `{slug: 'p'}`
on each of ten pages. -/
theorem main_writes_wellFormed_witness :
    (∀ products, (fetchProducts exampleRuntime (constantNet "FIFTY")).2 = .ok products →
      SafeSlugs products) ∧
    Xml.wellFormed (mainXml exampleRuntime (fetchProducts exampleRuntime (constantNet "FIFTY")).2)
      = true := by
  have hfetch : (fetchProducts exampleRuntime (constantNet "FIFTY")).2 =
      .ok (pageContents (fun _ => [.obj [("slug", .str "p")]]) 0 10) :=
    congrArg Prod.snd (fetchProducts_of_pages exampleRuntime (constantNet "FIFTY")
      (fun _ => [.obj [("slug", .str "p")]]) 50 (by decide)
      (fun j _ => ⟨_, constantNet_resolves exampleRuntime "FIFTY" _ rfl j 1, rfl, rfl⟩))
  have hsafe : ∀ products, (fetchProducts exampleRuntime (constantNet "FIFTY")).2 = .ok products →
      SafeSlugs products := by
    intro products hp
    rw [hfetch] at hp
    cases hp
    intro p hp slug text hs _ ht
    have hp' : p = .obj [("slug", .str "p")] := by
      simp [pageContents] at hp
      exact hp
    subst hp'
    cases hs
    cases ht
    decide
  exact ⟨hsafe, (main_writes_wellFormed exampleRuntime (constantNet "FIFTY") hsafe).1⟩

/-! ## Which pages are requested, and how often -/

theorem pageRequests_eq_map (rt : Runtime) (count : Nat) : ∀ page,
    pageRequests rt page count =
      (List.range count).map (fun i =>
        Effect.request (page + i) 1 (pageUrl rt (page + i)) timeoutMs) := by
  induction count with
  | zero => intro page; rfl
  | succ n ih =>
    intro page
    rw [pageRequests, ih (page + 1), List.range_succ_eq_map]
    simp only [List.map_cons, List.map_map, Nat.add_zero]
    congr 1
    apply List.map_congr_left
    intro i _
    simp only [Function.comp, Nat.succ_eq_add_one]
    have : page + 1 + i = page + (i + 1) := by omega
    rw [this]

/-- C11 as amended: when every page below `min(T, 10)` is answered at the
first attempt with a `content` array and the same `totalPages` `T`,
`T >= 1`, the effects of `fetchProducts` are exactly one request per page 0,
1, ..., `min(T, 10) - 1`, in this order, each to
`apiBaseUrl/api/products?page=n&size=100` with the timeout of 5000 ms, and
nothing else; then it returns. -/
theorem fetchProducts_requests_each_page_once (rt : Runtime) (net : Net)
    (items : Nat → List JSValue) (T : Nat) (hT : 1 ≤ T)
    (h : ∀ n, n < min T 10 → pageResolves rt net n (items n) (.num (T : Int))) :
    (fetchProducts rt net).1 =
      (List.range (min T 10)).map (fun n =>
        Effect.request n 1
          (rt.apiBaseUrl ++ "/api/products?page=" ++ toString n ++ "&size=100") 5000) ∧
    ∃ products, (fetchProducts rt net).2 = .ok products := by
  have hmain := fetchProducts_of_pages rt net items T hT h
  rw [hmain, pageRequests_eq_map]
  refine ⟨?_, _, rfl⟩
  apply List.map_congr_left
  intro i _
  have hsize : toString pageSize = "100" := by decide
  simp only [Nat.zero_add, pageUrl, hsize, timeoutMs]
  rw [String.append_assoc _ "&size=" "100"]
  rfl

theorem looseRuntime_three_resolves (page : Nat) :
    pageResolves looseRuntime (constantNet "THREE") page [.obj [("slug", .str "q")]] (.num 3) :=
  ⟨_, rfl, rfl, rfl⟩

/-- C11 as amended, on an API of three pages with one record each: the
requests are those for the pages 0, 1 and 2. -/
theorem fetchProducts_requests_each_page_once_witness :
    (fetchProducts looseRuntime (constantNet "THREE")).1 =
      [Effect.request 0 1 "https://samah-store.tech/api/products?page=0&size=100" 5000,
       Effect.request 1 1 "https://samah-store.tech/api/products?page=1&size=100" 5000,
       Effect.request 2 1 "https://samah-store.tech/api/products?page=2&size=100" 5000] :=
  (fetchProducts_requests_each_page_once looseRuntime (constantNet "THREE")
    (fun _ => [.obj [("slug", .str "q")]]) 3 (by decide)
    (fun n _ => looseRuntime_three_resolves n)).1

theorem retryLoop_first_request (rt : Runtime) (net : Net) (page : Nat) :
    Effect.request page 1 (pageUrl rt page) timeoutMs ∈ (retryLoop rt net page 0 .null).1 := by
  rw [retryLoop_start]
  cases httpGet rt (net page 1) with
  | ok first =>
    cases httpGet rt (net page 2) with
    | ok second => simp only []; split <;> simp
    | error e => simp only []; split <;> simp
  | error e =>
    cases httpGet rt (net page 2) with
    | ok second => simp
    | error e => simp

theorem retryLoop_request_page (rt : Runtime) (net : Net) (page p a : Nat) (url : String)
    (t : Nat) (h : Effect.request p a url t ∈ (retryLoop rt net page 0 .null).1) : p = page := by
  rcases retryLoop_effects rt net page _ h with he | he | he <;>
    simp only [Effect.request.injEq, reduceCtorEq] at he <;> exact he.1

theorem contentItems_of_pageItems (data content : JSValue) (items : List JSValue)
    (hc : data.getProp "content" = .ok content) (hi : pageItems content = some items) :
    contentItems data = items := by
  unfold contentItems
  rw [hc]
  cases content <;> simp [pageItems, truthy, isArray] at hi
  simp only [hi]

theorem contentItems_of_pageItems_none (data content : JSValue)
    (hc : data.getProp "content" = .ok content) (hi : pageItems content = none) :
    contentItems data = [] := by
  unfold contentItems
  rw [hc]
  cases content <;> simp [pageItems, truthy, isArray] at hi <;> rfl

/-- One turn of the outer loop: it throws, it stops and returns `products`,
or it goes on to the next page with the page's records appended. -/
theorem fetchLoop_turn (rt : Runtime) (net : Net) (page : Nat) (tp : JSValue)
    (products : List JSValue) :
    (∃ e, (fetchLoop rt net page tp products).2 = .error e) ∨
    fetchLoop rt net page tp products = ([], .ok products) ∨
    (page < pageCap ∧ (pageData rt net page).truthy = true ∧
      ∃ tp2,
        fetchLoop rt net page tp products =
          ((retryLoop rt net page 0 .null).1 ++
            (fetchLoop rt net (page + 1) tp2 (products ++ contentItems (pageData rt net page))).1,
           (fetchLoop rt net (page + 1) tp2
            (products ++ contentItems (pageData rt net page))).2)) := by
  cases hlt : pageLt rt page tp with
  | error e => exact Or.inl ⟨e, by rw [fetchLoop_throw rt net page tp products e hlt]⟩
  | ok below =>
    by_cases hcond : below = true ∧ page < pageCap
    · obtain ⟨hb, hcap⟩ := hcond
      subst hb
      by_cases hdata : (retryLoop rt net page 0 .null).2.truthy = true
      · obtain ⟨content, hcontent⟩ := getProp_of_truthy _ "content" hdata
        obtain ⟨reported, hreported⟩ := getProp_of_truthy _ "totalPages" hdata
        refine Or.inr (Or.inr ⟨hcap, hdata, ?_⟩)
        cases hitems : pageItems content with
        | none =>
          refine ⟨tp, ?_⟩
          rw [fetchLoop_skip rt net page tp products hlt hcap content hdata hcontent hitems]
          unfold pageData
          rw [contentItems_of_pageItems_none _ content hcontent hitems, List.append_nil]
        | some items =>
          refine ⟨totalPagesOr1 reported, ?_⟩
          rw [fetchLoop_page rt net page tp products hlt hcap content reported items hdata hcontent
            hitems hreported]
          unfold pageData
          rw [contentItems_of_pageItems _ content items hcontent hitems]
      · have hfalse : (retryLoop rt net page 0 .null).2.truthy = false := by
          simpa using hdata
        exact Or.inl ⟨_, by rw [fetchLoop_fail rt net page tp products hlt hcap hfalse]⟩
    · exact Or.inr (Or.inl (fetchLoop_stop rt net page tp products below hlt hcond))

/-- When the outer loop returns, it has turned for a run of consecutive pages
and appended the records of each, page after page. -/
theorem fetchLoop_returns (rt : Runtime) (net : Net) :
    ∀ (n page : Nat) (tp : JSValue) (acc products : List JSValue), pageCap - page = n →
      (fetchLoop rt net page tp acc).2 = .ok products →
      ∃ m, page + m ≤ max page pageCap ∧
        products = acc ++ pageContents (fun p => contentItems (pageData rt net p)) page m ∧
        (∀ p, page ≤ p → p < page + m → (pageData rt net p).truthy = true) ∧
        ∀ p, (∃ a url t, Effect.request p a url t ∈ (fetchLoop rt net page tp acc).1) ↔
          (page ≤ p ∧ p < page + m) := by
  intro n
  induction n using Nat.strong_induction_on with
  | _ n ih =>
    intro page tp acc products hn hok
    rcases fetchLoop_turn rt net page tp acc with ⟨e, he⟩ | h | ⟨hcap, htruthy, tp2, h⟩
    · rw [he] at hok; cases hok
    · rw [h] at hok ⊢
      simp only [Except.ok.injEq] at hok
      subst hok
      refine ⟨0, by omega, by simp [pageContents], fun p h1 h2 => by omega, ?_⟩
      intro p
      simp only [List.not_mem_nil, exists_false, false_iff]
      omega
    · rw [h] at hok ⊢
      obtain ⟨m, hm, hprod, hdata, hreq⟩ :=
        ih (pageCap - (page + 1)) (by omega) (page + 1) tp2 _ products rfl hok
      refine ⟨m + 1, by omega, ?_, ?_, ?_⟩
      · rw [hprod, pageContents, List.append_assoc]
      · intro p h1 h2
        by_cases hp : p = page
        · subst hp; exact htruthy
        · exact hdata p (by omega) (by omega)
      · intro p
        constructor
        · rintro ⟨a, url, t, hmem⟩
          rcases List.mem_append.mp hmem with hmem | hmem
          · have := retryLoop_request_page rt net page p a url t hmem
            omega
          · have := (hreq p).mp ⟨a, url, t, hmem⟩
            omega
        · rintro ⟨h1, h2⟩
          by_cases hp : p = page
          · subst hp
            exact ⟨1, _, _, List.mem_append_left _ (retryLoop_first_request rt net p)⟩
          · obtain ⟨a, url, t, hmem⟩ := (hreq p).mpr ⟨by omega, by omega⟩
            exact ⟨a, url, t, List.mem_append_right _ hmem⟩

theorem contentItems_of_pageResolves (rt : Runtime) (net : Net) (page : Nat)
    (items : List JSValue) (total : JSValue) (h : pageResolves rt net page items total) :
    contentItems (pageData rt net page) = items := by
  obtain ⟨data, hretry, _, hc, _⟩ := retryLoop_of_pageResolves rt net page items total h
  unfold pageData contentItems
  rw [hretry]
  simp only [hc]

/-- C12: when `fetchProducts` returns, it has fetched the pages 0, ..., n - 1
for some `n` of at most 10, each ending with a truthy `data`, and its result is
the `content` arrays of these pages one after the other, page 0 first, each
array as the API gave it (a page whose `content` is no array adds nothing);
the array of a page answered at the first attempt is the one of that
response. -/
theorem fetchProducts_concatenates_pages (rt : Runtime) (net : Net) (products : List JSValue)
    (h : (fetchProducts rt net).2 = .ok products) :
    ∃ n, n ≤ 10 ∧
      (∀ p, (∃ a url t, Effect.request p a url t ∈ (fetchProducts rt net).1) ↔ p < n) ∧
      (∀ p, p < n → (pageData rt net p).truthy = true) ∧
      products = pageContents (fun p => contentItems (pageData rt net p)) 0 n ∧
      ∀ p items total, pageResolves rt net p items total →
        contentItems (pageData rt net p) = items := by
  obtain ⟨m, hm, hprod, hdata, hreq⟩ := fetchLoop_returns rt net _ 0 (.num 1) [] products rfl h
  refine ⟨m, by simpa [pageCap] using hm, ?_, ?_, by simpa using hprod, ?_⟩
  · intro p
    rw [show fetchProducts rt net = fetchLoop rt net 0 (.num 1) [] from rfl, hreq p]
    omega
  · intro p hp
    exact hdata p (by omega) (by omega)
  · intro p items total hres
    exact contentItems_of_pageResolves rt net p items total hres

theorem fetchProducts_three :
    fetchProducts looseRuntime (constantNet "THREE") =
      (pageRequests looseRuntime 0 3,
        .ok [.obj [("slug", .str "q")], .obj [("slug", .str "q")], .obj [("slug", .str "q")]]) :=
  fetchProducts_of_pages looseRuntime (constantNet "THREE")
    (fun _ => [.obj [("slug", .str "q")]]) 3 (by decide)
    (fun n _ => looseRuntime_three_resolves n)

/-- C12 on an API of three pages with one record each. -/
theorem fetchProducts_concatenates_pages_witness :
    ∃ n, n ≤ 10 ∧
      (∀ p, (∃ a url t, Effect.request p a url t ∈
        (fetchProducts looseRuntime (constantNet "THREE")).1) ↔ p < n) ∧
      (∀ p, p < n → (pageData looseRuntime (constantNet "THREE") p).truthy = true) ∧
      [JSValue.obj [("slug", .str "q")], .obj [("slug", .str "q")], .obj [("slug", .str "q")]] =
        pageContents
          (fun p => contentItems (pageData looseRuntime (constantNet "THREE") p)) 0 n ∧
      ∀ p items total, pageResolves looseRuntime (constantNet "THREE") p items total →
        contentItems (pageData looseRuntime (constantNet "THREE") p) = items :=
  fetchProducts_concatenates_pages looseRuntime (constantNet "THREE") _
    (by rw [fetchProducts_three])

theorem retryLoop_not_for_other (rt : Runtime) (net : Net) (page other : Nat)
    (h : other ≠ page) :
    ∀ eff ∈ (retryLoop rt net page 0 .null).1, isRequestFor other eff = false := by
  intro eff hmem
  rcases retryLoop_effects rt net page eff hmem with he | he | he <;> subst he <;>
    simp [isRequestFor, Ne.symm h]

/-- The effects of the outer loop for a page it requests: the effects of the
inner loop for that page stand together, with no request for the page before
or after them, and nothing follows them when the page ends without data. -/
theorem fetchLoop_block (rt : Runtime) (net : Net) (page : Nat) :
    ∀ (n from_ : Nat) (tp : JSValue) (acc : List JSValue), pageCap - from_ = n →
      (∃ a url t, Effect.request page a url t ∈ (fetchLoop rt net from_ tp acc).1) →
      ∃ before after,
        (fetchLoop rt net from_ tp acc).1 =
          before ++ (retryLoop rt net page 0 .null).1 ++ after ∧
        (∀ eff ∈ before, isRequestFor page eff = false) ∧
        (∀ eff ∈ after, isRequestFor page eff = false) ∧
        ((retryLoop rt net page 0 .null).2.truthy = false → after = []) := by
  intro n
  induction n using Nat.strong_induction_on with
  | _ n ih =>
    intro from_ tp acc hn hmem
    obtain ⟨a, url, t, hmem⟩ := hmem
    rcases fetchLoop_cases rt net from_ tp acc with
      ⟨e, _, h⟩ | ⟨_, _, _, h⟩ | ⟨hcap, _, h⟩ | ⟨hcap, htruthy, tp2, p2, h⟩
    · rw [h] at hmem; simp at hmem
    · rw [h] at hmem; simp at hmem
    · rw [h] at hmem ⊢
      have hp := retryLoop_request_page rt net from_ page a url t hmem
      subst hp
      exact ⟨[], [], by simp, by simp, by simp, fun _ => rfl⟩
    · rw [h] at hmem ⊢
      by_cases hp : page = from_
      · subst hp
        refine ⟨[], (fetchLoop rt net (page + 1) tp2 p2).1, by simp, by simp, ?_, ?_⟩
        · intro eff heff
          cases eff with
          | request k a2 url2 t2 =>
            have := (fetchLoop_requests rt net _ (page + 1) tp2 p2 rfl k a2 url2 t2 heff).1
            simp only [isRequestFor, beq_eq_false_iff_ne, ne_eq]
            omega
          | delay ms => rfl
          | write xml => rfl
        · intro hfalse
          rw [htruthy] at hfalse
          cases hfalse
      · rcases List.mem_append.mp hmem with hmem | hmem
        · exact absurd (retryLoop_request_page rt net from_ page a url t hmem) hp
        · obtain ⟨before, after, heq, hb, ha, hend⟩ :=
            ih (pageCap - (from_ + 1)) (by omega) (from_ + 1) tp2 p2 rfl ⟨a, url, t, hmem⟩
          refine ⟨(retryLoop rt net from_ 0 .null).1 ++ before, after, ?_, ?_, ha, hend⟩
          · rw [heq]; simp only [List.append_assoc]
          · intro eff heff
            rcases List.mem_append.mp heff with heff | heff
            · exact retryLoop_not_for_other rt net from_ page hp eff heff
            · exact hb eff heff

theorem retryLoop_request_count (rt : Runtime) (net : Net) (page : Nat) :
    ((retryLoop rt net page 0 .null).1.filter isRequest).length ≤ 2 ∧
    ((retryLoop rt net page 0 .null).1.filter (isRequestFor page)).length ≤ 2 := by
  rw [retryLoop_start]
  cases httpGet rt (net page 1) with
  | ok first =>
    cases httpGet rt (net page 2) with
    | ok second => simp only []; split <;> simp [isRequest, isRequestFor]
    | error e => simp only []; split <;> simp [isRequest, isRequestFor]
  | error e =>
    cases httpGet rt (net page 2) with
    | ok second => simp [isRequest, isRequestFor]
    | error e => simp [isRequest, isRequestFor]

theorem filter_eq_nil_of_all_false (p : Effect → Bool) (l : List Effect)
    (h : ∀ eff ∈ l, p eff = false) : l.filter p = [] := by
  induction l with
  | nil => rfl
  | cons x rest ih =>
    rw [List.filter_cons, h x (List.mem_cons_self _ _)]
    simpa using ih (fun e he => h e (List.mem_cons_of_mem _ he))

/-- C13: the effects of `fetchProducts` for a page it requests stand together
as one block, with no request for the page before or after it, and the block
holds at most `maxRetries` = 2 requests.  When both requests for the page fail
the block is request 1, one delay of 500 ms, request 2, and nothing follows it
(no delay after the last attempt).  When the first request resolves to a page
of the API, or to any truthy value, the block is that one request, with no
delay. -/
theorem fetchProducts_attempts_per_page (rt : Runtime) (net : Net) (page : Nat)
    (hreq : ∃ a url t, Effect.request page a url t ∈ (fetchProducts rt net).1) :
    ∃ before block after,
      (fetchProducts rt net).1 = before ++ block ++ after ∧
      (∀ eff ∈ before ++ after, isRequestFor page eff = false) ∧
      (block.filter isRequest).length ≤ 2 ∧
      ((fetchProducts rt net).1.filter (isRequestFor page)).length ≤ 2 ∧
      (requestFails rt (net page 1) = true → requestFails rt (net page 2) = true →
        block = [Effect.request page 1 (pageUrl rt page) 5000, Effect.delay 500,
          Effect.request page 2 (pageUrl rt page) 5000] ∧ after = []) ∧
      (∀ data, httpGet rt (net page 1) = .ok data → data.truthy = true →
        block = [Effect.request page 1 (pageUrl rt page) 5000]) := by
  obtain ⟨before, after, heq, hb, ha, hend⟩ :=
    fetchLoop_block rt net page _ 0 (.num 1) [] rfl hreq
  have hcount := retryLoop_request_count rt net page
  refine ⟨before, (retryLoop rt net page 0 .null).1, after, heq, ?_, hcount.1, ?_, ?_, ?_⟩
  · intro eff heff
    rcases List.mem_append.mp heff with h | h
    · exact hb eff h
    · exact ha eff h
  · rw [show (fetchProducts rt net).1 = before ++ (retryLoop rt net page 0 .null).1 ++ after
      from heq]
    rw [List.filter_append, List.filter_append, filter_eq_nil_of_all_false _ before hb,
      filter_eq_nil_of_all_false _ after ha]
    simpa using hcount.2
  · intro h1 h2
    obtain ⟨e1, he1⟩ := httpGet_of_requestFails rt _ h1
    obtain ⟨e2, he2⟩ := httpGet_of_requestFails rt _ h2
    have hretry := retryLoop_of_rejected rt net page e1 e2 he1 he2
    refine ⟨by rw [hretry]; rfl, hend (by rw [hretry]; rfl)⟩
  · intro data hget htruthy
    rw [retryLoop_start]
    simp only [hget, htruthy, Bool.true_eq_false, if_false]
    rfl

/-- C13 on an API that serves page 0 and then times out: page 1 is requested,
and its block is two requests with one delay between them, at the end of the
run. -/
theorem fetchProducts_attempts_per_page_witness :
    (∃ a url t, Effect.request 1 a url t ∈
      (fetchProducts exampleRuntime failingSecondPageNet).1) ∧
    ∃ before block after,
      (fetchProducts exampleRuntime failingSecondPageNet).1 = before ++ block ++ after ∧
      (∀ eff ∈ before ++ after, isRequestFor 1 eff = false) ∧
      (block.filter isRequest).length ≤ 2 ∧
      ((fetchProducts exampleRuntime failingSecondPageNet).1.filter (isRequestFor 1)).length
        ≤ 2 ∧
      (requestFails exampleRuntime (failingSecondPageNet 1 1) = true →
        requestFails exampleRuntime (failingSecondPageNet 1 2) = true →
        block = [Effect.request 1 1 (pageUrl exampleRuntime 1) 5000, Effect.delay 500,
          Effect.request 1 2 (pageUrl exampleRuntime 1) 5000] ∧ after = []) ∧
      (∀ data, httpGet exampleRuntime (failingSecondPageNet 1 1) = .ok data →
        data.truthy = true →
        block = [Effect.request 1 1 (pageUrl exampleRuntime 1) 5000]) :=
  ⟨⟨1, pageUrl exampleRuntime 1, timeoutMs, by
      rw [fetchProducts_failingSecondPageNet]; simp⟩,
    fetchProducts_attempts_per_page exampleRuntime failingSecondPageNet 1
      ⟨1, pageUrl exampleRuntime 1, timeoutMs, by
        rw [fetchProducts_failingSecondPageNet]; simp⟩⟩

/-! ## The claim about `httpGet` -/

/-- C14: `httpGet` rejects when the status of the response is not 200 (with
`HTTP` and the status), when the body of a 200 response is not valid JSON
(with `Invalid JSON`) and when the request times out (with `Timeout`); on a
200 response whose body is valid JSON it resolves to the parsed value.  It
settles on every event, and rejects on no other response. -/
theorem httpGet_settles (rt : Runtime) :
    (∀ status body, status ≠ 200 →
      httpGet rt (.response status body) = .error (.error ("HTTP " ++ toString status))) ∧
    (∀ body, rt.jsonParse body = none →
      httpGet rt (.response 200 body) = .error (.error "Invalid JSON")) ∧
    httpGet rt .timeout = .error (.error "Timeout") ∧
    (∀ body value, rt.jsonParse body = some value →
      httpGet rt (.response 200 body) = .ok value) ∧
    (∀ status body e, httpGet rt (.response status body) = .error e →
      status ≠ 200 ∨ rt.jsonParse body = none) := by
  refine ⟨?_, ?_, rfl, ?_, ?_⟩
  · intro status body hs
    unfold httpGet
    simp only [ne_eq, hs, not_false_eq_true, if_true]
  · intro body hj
    unfold httpGet
    simp only [ne_eq, not_true_eq_false, if_false, hj]
  · intro body value hj
    unfold httpGet
    simp only [ne_eq, not_true_eq_false, if_false, hj]
  · intro status body e h
    by_cases hs : status = 200
    · right
      subst hs
      unfold httpGet at h
      simp only [ne_eq, not_true_eq_false, if_false] at h
      cases hj : rt.jsonParse body with
      | none => rfl
      | some v => rw [hj] at h; cases h
    · exact Or.inl hs

/-- C14 on the example runtime: a 404, a 200 with a body that is no JSON, a
timeout, and a 200 with the body of an empty page. -/
theorem httpGet_settles_witness :
    httpGet exampleRuntime (.response 404 "EMPTY") = .error (.error "HTTP 404") ∧
    httpGet exampleRuntime (.response 200 "<html>") = .error (.error "Invalid JSON") ∧
    httpGet exampleRuntime .timeout = .error (.error "Timeout") ∧
    httpGet exampleRuntime (.response 200 "EMPTY") =
      .ok (.obj [("content", .arr []), ("totalPages", .num 1)]) :=
  ⟨(httpGet_settles exampleRuntime).1 404 "EMPTY" (by decide),
   (httpGet_settles exampleRuntime).2.1 "<html>" rfl,
   (httpGet_settles exampleRuntime).2.2.1,
   (httpGet_settles exampleRuntime).2.2.2.1 "EMPTY" _ rfl⟩

/-! ## The script, its timer and its exit code -/

/-- The timer does not fire exactly when the awaits take less than 30000 ms
together. -/
theorem begunAtDeadline_eq_none_iff (timing : Timing) (effects : List Effect) :
    ∀ elapsed, elapsed < globalTimeoutMs →
      (begunAtDeadline timing elapsed effects = none ↔
        elapsed + (effects.map (awaitTime timing)).sum < globalTimeoutMs) := by
  induction effects with
  | nil => intro elapsed h; simpa [begunAtDeadline] using h
  | cons eff rest ih =>
    intro elapsed h
    unfold begunAtDeadline
    by_cases hlt : elapsed + awaitTime timing eff < globalTimeoutMs
    · simp only [hlt, if_true, List.map_cons, List.sum_cons]
      rw [← Nat.add_assoc, ← ih _ hlt]
      cases begunAtDeadline timing (elapsed + awaitTime timing eff) rest <;> simp
    · simp only [hlt, if_false, List.map_cons, List.sum_cons, reduceCtorEq, false_iff]
      omega

theorem begunAtDeadline_prefix (timing : Timing) (effects : List Effect) :
    ∀ elapsed begun, begunAtDeadline timing elapsed effects = some begun →
      begun ≠ [] ∧ ∃ rest, effects = begun ++ rest := by
  induction effects with
  | nil => intro elapsed begun h; simp [begunAtDeadline] at h
  | cons eff rest ih =>
    intro elapsed begun h
    unfold begunAtDeadline at h
    by_cases hlt : elapsed + awaitTime timing eff < globalTimeoutMs
    · simp only [hlt, if_true] at h
      cases hrec : begunAtDeadline timing (elapsed + awaitTime timing eff) rest with
      | none => rw [hrec] at h; cases h
      | some b =>
        rw [hrec] at h
        simp only [Option.some.injEq] at h
        subst h
        obtain ⟨_, r, hr⟩ := ih _ _ hrec
        exact ⟨by simp, r, by rw [hr]; rfl⟩
    · simp only [hlt, if_false, Option.some.injEq] at h
      subst h
      exact ⟨by simp, rest, rfl⟩

/-- The script when `main` is through before the timer is due: the effects
are those of `main` and the exit code is 0, whether `main` resolved or
rejected. -/
theorem script_of_main_first (rt : Runtime) (net : Net) (timing : Timing)
    (h : begunAtDeadline timing 0 (fetchProducts rt net).1 = none) :
    script rt net timing = ((main rt net).1, 0) := by
  unfold script
  rw [h]
  rcases hm : main rt net with ⟨effects, result⟩
  cases result <;> rfl

/-- The script when the timer fires and the file system takes the fallback
document. -/
theorem script_of_timer (rt : Runtime) (net : Net) (timing : Timing) (begun : List Effect)
    (h : begunAtDeadline timing 0 (fetchProducts rt net).1 = some begun)
    (hw : rt.fsWrite (generateFallbackSitemap (rt.clock 0)) = .ok ()) :
    script rt net timing =
      (begun ++ [Effect.write (generateFallbackSitemap (rt.clock 0))], 0) := by
  unfold script writeSitemap
  rw [h, hw]

/-- The script when the timer fires and the write of the fallback document
throws. -/
theorem script_of_timer_failed_write (rt : Runtime) (net : Net) (timing : Timing)
    (begun : List Effect) (e : JSError)
    (h : begunAtDeadline timing 0 (fetchProducts rt net).1 = some begun)
    (hw : rt.fsWrite (generateFallbackSitemap (rt.clock 0)) = .error e) :
    script rt net timing = (begun, uncaughtExceptionExitCode) := by
  unfold script writeSitemap
  rw [h, hw]
  simp

theorem fetchProducts_brokenDisk_fifty :
    fetchProducts brokenDiskRuntime (constantNet "FIFTY") =
      (pageRequests brokenDiskRuntime 0 10,
        .ok (pageContents (fun _ => [.obj [("slug", .str "p")]]) 0 10)) :=
  fetchProducts_of_pages brokenDiskRuntime (constantNet "FIFTY")
    (fun _ => [.obj [("slug", .str "p")]]) 50 (by decide)
    (fun _ _ => ⟨_, rfl, rfl, rfl⟩)

/-- C15, at the failing input: the output directory cannot be written and the
API serves its pages in four seconds each.  Seven pages are in after 28
seconds, the timer fires while the request for the eighth is pending, the
write of the fallback document throws inside the timer callback, where
nothing catches it, and the process ends with the exit code 1 of an uncaught
exception, not with 0. -/
theorem script_exits_nonzero_on_failed_deadline_write :
    script brokenDiskRuntime (constantNet "FIFTY") fourSeconds =
      (pageRequests brokenDiskRuntime 0 8, 1) := by
  have h : begunAtDeadline fourSeconds 0
      (fetchProducts brokenDiskRuntime (constantNet "FIFTY")).1 =
        some (pageRequests brokenDiskRuntime 0 8) := by
    rw [fetchProducts_brokenDisk_fifty]
    rfl
  exact script_of_timer_failed_write brokenDiskRuntime (constantNet "FIFTY") fourSeconds _ _ h rfl

/-- The exit code of the script is 0, except when the timer fires and its
write throws: then it is 1. -/
theorem script_exit_code (rt : Runtime) (net : Net) (timing : Timing) :
    ((script rt net timing).2 = 0 ∨ (script rt net timing).2 = 1) ∧
    ((script rt net timing).2 = 1 ↔
      globalTimeoutMs ≤ ((fetchProducts rt net).1.map (awaitTime timing)).sum ∧
      ∃ e, rt.fsWrite (generateFallbackSitemap (rt.clock 0)) = .error e) := by
  have hiff := begunAtDeadline_eq_none_iff timing (fetchProducts rt net).1 0 (by decide)
  rw [Nat.zero_add] at hiff
  cases hb : begunAtDeadline timing 0 (fetchProducts rt net).1 with
  | none =>
    rw [script_of_main_first rt net timing hb]
    have := hiff.mp hb
    simp only [true_or, true_and]
    constructor
    · intro h; cases h
    · rintro ⟨h, _⟩; omega
  | some begun =>
    have hge : globalTimeoutMs ≤ ((fetchProducts rt net).1.map (awaitTime timing)).sum := by
      by_contra hlt
      rw [hiff.mpr (by omega)] at hb
      cases hb
    cases hw : rt.fsWrite (generateFallbackSitemap (rt.clock 0)) with
    | ok u =>
      rw [script_of_timer rt net timing begun hb hw]
      simp
    | error e =>
      rw [script_of_timer_failed_write rt net timing begun e hb hw]
      simp [uncaughtExceptionExitCode, hge]

/-- C16 fails as stated: on a machine whose output directory cannot be
written and an API that answers at once, the write in `main` throws and `main`
rejects, but the handler of `.catch` ends the process with exit code 0: the
run ends as a success, with no file written. -/
theorem script_swallows_failed_write :
    (main brokenDiskRuntime (constantNet "FIFTY")).2 =
      .error (.error "EACCES: permission denied") ∧
    script brokenDiskRuntime (constantNet "FIFTY") quick =
      (pageRequests brokenDiskRuntime 0 10, 0) := by
  have hmain : main brokenDiskRuntime (constantNet "FIFTY") =
      (pageRequests brokenDiskRuntime 0 10, .error (.error "EACCES: permission denied")) := by
    rw [main_eq, fetchProducts_brokenDisk_fifty]
    rfl
  have h : begunAtDeadline quick 0
      (fetchProducts brokenDiskRuntime (constantNet "FIFTY")).1 = none := by
    rw [fetchProducts_brokenDisk_fifty]
    rfl
  rw [script_of_main_first _ _ _ h, hmain]
  exact ⟨rfl, rfl⟩

/-- C16 as amended: when the write in `writeSitemap` throws while `main` is
running (so before the timer is due), `main` rejects with that error and the
script handles it: the `.catch` handler ends the process with exit code 0.
The run has written nothing. -/
theorem script_exits_zero_on_failed_write (rt : Runtime) (net : Net) (timing : Timing)
    (e : JSError)
    (hfirst : ((fetchProducts rt net).1.map (awaitTime timing)).sum < globalTimeoutMs)
    (hw : rt.fsWrite (mainXml rt (fetchProducts rt net).2) = .error e) :
    (main rt net).2 = .error e ∧
    (script rt net timing).2 = 0 ∧
    (script rt net timing).1 = (fetchProducts rt net).1 ∧
    ∀ xml, Effect.write xml ∉ (script rt net timing).1 := by
  have hb : begunAtDeadline timing 0 (fetchProducts rt net).1 = none :=
    (begunAtDeadline_eq_none_iff timing _ 0 (by decide)).mpr (by omega)
  have hmain : main rt net = ((fetchProducts rt net).1, .error e) := by
    rw [main_eq]
    unfold writeSitemap
    rw [hw]
    simp
  rw [script_of_main_first rt net timing hb, hmain]
  refine ⟨rfl, rfl, rfl, ?_⟩
  intro xml
  exact fetchLoop_no_write rt net _ 0 (.num 1) [] rfl xml

/-- C16 as amended, on the machine whose output directory cannot be written
and an API that answers at once. -/
theorem script_exits_zero_on_failed_write_witness :
    (script brokenDiskRuntime (constantNet "FIFTY") quick).2 = 0 ∧
    ∀ xml, Effect.write xml ∉ (script brokenDiskRuntime (constantNet "FIFTY") quick).1 :=
  have h := script_exits_zero_on_failed_write brokenDiskRuntime (constantNet "FIFTY") quick
    (.error "EACCES: permission denied")
    (by rw [fetchProducts_brokenDisk_fifty]; decide) rfl
  ⟨h.2.1, h.2.2.2⟩

/-- C17: when the awaits of `main` take 30000 ms or more together, so that
the timer fires while one of them is pending, and the file system takes the
write, the script has begun some of the requests of `fetchProducts`, writes
the document of `generateFallbackSitemap` and nothing else, and ends with
exit code 0. -/
theorem script_writes_fallback_at_deadline (rt : Runtime) (net : Net) (timing : Timing)
    (hdeadline : globalTimeoutMs ≤ ((fetchProducts rt net).1.map (awaitTime timing)).sum)
    (hw : rt.fsWrite (generateFallbackSitemap (rt.clock 0)) = .ok ()) :
    (∃ begun rest, begun ≠ [] ∧ (fetchProducts rt net).1 = begun ++ rest ∧
      script rt net timing =
        (begun ++ [Effect.write (generateFallbackSitemap (rt.clock 0))], 0)) ∧
    (∀ xml, Effect.write xml ∈ (script rt net timing).1 →
      xml = generateFallbackSitemap (rt.clock 0)) ∧
    (script rt net timing).2 = 0 := by
  have hiff := begunAtDeadline_eq_none_iff timing (fetchProducts rt net).1 0 (by decide)
  cases hb : begunAtDeadline timing 0 (fetchProducts rt net).1 with
  | none =>
    have := hiff.mp hb
    omega
  | some begun =>
    obtain ⟨hne, rest, hrest⟩ := begunAtDeadline_prefix timing _ 0 begun hb
    have hs := script_of_timer rt net timing begun hb hw
    refine ⟨⟨begun, rest, hne, hrest, hs⟩, ?_, by rw [hs]⟩
    intro xml hmem
    rw [hs] at hmem
    rcases List.mem_append.mp hmem with hmem | hmem
    · exfalso
      have : Effect.write xml ∈ (fetchProducts rt net).1 := by
        rw [hrest]; exact List.mem_append_left _ hmem
      exact fetchLoop_no_write rt net _ 0 (.num 1) [] rfl xml this
    · simpa using hmem

theorem fetchProducts_example_fifty :
    fetchProducts exampleRuntime (constantNet "FIFTY") =
      (pageRequests exampleRuntime 0 10,
        .ok (pageContents (fun _ => [.obj [("slug", .str "p")]]) 0 10)) :=
  fetchProducts_of_pages exampleRuntime (constantNet "FIFTY")
    (fun _ => [.obj [("slug", .str "p")]]) 50 (by decide)
    (fun _ _ => ⟨_, rfl, rfl, rfl⟩)

/-- C17 on an API whose ten pages each arrive, after four seconds: the timer
fires at 30 seconds, the one write is the fallback document and the exit code
is 0. -/
theorem script_writes_fallback_at_deadline_witness :
    (∀ xml, Effect.write xml ∈ (script exampleRuntime (constantNet "FIFTY") fourSeconds).1 →
      xml = generateFallbackSitemap 1762329600000) ∧
    (script exampleRuntime (constantNet "FIFTY") fourSeconds).2 = 0 :=
  (script_writes_fallback_at_deadline exampleRuntime (constantNet "FIFTY") fourSeconds
    (by rw [fetchProducts_example_fifty]; decide) rfl).2

/-! ## Counting in the documents -/

theorem countsIn_append (pat a b : List Char) (j k : Nat) (ha : CountsIn pat a j)
    (hb : CountsIn pat b k) : CountsIn pat (a ++ b) (j + k) := by
  intro rest
  rw [List.append_assoc, ha, hb]
  omega

theorem countsIn_total (pat seg : List Char) (k : Nat) (h : CountsIn pat seg k) :
    countSub pat seg = k := by
  have := h []
  simpa [countSub] using this

/-- A text without the first character of `pat` holds no beginning of
`pat`. -/
theorem countsIn_skip (p : Char) (ps seg : List Char) (h : ∀ c ∈ seg, c ≠ p) :
    CountsIn (p :: ps) seg 0 := by
  intro rest
  induction seg with
  | nil => rfl
  | cons c tail ih =>
    have hc : (p == c) = false := by
      simpa using (h c (List.mem_cons_self _ _)).symm
    simp only [List.cons_append, countSub, List.isPrefixOf, hc, Bool.false_and,
      Bool.false_eq_true, if_false, Nat.add_zero]
    exact ih (fun d hd => h d (List.mem_cons_of_mem _ hd))

theorem ne_lt_of_textPlain (c : Char) (h : Xml.isTextPlain c = true) : c ≠ '<' := by
  simp only [Xml.isTextPlain, Bool.and_eq_true, bne_iff_ne, ne_eq] at h
  exact h.1.1.2

theorem toISOString_textPlain (t : Int) : ∀ c ∈ (toISOString t).data, Xml.isTextPlain c = true := by
  intro c hc
  simp only [toISOString, List.mem_append, List.mem_cons] at hc
  rcases hc with h | h | h
  · exact Xml.isoDate_textPlain t c h
  · subst h; decide
  · simp only [isoTime, pad3, pad2, List.mem_cons, List.mem_append, List.mem_singleton,
      List.mem_nil_iff, or_false] at h
    rcases h with ((((h | h) | h | h | h) | h | h | h) | h | h | h | h) | h <;> subst h <;>
      first | exact Xml.digitChar_textPlain _ | decide

theorem natDigitChar_textPlain (k : Nat) (hk : k < 10) :
    Xml.isTextPlain (Nat.digitChar k) = true := by
  interval_cases k <;> decide

theorem toDigitsCore_textPlain (fuel : Nat) :
    ∀ (n : Nat) (ds : List Char), (∀ c ∈ ds, Xml.isTextPlain c = true) →
      ∀ c ∈ Nat.toDigitsCore 10 fuel n ds, Xml.isTextPlain c = true := by
  induction fuel with
  | zero => intro n ds hds c hc; exact hds c (by simpa [Nat.toDigitsCore] using hc)
  | succ fuel ih =>
    intro n ds hds c hc
    unfold Nat.toDigitsCore at hc
    have hd : ∀ x ∈ Nat.digitChar (n % 10) :: ds, Xml.isTextPlain x = true := by
      intro x hx
      rcases List.mem_cons.mp hx with rfl | hx
      · exact natDigitChar_textPlain _ (Nat.mod_lt _ (by decide))
      · exact hds x hx
    by_cases h0 : n / 10 = 0
    · simp only [h0, if_true] at hc
      exact hd c hc
    · simp only [h0, if_false] at hc
      exact ih _ _ hd c hc

theorem toString_textPlain (n : Nat) : ∀ c ∈ (toString n).data, Xml.isTextPlain c = true := by
  intro c hc
  have : (toString n).data = Nat.toDigits 10 n := rfl
  rw [this] at hc
  exact toDigitsCore_textPlain _ _ [] (by simp) c hc

/-- A text of plain characters holds no beginning of a text that starts
with `<`. -/
theorem countsIn_plain (ps seg : List Char) (h : ∀ c ∈ seg, Xml.isTextPlain c = true) :
    CountsIn ('<' :: ps) seg 0 :=
  countsIn_skip '<' ps seg (fun c hc => ne_lt_of_textPlain c (h c hc))

theorem fallback_parts (now : Int) :
    (generateFallbackSitemap now).data =
      ("<?xml version=\"1.0\" encoding=\"UTF-8\"?>\n" ++
        "<urlset xmlns=\"http://www.sitemaps.org/schemas/sitemap/0.9\">\n" ++
        "  <!-- Fallback sitemap - API unavailable during build -->\n" ++
        "  <!-- Generated: ").data ++ ((toISOString now).data ++ (" -->\n" ++
        "  <url>\n" ++
        "    <loc>" ++ siteUrl ++ "/products</loc>\n" ++
        "    <changefreq>daily</changefreq>\n" ++
        "    <priority>0.9</priority>\n" ++
        "  </url>\n" ++
        "</urlset>\n").data) := by
  simp only [generateFallbackSitemap, String.data_append, List.append_assoc]

/-- The count of a text that starts with `<` in the fallback document, from
its counts in the two fixed parts of the document. -/
theorem occurrences_fallback (pat : String) (ps : List Char) (now : Int) (j k : Nat)
    (hpat : pat.data = '<' :: ps)
    (hhead : CountsIn pat.data
      ("<?xml version=\"1.0\" encoding=\"UTF-8\"?>\n" ++
        "<urlset xmlns=\"http://www.sitemaps.org/schemas/sitemap/0.9\">\n" ++
        "  <!-- Fallback sitemap - API unavailable during build -->\n" ++
        "  <!-- Generated: ").data j)
    (htail : CountsIn pat.data
      (" -->\n" ++
        "  <url>\n" ++
        "    <loc>" ++ siteUrl ++ "/products</loc>\n" ++
        "    <changefreq>daily</changefreq>\n" ++
        "    <priority>0.9</priority>\n" ++
        "  </url>\n" ++
        "</urlset>\n").data k) :
    occurrences pat (generateFallbackSitemap now) = j + k := by
  unfold occurrences
  rw [fallback_parts]
  have hmid : CountsIn pat.data (toISOString now).data 0 := by
    rw [hpat]
    exact countsIn_plain ps _ (toISOString_textPlain now)
  have := countsIn_total _ _ _ (countsIn_append _ _ _ _ _ hhead (countsIn_append _ _ _ _ _ hmid htail))
  rw [this]
  omega

set_option maxRecDepth 1000000 in
/-- C18: the document of `generateFallbackSitemap` is a fixed text around
the generation timestamp, its only input.  It holds one `<url>` element, with
the `loc` `https://samah-store.tech/products` (`siteUrl` and `/products`), the
`changefreq` `daily` and the `priority` `0.9`, each once, and no `lastmod`. -/
theorem generateFallbackSitemap_one_entry (now : Int) :
    generateFallbackSitemap now =
      "<?xml version=\"1.0\" encoding=\"UTF-8\"?>\n" ++
      "<urlset xmlns=\"http://www.sitemaps.org/schemas/sitemap/0.9\">\n" ++
      "  <!-- Fallback sitemap - API unavailable during build -->\n" ++
      "  <!-- Generated: " ++ toISOString now ++ " -->\n" ++
      "  <url>\n" ++
      "    <loc>https://samah-store.tech/products</loc>\n" ++
      "    <changefreq>daily</changefreq>\n" ++
      "    <priority>0.9</priority>\n" ++
      "  </url>\n" ++
      "</urlset>\n" ∧
    siteUrl ++ "/products" = "https://samah-store.tech/products" ∧
    occurrences "<url>" (generateFallbackSitemap now) = 1 ∧
    occurrences "</url>" (generateFallbackSitemap now) = 1 ∧
    occurrences "<loc>" (generateFallbackSitemap now) = 1 ∧
    occurrences "<loc>https://samah-store.tech/products</loc>" (generateFallbackSitemap now) = 1 ∧
    occurrences "<changefreq>" (generateFallbackSitemap now) = 1 ∧
    occurrences "<changefreq>daily</changefreq>" (generateFallbackSitemap now) = 1 ∧
    occurrences "<priority>" (generateFallbackSitemap now) = 1 ∧
    occurrences "<priority>0.9</priority>" (generateFallbackSitemap now) = 1 ∧
    occurrences "<lastmod>" (generateFallbackSitemap now) = 0 ∧
    ∀ other, toISOString other = toISOString now →
      generateFallbackSitemap other = generateFallbackSitemap now := by
  refine ⟨?_, by decide, ?_, ?_, ?_, ?_, ?_, ?_, ?_, ?_, ?_, ?_⟩
  · apply String.ext
    simp only [generateFallbackSitemap, siteUrl, String.data_append, List.append_assoc]
    rfl
  · exact occurrences_fallback "<url>" _ now 0 1 rfl (fun _ => rfl) (fun _ => rfl)
  · exact occurrences_fallback "</url>" _ now 0 1 rfl (fun _ => rfl) (fun _ => rfl)
  · exact occurrences_fallback "<loc>" _ now 0 1 rfl (fun _ => rfl) (fun _ => rfl)
  · exact occurrences_fallback "<loc>https://samah-store.tech/products</loc>" _ now 0 1 rfl
      (fun _ => rfl) (fun _ => rfl)
  · exact occurrences_fallback "<changefreq>" _ now 0 1 rfl (fun _ => rfl) (fun _ => rfl)
  · exact occurrences_fallback "<changefreq>daily</changefreq>" _ now 0 1 rfl
      (fun _ => rfl) (fun _ => rfl)
  · exact occurrences_fallback "<priority>" _ now 0 1 rfl (fun _ => rfl) (fun _ => rfl)
  · exact occurrences_fallback "<priority>0.9</priority>" _ now 0 1 rfl
      (fun _ => rfl) (fun _ => rfl)
  · exact occurrences_fallback "<lastmod>" _ now 0 0 rfl (fun _ => rfl) (fun _ => rfl)
  · intro other h
    unfold generateFallbackSitemap
    rw [h]

/-! ## The clock in the product sitemap -/

set_option maxRecDepth 1000000 in
/-- C19 fails as stated: two calls of `generateSitemapXml` with the same list,
the one record `{slug: 'b'}`, and the same current date, 2025-11-05, but a
millisecond apart, return different texts: the comment `Generated:` holds the
time of the call to the millisecond. -/
theorem generateSitemapXml_differs_within_a_day :
    utcDateString 1762329600000 = "2025-11-05" ∧
    utcDateString 1762329600001 = "2025-11-05" ∧
    generateSitemapXml exampleRuntime 1762329600000 1762329600000 [recordPlain] ≠
      generateSitemapXml exampleRuntime 1762329600001 1762329600001 [recordPlain] := by
  decide

/-- C19 as amended: the output of `generateSitemapXml` depends on the clock
through the current date, the `lastmod` of the records without `updatedAt`,
and through the timestamp of the comment `Generated:`, and through nothing
else: two calls with the same list, the same current date and the same
timestamp return the same text, or throw the same error. -/
theorem generateSitemapXml_same_date_and_stamp (rt : Runtime)
    (nowToday nowToday2 nowGenerated nowGenerated2 : Int) (products : List JSValue)
    (hdate : utcDateString nowToday = utcDateString nowToday2)
    (hstamp : toISOString nowGenerated = toISOString nowGenerated2) :
    generateSitemapXml rt nowToday nowGenerated products =
      generateSitemapXml rt nowToday2 nowGenerated2 products := by
  unfold generateSitemapXml
  rw [splitTFirst_toISOString, splitTFirst_toISOString, hdate, hstamp]

set_option maxRecDepth 1000000 in
/-- C19 as amended, on two calls at different times of 2025-11-05 whose
comment carries the same timestamp. -/
theorem generateSitemapXml_same_date_and_stamp_witness :
    utcDateString 1762329600000 = utcDateString 1762333200000 ∧
    generateSitemapXml exampleRuntime 1762329600000 1762329600000 [recordPlain, recordDated] =
      generateSitemapXml exampleRuntime 1762333200000 1762329600000 [recordPlain, recordDated] :=
  ⟨by decide,
   generateSitemapXml_same_date_and_stamp exampleRuntime 1762329600000 1762333200000
     1762329600000 1762329600000 [recordPlain, recordDated] (by decide) rfl⟩

/-! ## The comments of the documents -/

theorem sitemapDocument_parts (generated : String) (entries : List String) :
    (sitemapDocument generated entries).data =
      ("<?xml version=\"1.0\" encoding=\"UTF-8\"?>\n" ++
        "<urlset xmlns=\"http://www.sitemaps.org/schemas/sitemap/0.9\">\n" ++
        "  <!-- Generated: ").data ++ (generated.data ++
        ((" -->\n" ++ "  <!-- Products: ").data ++ ((toString entries.length).data ++
          (" -->\n".data ++ ((joinLines entries).data ++ ("\n" ++ "</urlset>\n").data))))) := by
  simp only [sitemapDocument, String.data_append, List.append_assoc]

theorem urlEntryText_parts (slug lastmod : String) :
    (urlEntryText siteUrl slug lastmod).data =
      ("  <url>\n" ++ "    <loc>" ++ siteUrl ++ "/products/").data ++
        (slug.data ++ (("</loc>\n" ++ "    <lastmod>").data ++
          (lastmod.data ++ ("</lastmod>\n" ++
            "    <changefreq>weekly</changefreq>\n" ++
            "    <priority>0.8</priority>\n" ++
            "  </url>").data))) := by
  simp only [urlEntryText, String.data_append, List.append_assoc]

theorem countsIn_safe (ps : List Char) (s : String) (h : Xml.isSafeText s = true) :
    CountsIn ('<' :: ps) s.data 0 := by
  apply countsIn_plain
  simpa only [Xml.isSafeText, List.all_eq_true] using h

/-- The count of a text that starts with `<` in one entry with a safe slug
and date, from its counts in the three fixed parts of the entry. -/
theorem countsIn_entry (ps : List Char) (entry : String) (a b c : Nat)
    (hentry : Xml.IsSafeEntry entry)
    (h1 : CountsIn ('<' :: ps) ("  <url>\n" ++ "    <loc>" ++ siteUrl ++ "/products/").data a)
    (h2 : CountsIn ('<' :: ps) ("</loc>\n" ++ "    <lastmod>").data b)
    (h3 : CountsIn ('<' :: ps) ("</lastmod>\n" ++
            "    <changefreq>weekly</changefreq>\n" ++
            "    <priority>0.8</priority>\n" ++
            "  </url>").data c) :
    CountsIn ('<' :: ps) entry.data (a + b + c) := by
  obtain ⟨slug, lastmod, rfl, hs, hl⟩ := hentry
  rw [urlEntryText_parts]
  have := countsIn_append _ _ _ _ _ h1 (countsIn_append _ _ _ _ _ (countsIn_safe ps slug hs)
    (countsIn_append _ _ _ _ _ h2 (countsIn_append _ _ _ _ _ (countsIn_safe ps lastmod hl) h3)))
  have hk : a + (0 + (b + (0 + c))) = a + b + c := by omega
  rw [hk] at this
  exact this

/-- The count in the joined entries is the count in one entry times their
number. -/
theorem countsIn_joinLines (ps : List Char) (k : Nat) (entries : List String)
    (h : ∀ e ∈ entries, CountsIn ('<' :: ps) e.data k) :
    CountsIn ('<' :: ps) (joinLines entries).data (k * entries.length) := by
  induction entries with
  | nil => intro rest; simp [joinLines]
  | cons e rest ih =>
    cases rest with
    | nil =>
      simp only [joinLines, List.length_singleton, Nat.mul_one]
      exact h e (List.mem_cons_self _ _)
    | cons e2 rest2 =>
      have hrest := ih (fun x hx => h x (List.mem_cons_of_mem _ hx))
      have hnl : CountsIn ('<' :: ps) "\n".data 0 :=
        countsIn_skip '<' ps _ (by decide)
      have := countsIn_append _ _ _ _ _ (h e (List.mem_cons_self _ _))
        (countsIn_append _ _ _ _ _ hnl hrest)
      simp only [joinLines, String.data_append, List.append_assoc]
      have hk : k + (0 + k * (e2 :: rest2).length) = k * (e :: e2 :: rest2).length := by
        simp only [List.length_cons]
        ring
      rw [hk] at this
      exact this

/-- The count of a text that starts with `<` in a product sitemap whose
entries have safe slugs and dates. -/
theorem occurrences_sitemapDocument (pat : String) (ps : List Char) (t : Int)
    (entries : List String) (h0 h1 h2 h3 a b c : Nat)
    (hpat : pat.data = '<' :: ps)
    (hentries : ∀ e ∈ entries, Xml.IsSafeEntry e)
    (hhead : CountsIn pat.data
      ("<?xml version=\"1.0\" encoding=\"UTF-8\"?>\n" ++
        "<urlset xmlns=\"http://www.sitemaps.org/schemas/sitemap/0.9\">\n" ++
        "  <!-- Generated: ").data h0)
    (hmiddle : CountsIn pat.data (" -->\n" ++ "  <!-- Products: ").data h1)
    (hend : CountsIn pat.data " -->\n".data h2)
    (htail : CountsIn pat.data ("\n" ++ "</urlset>\n").data h3)
    (he1 : CountsIn pat.data ("  <url>\n" ++ "    <loc>" ++ siteUrl ++ "/products/").data a)
    (he2 : CountsIn pat.data ("</loc>\n" ++ "    <lastmod>").data b)
    (he3 : CountsIn pat.data ("</lastmod>\n" ++
            "    <changefreq>weekly</changefreq>\n" ++
            "    <priority>0.8</priority>\n" ++
            "  </url>").data c) :
    occurrences pat (sitemapDocument (toISOString t) entries) =
      h0 + h1 + h2 + h3 + (a + b + c) * entries.length := by
  unfold occurrences
  rw [sitemapDocument_parts]
  rw [hpat] at hhead hmiddle hend htail he1 he2 he3 ⊢
  have hstamp := countsIn_plain ps _ (toISOString_textPlain t)
  have hcount := countsIn_plain ps _ (toString_textPlain entries.length)
  have hjoin := countsIn_joinLines ps (a + b + c) entries
    (fun e he => countsIn_entry ps e a b c (hentries e he) he1 he2 he3)
  have := countsIn_total _ _ _ (countsIn_append _ _ _ _ _ hhead
    (countsIn_append _ _ _ _ _ hstamp (countsIn_append _ _ _ _ _ hmiddle
      (countsIn_append _ _ _ _ _ hcount (countsIn_append _ _ _ _ _ hend
        (countsIn_append _ _ _ _ _ hjoin htail))))))
  rw [this]
  omega

theorem mapEntries_shape (rt : Runtime) (today : String) (kept : List JSValue) :
    ∀ entries, mapEntries rt today kept = .ok entries →
      ∀ e ∈ entries, ∃ slug lastmod, e = urlEntryText siteUrl slug lastmod := by
  induction kept with
  | nil =>
    intro entries h e he
    simp only [mapEntries, Except.ok.injEq] at h
    subst h
    cases he
  | cons p rest ih =>
    intro entries h e he
    unfold mapEntries at h
    cases hp : urlEntry rt today p with
    | error err => simp only [hp] at h; cases h
    | ok entry =>
      cases hr : mapEntries rt today rest with
      | error err => simp only [hp, hr] at h; cases h
      | ok others =>
        simp only [hp, hr, Except.ok.injEq] at h
        subst h
        rcases List.mem_cons.mp he with rfl | he
        · unfold urlEntry at hp
          cases hl : lastmodOf rt today p with
          | error err => simp only [hl] at hp; cases hp
          | ok lastmod =>
            cases hs : p.getProp "slug" with
            | error err => simp only [hl, hs] at hp; cases hp
            | ok slug =>
              cases ht : slug.toJSString with
              | error err => simp only [hl, hs, ht] at hp; cases hp
              | ok text =>
                simp only [hl, hs, ht, Except.ok.injEq] at hp
                exact ⟨text, lastmod, hp.symm⟩
        · exact ih others hr e he

/-- A document that `generateSitemapXml` returns is the template around the
entries, each the entry template around a slug and a date; safe slugs make
safe entries. -/
theorem generateSitemapXml_ok_entries (rt : Runtime) (nowToday nowGenerated : Int)
    (products : List JSValue) (xml : String)
    (h : generateSitemapXml rt nowToday nowGenerated products = .ok xml) :
    ∃ entries, xml = sitemapDocument (toISOString nowGenerated) entries ∧
      (∀ e ∈ entries, ∃ slug lastmod, e = urlEntryText siteUrl slug lastmod) ∧
      (SafeSlugs products → ∀ e ∈ entries, Xml.IsSafeEntry e) := by
  unfold generateSitemapXml urlEntries at h
  rw [splitTFirst_toISOString] at h
  cases hf : filterProducts products with
  | error e => simp only [hf] at h; cases h
  | ok kept =>
    simp only [hf] at h
    cases hm : mapEntries rt (utcDateString nowToday) kept with
    | error e => simp only [hm] at h; cases h
    | ok entries =>
      simp only [hm, Except.ok.injEq] at h
      refine ⟨entries, h.symm, mapEntries_shape rt _ kept entries hm, ?_⟩
      intro hsafe
      apply mapEntries_safe rt nowToday kept _ entries hm
      intro p hp slug text hs ht
      obtain ⟨hmem, hkeep⟩ := filterProducts_mem products kept hf p hp
      obtain ⟨slug2, hs2, htruthy⟩ := keepsProduct_true p hkeep
      rw [hs] at hs2
      cases hs2
      exact hsafe p hmem slug text hs htruthy ht

/-- Every text the script writes is what `main` has for the file or the
fallback document of the timer. -/
theorem script_writes (rt : Runtime) (net : Net) (timing : Timing) (xml : String)
    (h : Effect.write xml ∈ (script rt net timing).1) :
    xml = mainXml rt (fetchProducts rt net).2 ∨ xml = generateFallbackSitemap (rt.clock 0) := by
  cases hb : begunAtDeadline timing 0 (fetchProducts rt net).1 with
  | none =>
    rw [script_of_main_first rt net timing hb] at h
    exact Or.inl (main_writes rt net xml h)
  | some begun =>
    obtain ⟨_, rest, hrest⟩ := begunAtDeadline_prefix timing _ 0 begun hb
    have hno : Effect.write xml ∉ begun := by
      intro hmem
      have : Effect.write xml ∈ (fetchProducts rt net).1 := by
        rw [hrest]; exact List.mem_append_left _ hmem
      exact fetchLoop_no_write rt net _ 0 (.num 1) [] rfl xml this
    cases hw : rt.fsWrite (generateFallbackSitemap (rt.clock 0)) with
    | ok u =>
      rw [script_of_timer rt net timing begun hb hw] at h
      rcases List.mem_append.mp h with h | h
      · exact absurd h hno
      · right; simpa using h
    | error e =>
      rw [script_of_timer_failed_write rt net timing begun e hb hw] at h
      exact absurd h hno

theorem fetchProducts_deadNet :
    fetchProducts exampleRuntime deadNet =
      ([Effect.request 0 1 (pageUrl exampleRuntime 0) timeoutMs, Effect.delay retryDelayMs,
        Effect.request 0 2 (pageUrl exampleRuntime 0) timeoutMs],
       .error (.error "Failed to fetch after retries")) :=
  fetchProducts_fail_after_pages exampleRuntime deadNet (fun _ => []) 1 0 (by decide)
    (by decide) (Or.inl rfl) (fun j hj => absurd hj (Nat.not_lt_zero j)) (fun _ _ _ => rfl)

set_option maxRecDepth 1000000 in
/-- C20 fails as stated: on an API whose every request times out the script
writes the fallback document, and that document has a comment `Generated:`
but no comment `Products:`; the word does not occur in it. -/
theorem script_writes_document_without_count :
    script exampleRuntime deadNet quick =
      ([Effect.request 0 1 (pageUrl exampleRuntime 0) timeoutMs, Effect.delay retryDelayMs,
        Effect.request 0 2 (pageUrl exampleRuntime 0) timeoutMs,
        Effect.write (generateFallbackSitemap 1762329600000)], 0) ∧
    occurrences "<!-- Generated:" (generateFallbackSitemap 1762329600000) = 1 ∧
    occurrences "<!-- Products:" (generateFallbackSitemap 1762329600000) = 0 ∧
    occurrences "Products" (generateFallbackSitemap 1762329600000) = 0 := by
  refine ⟨?_, by decide, by decide, by decide⟩
  have h : begunAtDeadline quick 0 (fetchProducts exampleRuntime deadNet).1 = none := by
    rw [fetchProducts_deadNet]
    rfl
  rw [script_of_main_first _ _ _ h, main_eq, fetchProducts_deadNet]
  rfl

set_option maxRecDepth 1000000 in
/-- C20 as amended: every document the script writes begins with the XML
declaration and the `<urlset>` start tag that declares the namespace
`http://www.sitemaps.org/schemas/sitemap/0.9`, and it is either a fallback
document or a product sitemap.  The fallback document has one comment
`Generated:`, no comment `Products:` and one `<url>` element.  The product
sitemap is the template with the comment `Generated:` and the comment
`Products:` around the entries, the count shown being the number of entries;
when the slugs of the fetched records print as safe texts, each comment occurs
once and the count shown is the number of `<url>` start tags in the
document. -/
theorem script_writes_commented_document (rt : Runtime) (net : Net) (timing : Timing)
    (xml : String) (h : Effect.write xml ∈ (script rt net timing).1) :
    (∃ rest, xml.data =
      ("<?xml version=\"1.0\" encoding=\"UTF-8\"?>\n" ++
        "<urlset xmlns=\"http://www.sitemaps.org/schemas/sitemap/0.9\">").data ++ rest) ∧
    ((∃ now, xml = generateFallbackSitemap now ∧
        occurrences "<!-- Generated:" xml = 1 ∧
        occurrences "<!-- Products:" xml = 0 ∧
        occurrences "<url>" xml = 1) ∨
     (∃ entries,
        xml =
          "<?xml version=\"1.0\" encoding=\"UTF-8\"?>\n" ++
          "<urlset xmlns=\"http://www.sitemaps.org/schemas/sitemap/0.9\">\n" ++
          "  <!-- Generated: " ++ toISOString (rt.clock 1) ++ " -->\n" ++
          "  <!-- Products: " ++ toString entries.length ++ " -->\n" ++
          joinLines entries ++ "\n" ++
          "</urlset>\n" ∧
        (∀ e ∈ entries, ∃ slug lastmod, e = urlEntryText siteUrl slug lastmod) ∧
        ((∀ products, (fetchProducts rt net).2 = .ok products → SafeSlugs products) →
          occurrences "<!-- Generated:" xml = 1 ∧
          occurrences "<!-- Products:" xml = 1 ∧
          occurrences "<url>" xml = entries.length))) := by
  have hfb : ∀ now,
      (∃ rest, (generateFallbackSitemap now).data =
        ("<?xml version=\"1.0\" encoding=\"UTF-8\"?>\n" ++
          "<urlset xmlns=\"http://www.sitemaps.org/schemas/sitemap/0.9\">").data ++ rest) ∧
      ((∃ now2, generateFallbackSitemap now = generateFallbackSitemap now2 ∧
          occurrences "<!-- Generated:" (generateFallbackSitemap now) = 1 ∧
          occurrences "<!-- Products:" (generateFallbackSitemap now) = 0 ∧
          occurrences "<url>" (generateFallbackSitemap now) = 1) ∨
       (∃ entries,
          generateFallbackSitemap now =
            "<?xml version=\"1.0\" encoding=\"UTF-8\"?>\n" ++
            "<urlset xmlns=\"http://www.sitemaps.org/schemas/sitemap/0.9\">\n" ++
            "  <!-- Generated: " ++ toISOString (rt.clock 1) ++ " -->\n" ++
            "  <!-- Products: " ++ toString entries.length ++ " -->\n" ++
            joinLines entries ++ "\n" ++
            "</urlset>\n" ∧
          (∀ e ∈ entries, ∃ slug lastmod, e = urlEntryText siteUrl slug lastmod) ∧
          ((∀ products, (fetchProducts rt net).2 = .ok products → SafeSlugs products) →
            occurrences "<!-- Generated:" (generateFallbackSitemap now) = 1 ∧
            occurrences "<!-- Products:" (generateFallbackSitemap now) = 1 ∧
            occurrences "<url>" (generateFallbackSitemap now) = entries.length))) := by
    intro now
    exact ⟨fallback_begins now, Or.inl ⟨now, rfl,
      occurrences_fallback "<!-- Generated:" _ now 1 0 rfl (fun _ => rfl) (fun _ => rfl),
      occurrences_fallback "<!-- Products:" _ now 0 0 rfl (fun _ => rfl) (fun _ => rfl),
      occurrences_fallback "<url>" _ now 0 1 rfl (fun _ => rfl) (fun _ => rfl)⟩⟩
  rcases script_writes rt net timing xml h with hx | hx
  · rcases mainXml_cases rt (fetchProducts rt net).2 with hm | hm | ⟨products, hp, hg⟩
    · rw [hx, hm]; exact hfb _
    · rw [hx, hm]; exact hfb _
    · rw [← hx] at hg
      obtain ⟨entries, he, hshape, hsafe⟩ := generateSitemapXml_ok_entries rt _ _ products xml hg
      refine ⟨by rw [he]; exact sitemapDocument_begins _ entries, Or.inr ⟨entries, ?_, hshape, ?_⟩⟩
      · rw [he]; rfl
      · intro hslugs
        have hentries := hsafe (hslugs products hp)
        rw [he]
        refine ⟨?_, ?_, ?_⟩
        · have := occurrences_sitemapDocument "<!-- Generated:" _ (rt.clock 1) entries
            1 0 0 0 0 0 0 rfl hentries (fun _ => rfl) (fun _ => rfl) (fun _ => rfl)
            (fun _ => rfl) (fun _ => rfl) (fun _ => rfl) (fun _ => rfl)
          simpa using this
        · have := occurrences_sitemapDocument "<!-- Products:" _ (rt.clock 1) entries
            0 1 0 0 0 0 0 rfl hentries (fun _ => rfl) (fun _ => rfl) (fun _ => rfl)
            (fun _ => rfl) (fun _ => rfl) (fun _ => rfl) (fun _ => rfl)
          simpa using this
        · have := occurrences_sitemapDocument "<url>" _ (rt.clock 1) entries
            0 0 0 0 1 0 0 rfl hentries (fun _ => rfl) (fun _ => rfl) (fun _ => rfl)
            (fun _ => rfl) (fun _ => rfl) (fun _ => rfl) (fun _ => rfl)
          simpa using this
  · rw [hx]; exact hfb _

/-- C20 as amended, on an API that serves the one record `{slug: 'p'}` on
each of ten pages, at once: the script writes what `main` has for the file,
and that text begins with the declaration and the start tag with the
namespace. -/
theorem script_writes_commented_document_witness :
    Effect.write (mainXml exampleRuntime (fetchProducts exampleRuntime (constantNet "FIFTY")).2) ∈
      (script exampleRuntime (constantNet "FIFTY") quick).1 ∧
    ∃ rest, (mainXml exampleRuntime (fetchProducts exampleRuntime (constantNet "FIFTY")).2).data =
      ("<?xml version=\"1.0\" encoding=\"UTF-8\"?>\n" ++
        "<urlset xmlns=\"http://www.sitemaps.org/schemas/sitemap/0.9\">").data ++ rest :=
  have hmem : Effect.write
      (mainXml exampleRuntime (fetchProducts exampleRuntime (constantNet "FIFTY")).2) ∈
      (script exampleRuntime (constantNet "FIFTY") quick).1 := by
    have h : begunAtDeadline quick 0
        (fetchProducts exampleRuntime (constantNet "FIFTY")).1 = none := by
      rw [fetchProducts_example_fifty]
      rfl
    rw [script_of_main_first _ _ _ h, main_effects_of_write _ _ rfl]
    simp
  ⟨hmem, (script_writes_commented_document exampleRuntime (constantNet "FIFTY") quick _ hmem).1⟩

/-! ## Responses outside the shape of the API -/

/-- A 200 response whose body is the JSON text `null` resolves `httpGet`, but
the inner loop tests `!data`: it requests the page again, at once, and after
two such answers `fetchProducts` throws. -/
theorem fetchProducts_null_body :
    fetchProducts looseRuntime (constantNet "NULL") =
      ([Effect.request 0 1 (pageUrl looseRuntime 0) timeoutMs,
        Effect.request 0 2 (pageUrl looseRuntime 0) timeoutMs],
       .error (.error "Failed to fetch after retries")) := by
  have hretry : retryLoop looseRuntime (constantNet "NULL") 0 0 .null =
      ([Effect.request 0 1 (pageUrl looseRuntime 0) timeoutMs,
        Effect.request 0 2 (pageUrl looseRuntime 0) timeoutMs], .null) := by
    rw [retryLoop_start]
    rfl
  unfold fetchProducts
  rw [fetchLoop_fail looseRuntime (constantNet "NULL") 0 (.num 1) [] rfl (by decide)
    (by rw [hretry]; rfl), hretry]

/-- A page without a `content` array adds no record and its `totalPages` is
not read: with every body `totalPages: 3` and no `content`, `fetchProducts`
requests page 0 alone and returns the empty list. -/
theorem fetchProducts_page_without_content :
    fetchProducts looseRuntime (constantNet "NOCONTENT") =
      ([Effect.request 0 1 (pageUrl looseRuntime 0) timeoutMs], .ok []) := by
  have hretry : retryLoop looseRuntime (constantNet "NOCONTENT") 0 0 .null =
      ([Effect.request 0 1 (pageUrl looseRuntime 0) timeoutMs],
        .obj [("totalPages", .num 3)]) := by
    rw [retryLoop_start]
    rfl
  unfold fetchProducts
  rw [fetchLoop_skip looseRuntime (constantNet "NOCONTENT") 0 (.num 1) [] rfl (by decide)
    .undefined (by rw [hretry]; rfl) (by rw [hretry]; rfl) rfl, hretry]
  rw [fetchLoop_stop looseRuntime (constantNet "NOCONTENT") 1 (.num 1) [] false rfl (by simp)]
  rfl

/-! ## One write per run -/

theorem fetchProducts_no_write (rt : Runtime) (net : Net) :
    ∀ eff ∈ (fetchProducts rt net).1, isWrite eff = false := by
  intro eff hmem
  cases eff with
  | write xml => exact absurd hmem (fetchLoop_no_write rt net _ 0 (.num 1) [] rfl xml)
  | request p a url t => rfl
  | delay ms => rfl

/-- C23: in a run in which the file system takes the text handed to it,
`writeSitemap` writes exactly once, as the last effect of the run: when `main`
is through before the timer is due, the write is the one of `main` and the
timer is cleared; when the timer fires, the write is the one of the timer and
the process ends before `main` gets to its own.  No run ends without the
write. -/
theorem script_writes_once (rt : Runtime) (net : Net) (timing : Timing)
    (hmain : rt.fsWrite (mainXml rt (fetchProducts rt net).2) = .ok ())
    (htimer : rt.fsWrite (generateFallbackSitemap (rt.clock 0)) = .ok ()) :
    ((script rt net timing).1.filter isWrite).length = 1 ∧
    ∃ before xml, (script rt net timing).1 = before ++ [Effect.write xml] ∧
      (∀ eff ∈ before, isWrite eff = false) ∧
      (xml = mainXml rt (fetchProducts rt net).2 ∨ xml = generateFallbackSitemap (rt.clock 0)) := by
  have hcount : ∀ (before : List Effect) (xml : String),
      (∀ eff ∈ before, isWrite eff = false) →
      ((before ++ [Effect.write xml]).filter isWrite).length = 1 := by
    intro before xml hb
    rw [List.filter_append, filter_eq_nil_of_all_false _ before hb]
    rfl
  cases hb : begunAtDeadline timing 0 (fetchProducts rt net).1 with
  | none =>
    have hs : (script rt net timing).1 =
        (fetchProducts rt net).1 ++ [Effect.write (mainXml rt (fetchProducts rt net).2)] := by
      rw [script_of_main_first rt net timing hb, main_effects_of_write rt net hmain]
    rw [hs]
    exact ⟨hcount _ _ (fetchProducts_no_write rt net),
      _, _, rfl, fetchProducts_no_write rt net, Or.inl rfl⟩
  | some begun =>
    obtain ⟨_, rest, hrest⟩ := begunAtDeadline_prefix timing _ 0 begun hb
    have hbegun : ∀ eff ∈ begun, isWrite eff = false := by
      intro eff hmem
      apply fetchProducts_no_write rt net
      rw [hrest]
      exact List.mem_append_left _ hmem
    rw [script_of_timer rt net timing begun hb htimer]
    exact ⟨hcount _ _ hbegun, _, _, rfl, hbegun, Or.inr rfl⟩

/-- C23 on an API whose ten pages arrive after four seconds each: the timer
fires, and the run has one write. -/
theorem script_writes_once_witness :
    ((script exampleRuntime (constantNet "FIFTY") fourSeconds).1.filter isWrite).length = 1 :=
  (script_writes_once exampleRuntime (constantNet "FIFTY") fourSeconds rfl rfl).1

/-! ## Responses that are valid JSON but no page -/

/-- A page that is requested and ends without data ends the run with the
error of `fetchProducts`. -/
theorem fetchLoop_without_data (rt : Runtime) (net : Net) (k : Nat)
    (hdata : (retryLoop rt net k 0 .null).2.truthy = false) :
    ∀ (n page : Nat) (tp : JSValue) (products : List JSValue), pageCap - page = n →
      (∃ a url t, Effect.request k a url t ∈ (fetchLoop rt net page tp products).1) →
      (fetchLoop rt net page tp products).2 = .error (.error "Failed to fetch after retries") := by
  intro n
  induction n using Nat.strong_induction_on with
  | _ n ih =>
    intro page tp products hn hmem
    obtain ⟨a, url, t, hmem⟩ := hmem
    rcases fetchLoop_cases rt net page tp products with
      ⟨e, _, h⟩ | ⟨_, _, _, h⟩ | ⟨hcap, _, h⟩ | ⟨hcap, htruthy, tp2, p2, h⟩
    · rw [h] at hmem; simp at hmem
    · rw [h] at hmem; simp at hmem
    · rw [h]
    · rw [h] at hmem ⊢
      simp only [List.mem_append] at hmem
      rcases hmem with hmem | hmem
      · exfalso
        have hk := retryLoop_request_page rt net page k a url t hmem
        subst hk
        rw [hdata] at htruthy
        cases htruthy
      · exact ih (pageCap - (page + 1)) (by omega) (page + 1) tp2 p2 rfl ⟨a, url, t, hmem⟩

/-- C26: when the first request for a page that `fetchProducts` requests
resolves to a falsy value (the body `null`, `false`, `0` or `""` of a 200
response), the loop does not take it for data: the page is requested a second
time, at once (the effects for the page are the two requests, with no delay
between them).  When the second request resolves to a falsy value as well, or
fails, `fetchProducts` throws `Failed to fetch after retries`; when it
resolves to a truthy value, that value is the page. -/
theorem fetchProducts_retries_falsy_response (rt : Runtime) (net : Net) (page : Nat)
    (first : JSValue)
    (hreq : ∃ a url t, Effect.request page a url t ∈ (fetchProducts rt net).1)
    (hfirst : httpGet rt (net page 1) = .ok first) (hfalsy : first.truthy = false) :
    Effect.request page 2 (pageUrl rt page) timeoutMs ∈ (fetchProducts rt net).1 ∧
    (retryLoop rt net page 0 .null).1 =
      [Effect.request page 1 (pageUrl rt page) timeoutMs,
       Effect.request page 2 (pageUrl rt page) timeoutMs] ∧
    (∀ second, httpGet rt (net page 2) = .ok second → second.truthy = false →
      (fetchProducts rt net).2 = .error (.error "Failed to fetch after retries")) ∧
    (∀ e, httpGet rt (net page 2) = .error e →
      (fetchProducts rt net).2 = .error (.error "Failed to fetch after retries")) ∧
    (∀ second, httpGet rt (net page 2) = .ok second → second.truthy = true →
      pageData rt net page = second) := by
  have heff : (retryLoop rt net page 0 .null).1 =
      [Effect.request page 1 (pageUrl rt page) timeoutMs,
       Effect.request page 2 (pageUrl rt page) timeoutMs] := by
    rw [retryLoop_start]
    simp only [hfirst, hfalsy, if_true]
    cases httpGet rt (net page 2) <;> rfl
  obtain ⟨before, after, hblock, _, _, _⟩ := fetchLoop_block rt net page _ 0 (.num 1) [] rfl hreq
  refine ⟨?_, heff, ?_, ?_, ?_⟩
  · rw [show (fetchProducts rt net).1 = before ++ (retryLoop rt net page 0 .null).1 ++ after
      from hblock, heff]
    simp
  · intro second h2 hf2
    apply fetchLoop_without_data rt net page _ _ 0 (.num 1) [] rfl hreq
    rw [retryLoop_start]
    simp only [hfirst, hfalsy, if_true, h2, hf2]
  · intro e h2
    apply fetchLoop_without_data rt net page _ _ 0 (.num 1) [] rfl hreq
    rw [retryLoop_start]
    simp only [hfirst, hfalsy, if_true, h2]
  · intro second h2 ht2
    unfold pageData
    rw [retryLoop_start]
    simp only [hfirst, hfalsy, if_true, h2]

/-- C26 on an API that answers every request with the body `null`: page 0 is
requested twice and the run throws. -/
theorem fetchProducts_retries_falsy_response_witness :
    Effect.request 0 2 (pageUrl looseRuntime 0) timeoutMs ∈
      (fetchProducts looseRuntime (constantNet "NULL")).1 ∧
    (fetchProducts looseRuntime (constantNet "NULL")).2 =
      .error (.error "Failed to fetch after retries") :=
  have h := fetchProducts_retries_falsy_response looseRuntime (constantNet "NULL") 0 .null
    ⟨1, _, _, fetchProducts_requests_page_zero looseRuntime (constantNet "NULL")⟩ rfl rfl
  ⟨h.1, h.2.2.1 .null rfl rfl⟩

/-- C27: a turn of the outer loop for a page whose `data` is truthy is no
failure.  When `data.content` is not an array, the loop goes on to the next
page index with the same `products` and the same `totalPages`.  When
`data.content` is an array, its items are appended, and a `data.totalPages`
that is missing, `0` or falsy otherwise makes the known total 1. -/
theorem fetchLoop_page_without_content_array (rt : Runtime) (net : Net) (page : Nat)
    (tp : JSValue) (products : List JSValue)
    (hlt : pageLt rt page tp = .ok true) (hcap : page < pageCap)
    (htruthy : (pageData rt net page).truthy = true) :
    (∀ content, (pageData rt net page).getProp "content" = .ok content →
      content.isArray = false →
      fetchLoop rt net page tp products =
        ((retryLoop rt net page 0 .null).1 ++ (fetchLoop rt net (page + 1) tp products).1,
         (fetchLoop rt net (page + 1) tp products).2)) ∧
    (∀ items reported, (pageData rt net page).getProp "content" = .ok (.arr items) →
      (pageData rt net page).getProp "totalPages" = .ok reported → reported.truthy = false →
      fetchLoop rt net page tp products =
        ((retryLoop rt net page 0 .null).1 ++
          (fetchLoop rt net (page + 1) (.num 1) (products ++ items)).1,
         (fetchLoop rt net (page + 1) (.num 1) (products ++ items)).2)) ∧
    totalPagesOr1 .undefined = .num 1 ∧ totalPagesOr1 (.num 0) = .num 1 := by
  refine ⟨?_, ?_, rfl, rfl⟩
  · intro content hc hnot
    apply fetchLoop_skip rt net page tp products hlt hcap content htruthy hc
    unfold pageItems
    rw [hnot]
    simp
  · intro items reported hc hr hfalsy
    have h := fetchLoop_page rt net page tp products hlt hcap (.arr items) reported items
      htruthy hc rfl hr
    have htp : totalPagesOr1 reported = .num 1 := by
      unfold totalPagesOr1
      rw [hfalsy]
      rfl
    rw [htp] at h
    exact h

/-- C27 on an API whose every body has `totalPages: 3` and no `content`: the
turn for page 0 adds nothing and leaves the total at 1, so that the loop stops
at page 1 and `fetchProducts` returns the empty list. -/
theorem fetchLoop_page_without_content_array_witness :
    fetchLoop looseRuntime (constantNet "NOCONTENT") 0 (.num 1) [] =
      ((retryLoop looseRuntime (constantNet "NOCONTENT") 0 0 .null).1 ++
        (fetchLoop looseRuntime (constantNet "NOCONTENT") 1 (.num 1) []).1,
       (fetchLoop looseRuntime (constantNet "NOCONTENT") 1 (.num 1) []).2) :=
  (fetchLoop_page_without_content_array looseRuntime (constantNet "NOCONTENT") 0 (.num 1) []
    rfl (by decide) (by
      unfold pageData
      rw [retryLoop_start]
      rfl)).1 .undefined (by
      unfold pageData
      rw [retryLoop_start]
      rfl) rfl

/-! ## `normalizeUrl` -/

namespace Seo

theorem dropTrailingSlashes_last (l : List Char) :
    (dropTrailingSlashes l).getLast? ≠ some '/' := by
  induction l with
  | nil => simp [dropTrailingSlashes]
  | cons c rest ih =>
    unfold dropTrailingSlashes
    cases h : dropTrailingSlashes rest with
    | nil =>
      by_cases hc : c = '/'
      · simp [hc]
      · simp only [hc, if_false, List.getLast?_singleton, ne_eq, Option.some.injEq,
          not_false_eq_true]
    | cons d kept =>
      rw [h] at ih
      simp only [List.getLast?_cons_cons]
      exact ih

theorem dropTrailingSlashes_of_last (l : List Char) (h : l.getLast? ≠ some '/') :
    dropTrailingSlashes l = l := by
  induction l with
  | nil => rfl
  | cons c rest ih =>
    unfold dropTrailingSlashes
    cases rest with
    | nil =>
      have hc : c ≠ '/' := by simpa using h
      simp [dropTrailingSlashes, hc]
    | cons d more =>
      have hrest : (d :: more).getLast? ≠ some '/' := by
        simpa [List.getLast?_cons_cons] using h
      rw [ih hrest]

/-- Dropping the slashes at the end keeps a beginning that does not end with a
slash. -/
theorem dropTrailingSlashes_prefix (p : List Char) (hp : p.getLast? ≠ some '/')
    (hne : p ≠ []) (r : List Char) :
    p.isPrefixOf (dropTrailingSlashes (p ++ r)) = true := by
  induction p with
  | nil => exact absurd rfl hne
  | cons c rest ih =>
    cases rest with
    | nil =>
      have hc : c ≠ '/' := by simpa using hp
      simp only [List.singleton_append]
      unfold dropTrailingSlashes
      cases dropTrailingSlashes r <;> simp [hc, List.isPrefixOf]
    | cons d more =>
      have hrest : (d :: more).getLast? ≠ some '/' := by
        simpa [List.getLast?_cons_cons] using hp
      have := ih hrest (by simp)
      rw [List.cons_append]
      unfold dropTrailingSlashes
      cases hk : dropTrailingSlashes (d :: more ++ r) with
      | nil => rw [hk] at this; simp [List.isPrefixOf] at this
      | cons e kept =>
        rw [hk] at this
        simp only [List.isPrefixOf, beq_self_eq_true, Bool.true_and]
        exact this

theorem makeAbsolute_startsWith_http (url : String) :
    startsWith (makeAbsolute url) "http" = true := by
  unfold makeAbsolute
  by_cases h : startsWith url "http" = true
  · simp only [h, if_true]
  · simp only [h]
    by_cases h2 : startsWith url "/" = true
    · simp only [h2, if_true]
      rfl
    · simp only [h2]
      rfl

/-- The result of `normalizeUrl` starts with `http`. -/
theorem normalizeUrl_startsWith_http (url : String) :
    startsWith (normalizeUrl url) "http" = true := by
  unfold normalizeUrl
  simp only []
  have hpre := makeAbsolute_startsWith_http url
  generalize makeAbsolute url = n at hpre ⊢
  by_cases hcond : n ≠ SITE_URL ∧ n ≠ SITE_URL ++ "/"
  · rw [if_pos hcond]
    obtain ⟨r, hr⟩ := List.isPrefixOf_iff_prefix.mp hpre
    unfold startsWith stripTrailingSlashes
    simp only []
    rw [← hr]
    exact dropTrailingSlashes_prefix _ (by decide) (by decide) r
  · rw [if_neg hcond]
    rfl

/-- The result of `normalizeUrl` ends with a slash only when it is the root
with its slash. -/
theorem normalizeUrl_endsWithSlash (url : String) (h : endsWithSlash (normalizeUrl url) = true) :
    normalizeUrl url = SITE_URL ++ "/" := by
  unfold normalizeUrl at h ⊢
  simp only [] at h ⊢
  generalize makeAbsolute url = n at h ⊢
  by_cases hcond : n ≠ SITE_URL ∧ n ≠ SITE_URL ++ "/"
  · rw [if_pos hcond] at h
    unfold endsWithSlash stripTrailingSlashes at h
    simp only [beq_iff_eq] at h
    exact absurd h (dropTrailingSlashes_last _)
  · rw [if_neg hcond]

theorem normalizeUrl_of_clean (r : String) (hhttp : startsWith r "http" = true)
    (hroot : r ≠ SITE_URL) (hslash : endsWithSlash r = true → r = SITE_URL ++ "/") :
    normalizeUrl r = r := by
  unfold normalizeUrl makeAbsolute
  simp only [hhttp, if_true]
  by_cases h2 : r = SITE_URL ++ "/"
  · simp only [h2, ne_eq, not_true_eq_false, and_false, if_false]
  · simp only [ne_eq, hroot, not_false_eq_true, h2, and_self, if_true]
    unfold stripTrailingSlashes
    have hlast : r.data.getLast? ≠ some '/' := by
      intro hl
      apply h2
      apply hslash
      unfold endsWithSlash
      simp [hl]
    rw [dropTrailingSlashes_of_last _ hlast]

/-- C22, at the failing inputs `'//'` and `'https://samah-store.tech//'`:
`normalizeUrl` returns the bare site root `https://samah-store.tech`, without
the trailing slash that the root is to carry; the test for the root comes
before the slashes are removed.  The other two parts of the statement hold
for every string: the result starts with `http`, and it ends with `/` only
when it is `SITE_URL + '/'`. -/
theorem normalizeUrl_returns_bare_root :
    normalizeUrl "//" = "https://samah-store.tech" ∧
    normalizeUrl "https://samah-store.tech//" = "https://samah-store.tech" ∧
    normalizeUrl "//" = SITE_URL ∧
    normalizeUrl "/" = "https://samah-store.tech/" ∧
    (∀ url, startsWith (normalizeUrl url) "http" = true) ∧
    (∀ url, endsWithSlash (normalizeUrl url) = true → normalizeUrl url = SITE_URL ++ "/") :=
  ⟨by decide, by decide, by decide, by decide, normalizeUrl_startsWith_http,
    normalizeUrl_endsWithSlash⟩

/-- C28, at the failing input `'//'`: `normalizeUrl('//')` is the bare root
`https://samah-store.tech`, and `normalizeUrl` of that is
`https://samah-store.tech/`.  This is the one way in which the function is not
idempotent: a second application changes the result exactly when the first
result is the bare root. -/
theorem normalizeUrl_not_idempotent :
    normalizeUrl "//" = "https://samah-store.tech" ∧
    normalizeUrl (normalizeUrl "//") = "https://samah-store.tech/" ∧
    normalizeUrl (normalizeUrl "//") ≠ normalizeUrl "//" ∧
    (∀ url, normalizeUrl (normalizeUrl url) = normalizeUrl url ↔ normalizeUrl url ≠ SITE_URL) := by
  refine ⟨by decide, by decide, by decide, ?_⟩
  intro url
  constructor
  · intro h hroot
    rw [hroot] at h
    revert h
    decide
  · intro hroot
    exact normalizeUrl_of_clean _ (normalizeUrl_startsWith_http url) hroot
      (normalizeUrl_endsWithSlash url)

end Seo

/-! ## `updatePageMeta` -/

namespace Seo

theorem getAttribute_setAttribute_ne (attrs : List (String × String)) (name value asked : String)
    (h : asked ≠ name) :
    getAttribute (setAttribute attrs name value) asked = getAttribute attrs asked := by
  induction attrs with
  | nil => simp [setAttribute, getAttribute, Ne.symm h]
  | cons kv more ih =>
    obtain ⟨k, v⟩ := kv
    unfold setAttribute
    by_cases hk : k = name
    · subst hk
      simp [getAttribute, Ne.symm h]
    · simp only [hk, if_false]
      unfold getAttribute
      rw [ih]

theorem selects_setAttribute (sel : Selector) (el : Element) (name value : String)
    (h : sel.attr ≠ name) :
    selects sel { el with attrs := setAttribute el.attrs name value } = selects sel el := by
  unfold selects
  simp only [getAttribute_setAttribute_ne _ _ _ _ h]

/-- Setting an attribute that a selector does not look at, on the first
element that matches some selector, leaves the count of the selector as it
is. -/
theorem setOnFirst_count (sel made : Selector) (name value : String) (h : sel.attr ≠ name) :
    ∀ (l changed : List Element), setOnFirst made name value l = some changed →
      (changed.filter (selects sel)).length = (l.filter (selects sel)).length := by
  intro l
  induction l with
  | nil => intro changed hc; simp [setOnFirst] at hc
  | cons el more ih =>
    intro changed hc
    unfold setOnFirst at hc
    by_cases hm : selects made el = true
    · simp only [hm, if_true, Option.some.injEq] at hc
      subst hc
      simp only [List.filter_cons, selects_setAttribute sel el name value h]
      split <;> rfl
    · simp only [hm, Bool.false_eq_true, if_false] at hc
      cases hrec : setOnFirst made name value more with
      | none => rw [hrec] at hc; cases hc
      | some c2 =>
        rw [hrec] at hc
        simp only [Option.some.injEq] at hc
        subst hc
        simp only [List.filter_cons]
        split
        · simp only [List.length_cons, ih c2 hrec]
        · exact ih c2 hrec

theorem setOnFirst_eq_none (made : Selector) (name value : String) :
    ∀ l : List Element, setOnFirst made name value l = none ↔ l.filter (selects made) = [] := by
  intro l
  induction l with
  | nil => simp [setOnFirst]
  | cons el more ih =>
    unfold setOnFirst
    by_cases hm : selects made el = true
    · simp [hm]
    · simp only [hm, Bool.false_eq_true, if_false, List.filter_cons]
      rw [← ih]
      cases setOnFirst made name value more <;> simp

theorem selects_new_element (sel made : Selector) (name value : String)
    (hs : sel.attr ≠ name) (hm : made.attr ≠ name) :
    selects sel { tag := made.tag, attrs := setAttribute [(made.attr, made.value)] name value } =
      newElementSelects sel made := by
  unfold selects newElementSelects
  have hattrs : setAttribute [(made.attr, made.value)] name value =
      [(made.attr, made.value), (name, value)] := by
    simp [setAttribute, hm]
  simp only [hattrs]
  by_cases ha : made.attr = sel.attr
  · simp [getAttribute, ha]
  · simp [getAttribute, ha, Ne.symm hs]

theorem newElementSelects_self (sel : Selector) : newElementSelects sel sel = true := by
  unfold newElementSelects valueMatches
  by_cases h : sel.attr = "rel" <;> simp [h]

/-- What one find-or-create step does to the count of a selector that does
not look at the attribute the step sets: when the step finds an element the
count stays, and when it creates one the count grows by one exactly if the
new element matches. -/
theorem countMatches_findOrCreate (sel made : Selector) (name value : String) (doc : Document)
    (hs : sel.attr ≠ name) (hm : made.attr ≠ name) :
    countMatches sel (findOrCreate made name value doc) =
      if countMatches made doc = 0 ∧ newElementSelects sel made = true
      then countMatches sel doc + 1 else countMatches sel doc := by
  unfold findOrCreate
  cases hh : setOnFirst made name value doc.head with
  | some head =>
    have hcount := setOnFirst_count sel made name value hs doc.head head hh
    have hne : countMatches made doc ≠ 0 := by
      intro h0
      have : doc.head.filter (selects made) = [] := by
        unfold countMatches Document.elements at h0
        rw [List.filter_append, List.length_append] at h0
        exact List.length_eq_zero.mp (by omega)
      rw [← setOnFirst_eq_none made name value] at this
      rw [this] at hh
      cases hh
    simp only [hne, false_and, if_false]
    unfold countMatches Document.elements
    simp only [List.filter_append, List.length_append, hcount]
  | none =>
    cases hr : setOnFirst made name value doc.rest with
    | some rest =>
      have hcount := setOnFirst_count sel made name value hs doc.rest rest hr
      have hne : countMatches made doc ≠ 0 := by
        intro h0
        have : doc.rest.filter (selects made) = [] := by
          unfold countMatches Document.elements at h0
          rw [List.filter_append, List.length_append] at h0
          exact List.length_eq_zero.mp (by omega)
        rw [← setOnFirst_eq_none made name value] at this
        rw [this] at hr
        cases hr
      simp only [hne, false_and, if_false]
      unfold countMatches Document.elements
      simp only [List.filter_append, List.length_append, hcount]
    | none =>
      have h0 : countMatches made doc = 0 := by
        unfold countMatches Document.elements
        rw [List.filter_append, (setOnFirst_eq_none made name value _).mp hh,
          (setOnFirst_eq_none made name value _).mp hr]
        rfl
      simp only [h0, true_and]
      unfold countMatches Document.elements
      simp only [List.filter_append, List.length_append, List.filter_cons, List.filter_nil,
        selects_new_element sel made name value hs hm]
      by_cases hn : newElementSelects sel made = true
      · simp only [hn, if_true, List.length_singleton]
        omega
      · simp only [hn, Bool.false_eq_true, if_false, List.length_nil]
        omega

/-- What a series of find-or-create steps does to the count of a selector,
when every step is for the selector itself or creates elements that do not
match it: a count of 0 becomes 1 as soon as a step is for the selector, and
every other count stays. -/
theorem countMatches_applySteps (sel : Selector) :
    ∀ (steps : List MetaStep) (doc : Document),
      (∀ st ∈ steps, sel.attr ≠ st.name ∧ st.sel.attr ≠ st.name ∧
        (st.sel = sel ∨ newElementSelects sel st.sel = false)) →
      countMatches sel (applySteps steps doc) =
        if (∃ st ∈ steps, st.sel = sel) then max 1 (countMatches sel doc)
        else countMatches sel doc := by
  intro steps
  induction steps with
  | nil => intro doc _; simp [applySteps]
  | cons st more ih =>
    intro doc h
    obtain ⟨hs, hm, hor⟩ := h st (List.mem_cons_self _ _)
    have hrest := ih (findOrCreate st.sel st.name st.value doc)
      (fun x hx => h x (List.mem_cons_of_mem _ hx))
    have hstep := countMatches_findOrCreate sel st.sel st.name st.value doc hs hm
    unfold applySteps
    rw [hrest]
    by_cases heq : st.sel = sel
    · have hex : ∃ x ∈ st :: more, x.sel = sel := ⟨st, List.mem_cons_self _ _, heq⟩
      simp only [hex, if_true]
      rw [heq] at hstep ⊢
      simp only [newElementSelects_self, and_true] at hstep
      rw [hstep]
      by_cases h0 : countMatches sel doc = 0
      · simp only [h0, if_true]
        split <;> simp
      · simp only [h0, if_false]
        split <;> omega
    · have hno : newElementSelects sel st.sel = false := by
        rcases hor with h1 | h1
        · exact absurd h1 heq
        · exact h1
      simp only [hno, Bool.false_eq_true, and_false, if_false] at hstep
      rw [hstep]
      have hiff : (∃ x ∈ st :: more, x.sel = sel) ↔ (∃ x ∈ more, x.sel = sel) := by
        constructor
        · rintro ⟨x, hx, hxs⟩
          rcases List.mem_cons.mp hx with rfl | hx
          · exact absurd hxs heq
          · exact ⟨x, hx, hxs⟩
        · rintro ⟨x, hx, hxs⟩
          exact ⟨x, List.mem_cons_of_mem _ hx, hxs⟩
      simp only [hiff]

theorem updatePageMeta_eq_steps (pathname : String) (args : PageMeta) (doc : Document) :
    updatePageMeta pathname args doc =
      applySteps
        (pageMetaSteps (args.description.getD DEFAULT_DESCRIPTION)
          (if args.noindex.getD false then "noindex, nofollow" else "index, follow")
          (normalizeUrl (args.url.getD pathname))
          (match args.title with
            | some title => if title ≠ "" then title ++ " | " ++ SITE_NAME else SITE_NAME
            | none => SITE_NAME)
          (if startsWith (args.image.getD DEFAULT_IMAGE) "http" then args.image.getD DEFAULT_IMAGE
            else SITE_URL ++ (if startsWith (args.image.getD DEFAULT_IMAGE) "/" then "" else "/") ++
              args.image.getD DEFAULT_IMAGE)
          (args.type.getD "website"))
        { doc with title :=
            match args.title with
            | some title => if title ≠ "" then title ++ " | " ++ SITE_NAME else SITE_NAME
            | none => SITE_NAME } :=
  rfl

set_option maxRecDepth 100000 in
theorem managedTags_apart :
    ∀ sel ∈ managedTags, ∀ made ∈ managedTags,
      made = sel ∨ newElementSelects sel made = false := by
  decide

set_option maxRecDepth 100000 in
theorem managedTags_attrs :
    ∀ sel ∈ managedTags, sel.attr ≠ "content" ∧ sel.attr ≠ "href" := by
  decide

theorem pageMetaSteps_sels (description robots canonicalUrl fullTitle imageUrl type : String) :
    (pageMetaSteps description robots canonicalUrl fullTitle imageUrl type).map (·.sel) =
      managedTags := rfl

theorem pageMetaSteps_names (description robots canonicalUrl fullTitle imageUrl type : String) :
    ∀ st ∈ pageMetaSteps description robots canonicalUrl fullTitle imageUrl type,
      st.name = "content" ∨ st.name = "href" := by
  intro st hst
  simp only [pageMetaSteps, List.mem_cons, List.mem_singleton, List.mem_nil_iff, or_false] at hst
  rcases hst with h | h | h | h | h | h | h | h | h | h | h | h | h | h <;> subst h <;> simp

/-- One call of `updatePageMeta` leaves every managed tag that the document
has, however often, and adds one of every managed tag that it lacks. -/
theorem countMatches_updatePageMeta (pathname : String) (args : PageMeta) (doc : Document)
    (sel : Selector) (hsel : sel ∈ managedTags) :
    countMatches sel (updatePageMeta pathname args doc) = max 1 (countMatches sel doc) := by
  rw [updatePageMeta_eq_steps]
  generalize args.description.getD DEFAULT_DESCRIPTION = description
  generalize (if args.noindex.getD false then "noindex, nofollow" else "index, follow") = robots
  generalize normalizeUrl (args.url.getD pathname) = canonicalUrl
  generalize (match args.title with
    | some title => if title ≠ "" then title ++ " | " ++ SITE_NAME else SITE_NAME
    | none => SITE_NAME) = fullTitle
  generalize (if startsWith (args.image.getD DEFAULT_IMAGE) "http" then
      args.image.getD DEFAULT_IMAGE
    else SITE_URL ++ (if startsWith (args.image.getD DEFAULT_IMAGE) "/" then "" else "/") ++
      args.image.getD DEFAULT_IMAGE) = imageUrl
  generalize args.type.getD "website" = type
  have hsels := pageMetaSteps_sels description robots canonicalUrl fullTitle imageUrl type
  have hmem : ∀ st ∈ pageMetaSteps description robots canonicalUrl fullTitle imageUrl type,
      st.sel ∈ managedTags := by
    intro st hst
    rw [← hsels]
    exact List.mem_map_of_mem _ hst
  have hsteps := countMatches_applySteps sel
    (pageMetaSteps description robots canonicalUrl fullTitle imageUrl type)
    { doc with title := fullTitle } (by
      intro st hst
      have hname := pageMetaSteps_names description robots canonicalUrl fullTitle imageUrl type
        st hst
      have h1 := managedTags_attrs sel hsel
      have h2 := managedTags_attrs st.sel (hmem st hst)
      refine ⟨?_, ?_, managedTags_apart sel hsel st.sel (hmem st hst)⟩
      · rcases hname with h | h <;> rw [h]
        · exact h1.1
        · exact h1.2
      · rcases hname with h | h <;> rw [h]
        · exact h2.1
        · exact h2.2)
  have hex : ∃ st ∈ pageMetaSteps description robots canonicalUrl fullTitle imageUrl type,
      st.sel = sel := by
    rw [← hsels] at hsel
    obtain ⟨st, hst, hs⟩ := List.mem_map.mp hsel
    exact ⟨st, hst, hs⟩
  rw [hsteps]
  simp only [hex, if_true]
  rfl

/-- A find-or-create step leaves the count of a selector outside the head as
it is. -/
theorem restCount_findOrCreate (sel made : Selector) (name value : String) (doc : Document)
    (hs : sel.attr ≠ name) :
    ((findOrCreate made name value doc).rest.filter (selects sel)).length =
      (doc.rest.filter (selects sel)).length := by
  unfold findOrCreate
  cases hh : setOnFirst made name value doc.head with
  | some head => rfl
  | none =>
    cases hr : setOnFirst made name value doc.rest with
    | some rest => exact setOnFirst_count sel made name value hs doc.rest rest hr
    | none => rfl

theorem restCount_applySteps (sel : Selector) :
    ∀ (steps : List MetaStep) (doc : Document), (∀ st ∈ steps, sel.attr ≠ st.name) →
      ((applySteps steps doc).rest.filter (selects sel)).length =
        (doc.rest.filter (selects sel)).length := by
  intro steps
  induction steps with
  | nil => intro doc _; rfl
  | cons st more ih =>
    intro doc h
    unfold applySteps
    rw [ih _ (fun x hx => h x (List.mem_cons_of_mem _ hx)),
      restCount_findOrCreate sel st.sel st.name st.value doc (h st (List.mem_cons_self _ _))]

theorem restCount_updatePageMeta (pathname : String) (args : PageMeta) (doc : Document)
    (sel : Selector) (hsel : sel ∈ managedTags) :
    ((updatePageMeta pathname args doc).rest.filter (selects sel)).length =
      (doc.rest.filter (selects sel)).length := by
  rw [updatePageMeta_eq_steps]
  apply restCount_applySteps
  intro st hst
  have h1 := managedTags_attrs sel hsel
  rcases pageMetaSteps_names _ _ _ _ _ _ st hst with h | h <;> rw [h]
  · exact h1.1
  · exact h1.2

theorem restCount_updatePageMetaAll (pathname : String) (sel : Selector)
    (hsel : sel ∈ managedTags) :
    ∀ (calls : List PageMeta) (doc : Document),
      ((updatePageMetaAll pathname calls doc).rest.filter (selects sel)).length =
        (doc.rest.filter (selects sel)).length := by
  intro calls
  induction calls with
  | nil => intro doc; rfl
  | cons args more ih =>
    intro doc
    have hstep : updatePageMetaAll pathname (args :: more) doc =
        updatePageMetaAll pathname more (updatePageMeta pathname args doc) := rfl
    rw [hstep, ih (updatePageMeta pathname args doc),
      restCount_updatePageMeta pathname args doc sel hsel]

theorem countMatches_updatePageMetaAll (pathname : String) :
    ∀ (calls : List PageMeta) (doc : Document),
      ∀ sel ∈ managedTags, countMatches sel (updatePageMetaAll pathname calls doc) =
        if calls.isEmpty then countMatches sel doc else max 1 (countMatches sel doc) := by
  intro calls
  induction calls with
  | nil => intro d sel _; rfl
  | cons args more ih =>
    intro d sel hsel
    have hstep : updatePageMetaAll pathname (args :: more) d =
        updatePageMetaAll pathname more (updatePageMeta pathname args d) := rfl
    rw [hstep, ih (updatePageMeta pathname args d) sel hsel,
      countMatches_updatePageMeta pathname args d sel hsel]
    cases more with
    | nil => simp
    | cons a b => simp

/-- C21: `updatePageMeta` never creates a duplicate.  For every document in
which each managed tag occurs at most once, counted as
`document.querySelectorAll` counts it, after every series of calls, with
whatever arguments, each managed tag still occurs at most once, and after a
series of one call or more each occurs exactly once; when no managed tag
stands outside `document.head`, this is the count in the head. -/
theorem updatePageMeta_never_duplicates (pathname : String) (doc : Document)
    (calls : List PageMeta)
    (hdoc : ∀ sel ∈ managedTags, countMatches sel doc ≤ 1) :
    (∀ sel ∈ managedTags, countMatches sel (updatePageMetaAll pathname calls doc) ≤ 1) ∧
    (calls ≠ [] →
      ∀ sel ∈ managedTags, countMatches sel (updatePageMetaAll pathname calls doc) = 1) ∧
    (calls ≠ [] → (∀ sel ∈ managedTags, doc.rest.filter (selects sel) = []) →
      ∀ sel ∈ managedTags,
        ((updatePageMetaAll pathname calls doc).head.filter (selects sel)).length = 1) := by
  have hall := countMatches_updatePageMetaAll pathname calls doc
  have hempty : calls ≠ [] → calls.isEmpty = false := by
    intro h
    cases calls with
    | nil => exact absurd rfl h
    | cons a b => rfl
  refine ⟨?_, ?_, ?_⟩
  · intro sel hsel
    rw [hall sel hsel]
    have := hdoc sel hsel
    split <;> omega
  · intro hne sel hsel
    rw [hall sel hsel, hempty hne]
    have := hdoc sel hsel
    simp only [Bool.false_eq_true, if_false]
    omega
  · intro hne hrest sel hsel
    have hcount : countMatches sel (updatePageMetaAll pathname calls doc) = 1 := by
      rw [hall sel hsel, hempty hne]
      have := hdoc sel hsel
      simp only [Bool.false_eq_true, if_false]
      omega
    have hr := restCount_updatePageMetaAll pathname sel hsel calls doc
    rw [hrest sel hsel] at hr
    unfold countMatches Document.elements at hcount
    rw [List.filter_append, List.length_append, hr] at hcount
    simpa using hcount

set_option maxRecDepth 100000 in
/-- C21 on an empty document and two calls: each managed tag occurs once
afterwards. -/
theorem updatePageMeta_never_duplicates_witness :
    (∀ sel ∈ managedTags, countMatches sel emptyDocument ≤ 1) ∧
    ∀ sel ∈ managedTags,
      countMatches sel (updatePageMetaAll "/" [plainMeta, cartMeta] emptyDocument) = 1 :=
  ⟨by decide,
   (updatePageMeta_never_duplicates "/" emptyDocument [plainMeta, cartMeta]
      (by decide)).2.1 (by simp)⟩

end Seo

/-! ## `getProductSchema` -/

namespace Seo

theorem toJSString_of_isPrimitive (v : JSValue) (h : v.isPrimitive = true) :
    ∃ s, v.toJSString = .ok s := by
  cases v with
  | undefined => exact ⟨_, rfl⟩
  | null => exact ⟨_, rfl⟩
  | bool b => cases b <;> exact ⟨_, rfl⟩
  | num n => exact ⟨_, rfl⟩
  | str s => exact ⟨_, rfl⟩
  | arr items => cases h
  | obj fields => cases h

theorem priceShownOf_of_isPrimitive (host : SchemaHost) (v : JSValue)
    (h : v.isPrimitive = true) : ∃ s, priceShownOf host v = .ok s := by
  unfold priceShownOf
  by_cases ht : v.truthy = true
  · rw [if_pos ht]
    cases v with
    | arr items => cases h
    | obj fields => cases h
    | undefined => exact ⟨_, rfl⟩
    | null => exact ⟨_, rfl⟩
    | bool b => exact ⟨_, rfl⟩
    | num n => exact ⟨_, rfl⟩
    | str s => exact ⟨_, rfl⟩
  · rw [if_neg ht]
    exact ⟨_, rfl⟩

/-- The value of `offers.availability` in a schema that `getProductSchema`
returns follows `inStock`. -/
theorem availabilityOf_getProductSchema (host : SchemaHost) (product selected schema : JSValue)
    (h : getProductSchema host product selected = .ok schema) :
    ∃ variant inStock, effectiveVariant product selected = .ok variant ∧
      inStockOf host variant = .ok inStock ∧
      availabilityOf schema =
        .str (if inStock then "https://schema.org/InStock" else "https://schema.org/OutOfStock") := by
  unfold getProductSchema at h
  cases hv : effectiveVariant product selected with
  | error e => rw [hv] at h; cases h
  | ok variant =>
    rw [hv] at h
    simp only [] at h
    split at h
    · cases h
    · split at h
      · cases h
      · rename_i inStock hin
        refine ⟨variant, inStock, rfl, hin, ?_⟩
        split at h
        · cases h
        · split at h
          · cases h
          · split at h
            · cases h
            · split at h
              · cases h
              · split at h
                · split at h
                  · cases h
                  · split at h
                    · cases h
                    · split at h
                      · cases h
                      · split at h
                        · cases h
                        · simp only [Except.ok.injEq] at h
                          rw [← h]
                          rfl
                · cases h

theorem isVariant_cases (v : JSValue) (h : isVariant v = true) :
    ∃ fields, v = .obj fields ∧ (JSValue.lookupField "price" fields).isPrimitive = true ∧
      (JSValue.lookupField "stockQuantity" fields = .undefined ∨
        JSValue.lookupField "stockQuantity" fields = .null ∨
        ∃ n, JSValue.lookupField "stockQuantity" fields = .num n) := by
  cases v with
  | obj fields =>
    refine ⟨fields, rfl, ?_⟩
    simp only [isVariant, Bool.and_eq_true] at h
    refine ⟨h.2, ?_⟩
    cases hq : JSValue.lookupField "stockQuantity" fields with
    | undefined => exact Or.inl rfl
    | null => exact Or.inr (Or.inl rfl)
    | num n => exact Or.inr (Or.inr ⟨n, rfl⟩)
    | bool b => rw [hq] at h; simp at h
    | str s => rw [hq] at h; simp at h
    | arr items => rw [hq] at h; simp at h
    | obj f => rw [hq] at h; simp at h
  | undefined => cases h
  | null => cases h
  | bool b => cases h
  | num n => cases h
  | str s => cases h
  | arr items => cases h

/-- The effective variant of a product of the API: a variant, or a value that
is `null` or `undefined`. -/
theorem effectiveVariant_of_isProduct (product selected : JSValue)
    (hp : isProduct product = true)
    (hs : isNullish selected = true ∨ isVariant selected = true) :
    ∃ variant, effectiveVariant product selected = .ok variant ∧
      (isNullish variant = true ∨ isVariant variant = true) ∧
      (isVariant selected = true → variant = selected) ∧
      (isNullish selected = true → variant = firstVariant product) := by
  cases product with
  | obj fields =>
    rcases hs with hs | hs
    · have hfalsy : selected.truthy = false := by
        cases selected <;> simp [isNullish] at hs <;> rfl
      have hnot : isVariant selected = false := by
        cases selected <;> simp [isNullish] at hs <;> rfl
      have heff : effectiveVariant (.obj fields) selected = .ok (firstVariant (.obj fields)) := by
        unfold effectiveVariant firstVariant
        simp only [hfalsy, Bool.false_eq_true, if_false, JSValue.getProp, optionalProp]
        split <;> rfl
      simp only [isProduct, Bool.and_eq_true] at hp
      obtain ⟨_, hvar⟩ := hp
      refine ⟨_, heff, ?_, ?_, fun _ => rfl⟩
      · unfold firstVariant
        simp only [optionalProp]
        cases hq : JSValue.lookupField "variants" fields with
        | undefined => exact Or.inl rfl
        | null => exact Or.inl rfl
        | arr items =>
          cases items with
          | nil => exact Or.inl rfl
          | cons v rest =>
            rw [hq] at hvar
            exact Or.inr hvar
        | bool b => rw [hq] at hvar; simp at hvar
        | num n => rw [hq] at hvar; simp at hvar
        | str s => rw [hq] at hvar; simp at hvar
        | obj f => rw [hq] at hvar; simp at hvar
      · intro h; rw [hnot] at h; cases h
    · obtain ⟨f, rfl, _, _⟩ := isVariant_cases selected hs
      refine ⟨_, rfl, Or.inr hs, fun _ => rfl, ?_⟩
      intro h
      cases h
  | undefined => cases hp
  | null => cases hp
  | bool b => cases hp
  | num n => cases hp
  | str s => cases hp
  | arr items => cases hp

/-- Whether a value of the API is in stock: no variant, or a variant whose
`stockQuantity` is a number above 0. -/
theorem inStockOf_of_variant (host : SchemaHost) (variant : JSValue)
    (h : isNullish variant = true ∨ isVariant variant = true) :
    ∃ inStock, inStockOf host variant = .ok inStock ∧
      (inStock = true ↔
        (variant.truthy = false ∨ ∃ n, optionalProp variant "stockQuantity" = .num n ∧ 0 < n)) := by
  rcases h with h | h
  · have hfalsy : variant.truthy = false := by
      cases variant <;> simp [isNullish] at h <;> rfl
    refine ⟨true, ?_, ?_⟩
    · unfold inStockOf
      simp only [hfalsy, Bool.false_eq_true, if_false]
    · simp [hfalsy]
  · obtain ⟨f, rfl, _, hq⟩ := isVariant_cases variant h
    have htruthy : (JSValue.obj f).truthy = true := rfl
    unfold inStockOf
    simp only [htruthy, if_true, optionalProp]
    rcases hq with hq | hq | ⟨n, hq⟩
    · rw [hq]
      exact ⟨false, rfl, by simp⟩
    · rw [hq]
      exact ⟨false, rfl, by simp⟩
    · rw [hq]
      refine ⟨decide (0 < n), rfl, ?_⟩
      simp

theorem optionalProp_price_isPrimitive (variant : JSValue)
    (h : isNullish variant = true ∨ isVariant variant = true) :
    (optionalProp variant "price").isPrimitive = true := by
  rcases h with h | h
  · cases variant <;> simp [isNullish] at h <;> rfl
  · obtain ⟨f, rfl, hprice, _⟩ := isVariant_cases variant h
    exact hprice

/-- The image of a product of the API is a string. -/
theorem image_of_isProduct (fields : List (String × JSValue))
    (hp : isProduct (.obj fields) = true) :
    ∃ s,
      (if (optionalProp
            (if isNullish (JSValue.lookupField "images" fields) then JSValue.undefined
              else firstItem (JSValue.lookupField "images" fields)) "url").truthy
        then optionalProp
            (if isNullish (JSValue.lookupField "images" fields) then JSValue.undefined
              else firstItem (JSValue.lookupField "images" fields)) "url"
        else JSValue.str DEFAULT_IMAGE) = .str s := by
  simp only [isProduct, Bool.and_eq_true] at hp
  obtain ⟨⟨_, himg⟩, _⟩ := hp
  cases hq : JSValue.lookupField "images" fields with
  | undefined => exact ⟨_, rfl⟩
  | null => exact ⟨_, rfl⟩
  | bool b => rw [hq] at himg; simp at himg
  | num n => rw [hq] at himg; simp at himg
  | str s => rw [hq] at himg; simp at himg
  | obj f => rw [hq] at himg; simp at himg
  | arr items =>
    rw [hq] at himg
    cases items with
    | nil => exact ⟨_, rfl⟩
    | cons first rest =>
      cases first with
      | obj image =>
        simp only [] at himg
        simp only [isNullish, Bool.false_eq_true, if_false, firstItem, optionalProp]
        cases hu : JSValue.lookupField "url" image with
        | str s =>
          by_cases hs : (JSValue.str s).truthy = true
          · rw [if_pos hs]; exact ⟨_, rfl⟩
          · rw [if_neg hs]; exact ⟨_, rfl⟩
        | undefined => exact ⟨_, rfl⟩
        | null => exact ⟨_, rfl⟩
        | bool b => rw [hu] at himg; simp at himg
        | num n => rw [hu] at himg; simp at himg
        | arr l => rw [hu] at himg; simp at himg
        | obj f => rw [hu] at himg; simp at himg
      | undefined => simp at himg
      | null => simp at himg
      | bool b => simp at himg
      | num n => simp at himg
      | str s => simp at himg
      | arr l => simp at himg

/-- For a product of the API `getProductSchema` returns. -/
theorem getProductSchema_returns (host : SchemaHost) (product selected variant : JSValue)
    (inStock : Bool) (hp : isProduct product = true)
    (hv : effectiveVariant product selected = .ok variant)
    (hkind : isNullish variant = true ∨ isVariant variant = true)
    (hin : inStockOf host variant = .ok inStock) :
    ∃ schema, getProductSchema host product selected = .ok schema := by
  cases product with
  | obj fields =>
    obtain ⟨imageText, himage⟩ := image_of_isProduct fields hp
    have hfields := hp
    simp only [isProduct, Bool.and_eq_true] at hfields
    obtain ⟨⟨⟨⟨hname, hslug⟩, hmin⟩, _⟩, _⟩ := hfields
    have hprice : ∃ price,
        (if (optionalProp variant "price").truthy then
            (Except.ok (optionalProp variant "price") : Except JSError JSValue)
          else Except.ok (JSValue.lookupField "minVariantPrice" fields)) = .ok price ∧
        price.isPrimitive = true := by
      by_cases ht : (optionalProp variant "price").truthy = true
      · rw [if_pos ht]
        exact ⟨_, rfl, optionalProp_price_isPrimitive variant hkind⟩
      · rw [if_neg ht]
        exact ⟨_, rfl, hmin⟩
    obtain ⟨price, hprice, hprim⟩ := hprice
    obtain ⟨priceShown, hshown⟩ := priceShownOf_of_isPrimitive host price hprim
    obtain ⟨slugText, hslugText⟩ := toJSString_of_isPrimitive _ hslug
    have hdesc : ∃ description,
        descriptionOf (JSValue.lookupField "description" fields)
          (JSValue.lookupField "name" fields) = .ok description := by
      unfold descriptionOf
      by_cases hd : (JSValue.lookupField "description" fields).truthy = true
      · rw [if_pos hd]; exact ⟨_, rfl⟩
      · rw [if_neg hd]
        obtain ⟨text, htext⟩ := toJSString_of_isPrimitive _ hname
        rw [htext]
        exact ⟨_, rfl⟩
    obtain ⟨description, hdesc⟩ := hdesc
    unfold getProductSchema
    simp only [hv, hprice, hin, JSValue.getProp, himage, hdesc, hslugText, hshown]
    exact ⟨_, rfl⟩
  | undefined => cases hp
  | null => cases hp
  | bool b => cases hp
  | num n => cases hp
  | str s => cases hp
  | arr items => cases hp

/-- C29: for a product and a selected variant as the API gives them,
`getProductSchema` returns a schema, and its `offers.availability` is
`https://schema.org/InStock` exactly when there is no effective variant or
the `stockQuantity` of the effective variant is a number greater than 0, and
`https://schema.org/OutOfStock` otherwise.  The effective variant is
`selectedVariant` when one is given, else the first variant of the product,
`product.variants && product.variants[0]`. -/
theorem getProductSchema_availability (host : SchemaHost) (product selected : JSValue)
    (hp : isProduct product = true)
    (hs : isNullish selected = true ∨ isVariant selected = true) :
    ∃ schema variant, getProductSchema host product selected = .ok schema ∧
      effectiveVariant product selected = .ok variant ∧
      (isVariant selected = true → variant = selected) ∧
      (isNullish selected = true → variant = firstVariant product) ∧
      (availabilityOf schema = .str "https://schema.org/InStock" ↔
        (variant.truthy = false ∨
          ∃ n, optionalProp variant "stockQuantity" = .num n ∧ 0 < n)) ∧
      (availabilityOf schema ≠ .str "https://schema.org/InStock" →
        availabilityOf schema = .str "https://schema.org/OutOfStock") := by
  obtain ⟨variant, hv, hkind, hsel, hfirst⟩ := effectiveVariant_of_isProduct product selected hp hs
  obtain ⟨inStock, hin, hiff⟩ := inStockOf_of_variant host variant hkind
  have hreturns : ∃ schema, getProductSchema host product selected = .ok schema :=
    getProductSchema_returns host product selected variant inStock hp hv hkind hin
  obtain ⟨schema, hschema⟩ := hreturns
  obtain ⟨variant2, inStock2, hv2, hin2, hav⟩ :=
    availabilityOf_getProductSchema host product selected schema hschema
  rw [hv] at hv2
  cases hv2
  rw [hin] at hin2
  cases hin2
  refine ⟨schema, variant, hschema, hv, hsel, hfirst, ?_, ?_⟩
  · rw [hav, ← hiff]
    cases inStock <;> simp
  · rw [hav]
    cases inStock <;> simp

end Seo


namespace Seo

/-- C29 on the example product with its second variant selected. -/
theorem getProductSchema_availability_witness :
    isProduct exampleProduct = true ∧ isVariant exampleVariant = true ∧
    ∃ schema variant, getProductSchema exampleSchemaHost exampleProduct exampleVariant = .ok schema ∧
      effectiveVariant exampleProduct exampleVariant = .ok variant ∧
      (isVariant exampleVariant = true → variant = exampleVariant) ∧
      (isNullish exampleVariant = true → variant = firstVariant exampleProduct) ∧
      (availabilityOf schema = .str "https://schema.org/InStock" ↔
        (variant.truthy = false ∨
          ∃ n, optionalProp variant "stockQuantity" = .num n ∧ 0 < n)) ∧
      (availabilityOf schema ≠ .str "https://schema.org/InStock" →
        availabilityOf schema = .str "https://schema.org/OutOfStock") :=
  ⟨rfl, rfl,
    getProductSchema_availability exampleSchemaHost exampleProduct exampleVariant rfl (Or.inr rfl)⟩

/-- The example product without a selected variant is out of stock, as its
first variant is; with its second variant selected it is in stock; and a
product without variants is in stock. -/
theorem getProductSchema_examples :
    (match getProductSchema exampleSchemaHost exampleProduct .null with
      | .ok schema => availabilityOf schema
      | .error _ => .undefined) = .str "https://schema.org/OutOfStock" ∧
    (match getProductSchema exampleSchemaHost exampleProduct exampleVariant with
      | .ok schema => availabilityOf schema
      | .error _ => .undefined) = .str "https://schema.org/InStock" ∧
    (match getProductSchema exampleSchemaHost (.obj [("name", .str "Scarf"), ("slug", .str "scarf")])
        .null with
      | .ok schema => availabilityOf schema
      | .error _ => .undefined) = .str "https://schema.org/InStock" :=
  ⟨rfl, rfl, rfl⟩

end Seo

/-! ## `getColorHex` -/

theorem ownProperty_mem (key value : String) (map : List (String × String))
    (h : ownProperty key map = some value) : value ∈ map.map Prod.snd := by
  induction map with
  | nil => simp [ownProperty] at h
  | cons kv rest ih =>
    obtain ⟨k, v⟩ := kv
    unfold ownProperty at h
    by_cases hk : k = key
    · simp only [hk, if_true, Option.some.injEq] at h
      simp [h]
    · simp only [hk, if_false] at h
      simp [ih h]

theorem readProperty_cases (map : List (String × String)) (key : String) :
    (∃ value, readProperty map key = .own value ∧ value ∈ map.map Prod.snd) ∨
    (readProperty map key = .inherited key ∧ key ∈ objectPrototypeKeys) ∨
    readProperty map key = .undefined := by
  unfold readProperty
  cases h : ownProperty key map with
  | some v => exact Or.inl ⟨v, rfl, ownProperty_mem key v map h⟩
  | none =>
    by_cases hk : key ∈ objectPrototypeKeys
    · simp only [hk, if_true]
      exact Or.inr (Or.inl ⟨trivial, trivial⟩)
    · simp only [hk, if_false]
      exact Or.inr (Or.inr trivial)

theorem readProperty_not_inherited (map : List (String × String)) (key : String)
    (hk : key ∉ objectPrototypeKeys) :
    (∃ value, readProperty map key = .own value ∧ value ∈ map.map Prod.snd) ∨
    readProperty map key = .undefined := by
  rcases readProperty_cases map key with h | ⟨_, h⟩ | h
  · exact Or.inl h
  · exact absurd h hk
  · exact Or.inr h

theorem value?_not_inherited (map : List (String × String)) (key : String)
    (hk : key ∉ objectPrototypeKeys) :
    (readProperty map key).value? = none ∨
    ∃ value ∈ map.map Prod.snd, (readProperty map key).value? = some (.hex value) := by
  rcases readProperty_not_inherited map key hk with ⟨v, hv, hm⟩ | hu
  · rw [hv]
    unfold Looked.value?
    by_cases h : (v != "") = true
    · exact Or.inr ⟨v, hm, if_pos h⟩
    · exact Or.inl (if_neg h)
  · rw [hu]
    exact Or.inl rfl

/-- Two reads that find nothing in `Object.prototype` give `null` or a value
of the map. -/
theorem firstTruthy_listed (map : List (String × String)) (a b : String)
    (ha : a ∉ objectPrototypeKeys) (hb : b ∉ objectPrototypeKeys) :
    firstTruthy (readProperty map a) (readProperty map b) = .null ∨
    ∃ value ∈ map.map Prod.snd,
      firstTruthy (readProperty map a) (readProperty map b) = .hex value := by
  unfold firstTruthy
  rcases value?_not_inherited map a ha with h1 | ⟨va, hma, h1⟩
  · rcases value?_not_inherited map b hb with h2 | ⟨vb, hmb, h2⟩
    · rw [h1, h2]; exact Or.inl rfl
    · rw [h1, h2]; exact Or.inr ⟨vb, hmb, rfl⟩
  · rw [h1]; exact Or.inr ⟨va, hma, rfl⟩

set_option maxRecDepth 100000 in
/-- C24, at the failing input `'constructor'`: both copies of `getColorHex`
read `COLOR_HEX_MAP['constructor']`, which an object literal inherits from
`Object.prototype`, and return that function: neither `null` nor a hex colour
of the map.  `ColorSwatch` then calls `hex.toLowerCase()` on it and throws a
`TypeError` instead of rendering nothing.  For a non-string and for the empty
string both copies return `null`, and for a string that is not the name of a
property of `Object.prototype`, as it is and lowercased and trimmed, they
return `null` or a value of the map. -/
theorem getColorHex_returns_inherited_property (host : StringHost) :
    OrderDetailsPage.getColorHex host (.str "constructor") = .inherited "constructor" ∧
    AdminOrders.getColorHex host (.str "constructor") = .inherited "constructor" ∧
    OrderDetailsPage.ColorSwatch host (.str "constructor") = .error .typeError ∧
    AdminOrders.ColorSwatch host (.str "constructor") = .error .typeError ∧
    "constructor" ∉ OrderDetailsPage.COLOR_HEX_MAP.map Prod.fst ∧
    (∀ v, (∀ s, v ≠ .str s) →
      OrderDetailsPage.getColorHex host v = .null ∧ AdminOrders.getColorHex host v = .null) ∧
    (OrderDetailsPage.getColorHex host (.str "") = .null ∧
      AdminOrders.getColorHex host (.str "") = .null) ∧
    (∀ name, name ∉ objectPrototypeKeys →
      host.trim (host.toLowerCase name) ∉ objectPrototypeKeys →
      (OrderDetailsPage.getColorHex host (.str name) = .null ∨
        ∃ value ∈ OrderDetailsPage.COLOR_HEX_MAP.map Prod.snd,
          OrderDetailsPage.getColorHex host (.str name) = .hex value) ∧
      (AdminOrders.getColorHex host (.str name) = .null ∨
        ∃ value ∈ AdminOrders.COLOR_HEX_MAP.map Prod.snd,
          AdminOrders.getColorHex host (.str name) = .hex value)) := by
  have h1 : readProperty OrderDetailsPage.COLOR_HEX_MAP "constructor" =
      .inherited "constructor" := by decide
  have h2 : readProperty AdminOrders.COLOR_HEX_MAP "constructor" =
      .inherited "constructor" := by decide
  have e1 : OrderDetailsPage.getColorHex host (.str "constructor") = .inherited "constructor" := by
    unfold OrderDetailsPage.getColorHex
    simp only [h1]
    rfl
  have e2 : AdminOrders.getColorHex host (.str "constructor") = .inherited "constructor" := by
    unfold AdminOrders.getColorHex
    simp only [h2]
    rfl
  refine ⟨e1, e2, ?_, ?_, by decide, ?_, ⟨rfl, rfl⟩, ?_⟩
  · unfold OrderDetailsPage.ColorSwatch
    rw [e1]
    rfl
  · unfold AdminOrders.ColorSwatch
    rw [e2]
    rfl
  · intro v hv
    cases v with
    | str s => exact absurd rfl (hv s)
    | undefined => exact ⟨rfl, rfl⟩
    | null => exact ⟨rfl, rfl⟩
    | bool b => exact ⟨rfl, rfl⟩
    | num n => exact ⟨rfl, rfl⟩
    | arr items => exact ⟨rfl, rfl⟩
    | obj fields => exact ⟨rfl, rfl⟩
  · intro name hn hnorm
    by_cases he : name = ""
    · subst he
      exact ⟨Or.inl rfl, Or.inl rfl⟩
    · constructor
      · unfold OrderDetailsPage.getColorHex
        simp only [he, if_false]
        exact firstTruthy_listed _ _ _ hn hnorm
      · unfold AdminOrders.getColorHex
        simp only [he, if_false]
        exact firstTruthy_listed _ _ _ hn hnorm

/-! ## `handleStatusUpdate` -/

namespace AdminOrders

theorem removeOrder_mem (orderId : JSValue) (prev : List Order) (o : Order) :
    o ∈ removeOrder orderId prev ↔ o ∈ prev ∧ o.id.strictEq orderId = false := by
  unfold removeOrder
  simp [List.mem_filter]

theorem applyFilter_removeOrder (statusFilter : String) (orderId : JSValue)
    (orders : List Order) :
    applyFilter statusFilter (removeOrder orderId orders) =
      removeOrder orderId (applyFilter statusFilter orders) := by
  unfold applyFilter removeOrder
  split
  · rfl
  · split
    · rw [List.filter_comm]
    · split
      · rw [List.filter_comm]
      · rw [List.filter_comm]

/-- C25: after a call of `handleStatusUpdate` for a primitive `orderId` (a
number, a string) that the user confirms and whose API call succeeds, with
`FAILED_PICKUP`, or with `DELIVERED` on the
active tab, `orders` and `filteredOrders` are what they were without the
orders whose `id` is strictly equal to `orderId`: an order is in the new list
exactly when it was in the old one and has another `id`, and the orders that
stay keep their order (the new list is a sublist of the old one).  The effect
that then recomputes `filteredOrders` from `orders` gives the same list, when
`filteredOrders` was the filtered `orders` before.  With any other status the
call removes nothing: it leaves `filteredOrders` alone and sets `orders` only
to what `loadOrders` has fetched. -/
theorem handleStatusUpdate_removes_order (run : UpdateRun) (orderId : JSValue)
    (newStatus : String) (s : OrdersState) (_hid : orderId.isPrimitive = true)
    (hconfirmed : run.confirmed = true) (hupdated : run.updated = true) :
    ((newStatus = "FAILED_PICKUP" ∨ (newStatus = "DELIVERED" ∧ s.deliveredTab = false)) →
      (handleStatusUpdate run orderId newStatus s).orders =
        s.orders.filter (fun o => !(o.id.strictEq orderId)) ∧
      (handleStatusUpdate run orderId newStatus s).filteredOrders =
        s.filteredOrders.filter (fun o => !(o.id.strictEq orderId)) ∧
      (∀ o, o ∈ (handleStatusUpdate run orderId newStatus s).orders ↔
        o ∈ s.orders ∧ o.id.strictEq orderId = false) ∧
      (∀ o, o ∈ (handleStatusUpdate run orderId newStatus s).filteredOrders ↔
        o ∈ s.filteredOrders ∧ o.id.strictEq orderId = false) ∧
      ((handleStatusUpdate run orderId newStatus s).orders).Sublist s.orders ∧
      ((handleStatusUpdate run orderId newStatus s).filteredOrders).Sublist s.filteredOrders ∧
      (s.filteredOrders = applyFilter s.statusFilter s.orders →
        (afterEffect (handleStatusUpdate run orderId newStatus s)).filteredOrders =
          (handleStatusUpdate run orderId newStatus s).filteredOrders)) ∧
    (¬ (newStatus = "FAILED_PICKUP" ∨ (newStatus = "DELIVERED" ∧ s.deliveredTab = false)) →
      (handleStatusUpdate run orderId newStatus s).filteredOrders = s.filteredOrders ∧
      ((handleStatusUpdate run orderId newStatus s).orders = s.orders ∨
        run.reloaded = some (handleStatusUpdate run orderId newStatus s).orders)) := by
  constructor
  · intro hstatus
    have hs : handleStatusUpdate run orderId newStatus s =
        { s with orders := removeOrder orderId s.orders,
                 filteredOrders := removeOrder orderId s.filteredOrders } := by
      unfold handleStatusUpdate
      simp only [hconfirmed, hupdated, Bool.not_true, Bool.false_eq_true, if_false]
      rw [if_pos hstatus]
    rw [hs]
    refine ⟨rfl, rfl, fun o => removeOrder_mem orderId s.orders o,
      fun o => removeOrder_mem orderId s.filteredOrders o, List.filter_sublist _,
      List.filter_sublist _, ?_⟩
    intro hrest
    unfold afterEffect
    simp only []
    rw [applyFilter_removeOrder, ← hrest]
  · intro hstatus
    have hs : handleStatusUpdate run orderId newStatus s =
        match run.reloaded with
        | some content => { s with orders := content }
        | none => s := by
      unfold handleStatusUpdate
      simp only [hconfirmed, hupdated, Bool.not_true, Bool.false_eq_true, if_false]
      rw [if_neg hstatus]
    rw [hs]
    cases hr : run.reloaded with
    | none => exact ⟨rfl, Or.inl rfl⟩
    | some content => exact ⟨rfl, Or.inr rfl⟩

/-- C25 on a list with the ids 1, 2 and 1 and the call for the order 1 with
`FAILED_PICKUP`: the order 2 is what stays. -/
theorem handleStatusUpdate_removes_order_witness :
    (handleStatusUpdate successfulRun (.num 1) "FAILED_PICKUP"
      { orders := threeOrders, filteredOrders := threeOrders, statusFilter := "",
        deliveredTab := false }).orders =
      [[("id", .num 2), ("status", .str "NEW")]] :=
  ((handleStatusUpdate_removes_order successfulRun (.num 1) "FAILED_PICKUP"
    { orders := threeOrders, filteredOrders := threeOrders, statusFilter := "",
      deliveredTab := false } rfl rfl rfl).1 (Or.inl rfl)).1

end AdminOrders

/-! ## `validateForm` -/

namespace AdminUsers

theorem dropWhile_eq_nil_iff (p : Char → Bool) (l : List Char) :
    l.dropWhile p = [] ↔ ∀ c ∈ l, p c = true := by
  induction l with
  | nil => simp
  | cons c rest ih =>
    unfold List.dropWhile
    by_cases h : p c = true
    · simp [h, ih]
    · simp [h]

/-- The trimmed text is empty exactly when the text is all white space. -/
theorem trim_eq_empty_iff (s : String) :
    trim s = "" ↔ ∀ c ∈ s.data, isWhiteSpace c = true := by
  unfold trim
  constructor
  · intro h
    have h1 : ((s.data.dropWhile isWhiteSpace).reverse.dropWhile isWhiteSpace).reverse = [] := by
      have := congrArg String.data h
      simpa using this
    have h2 : (s.data.dropWhile isWhiteSpace).reverse.dropWhile isWhiteSpace = [] := by
      simpa using h1
    by_contra hne
    push_neg at hne
    have hd : s.data.dropWhile isWhiteSpace ≠ [] := by
      intro hd
      rw [dropWhile_eq_nil_iff] at hd
      obtain ⟨c, hc, hw⟩ := hne
      exact hw (hd c hc)
    obtain ⟨c, rest, hcr⟩ := List.exists_cons_of_ne_nil hd
    have hcw : isWhiteSpace c = false := by
      have := List.head_dropWhile_not isWhiteSpace s.data hd
      simp only [hcr, List.head_cons] at this
      simpa using this
    rw [dropWhile_eq_nil_iff] at h2
    have := h2 c (by rw [hcr]; simp)
    rw [hcw] at this
    cases this
  · intro h
    have hd : s.data.dropWhile isWhiteSpace = [] := (dropWhile_eq_nil_iff _ _).mpr h
    rw [hd]
    rfl

theorem length_eq_zero_iff (s : String) : length s = 0 ↔ s = "" := by
  unfold length
  constructor
  · intro h
    cases hs : s.data with
    | nil => exact String.ext hs
    | cons c rest =>
      rw [hs] at h
      simp only [List.foldr_cons] at h
      split at h <;> omega
  · intro h
    subst h
    rfl

theorem isDead_not_nullable (r : Regex) (h : r.isDead = true) : r.nullable = false := by
  induction r with
  | nothing => rfl
  | empty => cases h
  | cls p => rfl
  | seq a b iha ihb =>
    simp only [Regex.isDead, Bool.or_eq_true] at h
    simp only [Regex.nullable, Bool.and_eq_false_iff]
    rcases h with h | h
    · exact Or.inl (iha h)
    · exact Or.inr (ihb h)
  | alt a b iha ihb =>
    simp only [Regex.isDead, Bool.and_eq_true] at h
    simp only [Regex.nullable, Bool.or_eq_false_iff]
    exact ⟨iha h.1, ihb h.2⟩
  | star a _ => cases h

theorem isDead_deriv (c : Char) (r : Regex) (h : r.isDead = true) :
    (r.deriv c).isDead = true := by
  induction r with
  | nothing => rfl
  | empty => cases h
  | cls p => cases h
  | seq a b iha ihb =>
    simp only [Regex.isDead, Bool.or_eq_true] at h
    unfold Regex.deriv
    rcases h with h | h
    · rw [isDead_not_nullable a h]
      simp [Regex.isDead, iha h]
    · by_cases hn : a.nullable = true
      · simp [hn, Regex.isDead, h, ihb h]
      · simp [hn, Regex.isDead, h]
  | alt a b iha ihb =>
    simp only [Regex.isDead, Bool.and_eq_true] at h
    simp [Regex.deriv, Regex.isDead, iha h.1, ihb h.2]
  | star a _ => cases h

theorem isDead_test (r : Regex) (l : List Char) (h : r.isDead = true) : r.test l = false := by
  induction l generalizing r with
  | nil => exact isDead_not_nullable r h
  | cons c rest ih =>
    unfold Regex.test
    exact ih _ (isDead_deriv c r h)

/-- A text that the pattern matches begins with a character that is neither
white space nor `@`. -/
theorem emailPattern_first (l : List Char) (h : emailPattern.test l = true) :
    ∃ c rest, l = c :: rest ∧ notSpaceNorAt c = true := by
  cases l with
  | nil => exact absurd h (by decide)
  | cons c rest =>
    refine ⟨c, rest, rfl, ?_⟩
    by_contra hc
    have hdead : (emailPattern.deriv c).isDead = true := by
      simp [emailPattern, Regex.plus, Regex.deriv, Regex.nullable, Regex.isDead, hc]
    have := isDead_test _ rest hdead
    unfold Regex.test at h
    rw [this] at h
    cases h

theorem emailPattern_not_blank (email : String) (h : emailPattern.test email.data = true) :
    trim email ≠ "" := by
  intro ht
  rw [trim_eq_empty_iff] at ht
  obtain ⟨c, rest, hl, hc⟩ := emailPattern_first _ h
  have := ht c (by rw [hl]; simp)
  simp [notSpaceNorAt, this] at hc

/-- The errors of the form are those of the three fields, one after the
other. -/
theorem validateForm_errors (formData : FormData) :
    (validateForm formData).1 =
      (if trim formData.username = "" then [("username", "اسم المستخدم مطلوب")]
        else if length formData.username < 3 then
          [("username", "اسم المستخدم يجب أن يكون 3 أحرف على الأقل")]
        else []) ++
      ((if trim formData.email = "" then [("email", "البريد الإلكتروني مطلوب")]
        else if !(emailPattern.test formData.email.data) then
          [("email", "البريد الإلكتروني غير صالح")]
        else []) ++
      (if formData.password = "" then [("password", "كلمة المرور مطلوبة")]
        else if length formData.password < 8 then
          [("password", "كلمة المرور يجب أن تكون 8 أحرف على الأقل")]
        else [])) := by
  unfold validateForm
  simp only [List.nil_append]
  split <;> split <;> split <;> (try split) <;> (try split) <;> (try split) <;> rfl

/-- C30: `validateForm` returns `true` exactly when the `errors` it stores
have no property, and that is exactly when the username has a character that
is no white space and a length of 3 or more, the email matches
`^[^\s@]+@[^\s@]+\.[^\s@]+$`, and the password has a length of 8 or more. -/
theorem validateForm_true_iff (formData : FormData) :
    ((validateForm formData).2 = true ↔ (validateForm formData).1 = []) ∧
    ((validateForm formData).1 = [] ↔
      ((∃ c ∈ formData.username.data, isWhiteSpace c = false) ∧ 3 ≤ length formData.username) ∧
      emailPattern.test formData.email.data = true ∧
      8 ≤ length formData.password) := by
  constructor
  · unfold validateForm
    simp only [beq_iff_eq, List.length_eq_zero]
  · have hu : trim formData.username = "" ↔
        ¬ ∃ c ∈ formData.username.data, isWhiteSpace c = false := by
      rw [trim_eq_empty_iff]
      push_neg
      constructor
      · intro h c hc; simpa using h c hc
      · intro h c hc; simpa using h c hc
    have hp : formData.password = "" → length formData.password < 8 := by
      intro h
      rw [(length_eq_zero_iff _).mpr h]
      decide
    have hA : (if trim formData.username = "" then [("username", "اسم المستخدم مطلوب")]
        else if length formData.username < 3 then
          [("username", "اسم المستخدم يجب أن يكون 3 أحرف على الأقل")]
        else ([] : List (String × String))) = [] ↔
        (∃ c ∈ formData.username.data, isWhiteSpace c = false) ∧
          3 ≤ length formData.username := by
      by_cases h1 : trim formData.username = ""
      · rw [if_pos h1]
        have := hu.mp h1
        constructor
        · intro h; cases h
        · rintro ⟨hex, _⟩; exact absurd hex this
      · rw [if_neg h1]
        have hex : ∃ c ∈ formData.username.data, isWhiteSpace c = false := by
          by_contra hno
          exact h1 (hu.mpr hno)
        by_cases h2 : length formData.username < 3
        · rw [if_pos h2]
          constructor
          · intro h; cases h
          · rintro ⟨_, h3⟩; omega
        · rw [if_neg h2]
          exact ⟨fun _ => ⟨hex, by omega⟩, fun _ => rfl⟩
    have hB : (if trim formData.email = "" then [("email", "البريد الإلكتروني مطلوب")]
        else if !(emailPattern.test formData.email.data) then
          [("email", "البريد الإلكتروني غير صالح")]
        else ([] : List (String × String))) = [] ↔
        emailPattern.test formData.email.data = true := by
      by_cases h4 : emailPattern.test formData.email.data = true
      · rw [if_neg (emailPattern_not_blank formData.email h4)]
        simp [h4]
      · have h4f : emailPattern.test formData.email.data = false := by simpa using h4
        by_cases h5 : trim formData.email = ""
        · rw [if_pos h5]
          simp [h4f]
        · rw [if_neg h5]
          simp [h4f]
    have hC : (if formData.password = "" then [("password", "كلمة المرور مطلوبة")]
        else if length formData.password < 8 then
          [("password", "كلمة المرور يجب أن تكون 8 أحرف على الأقل")]
        else ([] : List (String × String))) = [] ↔ 8 ≤ length formData.password := by
      by_cases h6 : formData.password = ""
      · rw [if_pos h6]
        have := hp h6
        constructor
        · intro h; cases h
        · intro h8; omega
      · rw [if_neg h6]
        by_cases h7 : length formData.password < 8
        · rw [if_pos h7]
          constructor
          · intro h; cases h
          · intro h8; omega
        · rw [if_neg h7]
          exact ⟨fun _ => by omega, fun _ => rfl⟩
    rw [validateForm_errors, List.append_eq_nil, List.append_eq_nil, hA, hB, hC]

set_option maxRecDepth 100000 in
/-- C30 on three forms: a valid one, one whose email has no dot after the
`@`, and one whose password has seven characters. -/
theorem validateForm_examples :
    (validateForm { username := "samah", email := "a@b.co", password := "12345678" }).2 = true ∧
    (validateForm { username := "samah", email := "a@b", password := "12345678" }).2 = false ∧
    (validateForm { username := "samah", email := "a@b.co", password := "1234567" }).2 = false ∧
    (validateForm { username := "   ", email := "a@b.co", password := "12345678" }).2 = false := by
  decide

end AdminUsers


/-! ## Pages without a `content` array, when every request succeeds -/

theorem fetchProducts_countOnly :
    fetchProducts countOnlyRuntime (constantNet "FIFTYONLY") =
      ([Effect.request 0 1 (pageUrl countOnlyRuntime 0) timeoutMs], .ok []) := by
  have hretry : retryLoop countOnlyRuntime (constantNet "FIFTYONLY") 0 0 .null =
      ([Effect.request 0 1 (pageUrl countOnlyRuntime 0) timeoutMs],
        .obj [("totalPages", .num 50)]) := by
    rw [retryLoop_start]
    rfl
  unfold fetchProducts
  rw [fetchLoop_skip countOnlyRuntime (constantNet "FIFTYONLY") 0 (.num 1) [] rfl (by decide)
    .undefined (by rw [hretry]; rfl) (by rw [hretry]; rfl) rfl, hretry]
  rw [fetchLoop_stop countOnlyRuntime (constantNet "FIFTYONLY") 1 (.num 1) [] false rfl (by simp)]
  rfl

/-- C10 fails as stated: the API answers every request with status 200 and
the JSON object `{totalPages: 50}`, which has no `content`.  No request
fails and every answer reports `totalPages: 50`, yet `fetchProducts` requests
page 0 alone and returns the empty list: the loop reads `totalPages` only from
a page with a `content` array, so it stops after one page and not after ten. -/
theorem fetchProducts_stops_before_cap :
    (∀ page attempt,
      requestFails countOnlyRuntime (constantNet "FIFTYONLY" page attempt) = false) ∧
    (∀ page attempt, ∃ data,
      httpGet countOnlyRuntime (constantNet "FIFTYONLY" page attempt) = .ok data ∧
      data.getProp "totalPages" = .ok (.num 50)) ∧
    fetchProducts countOnlyRuntime (constantNet "FIFTYONLY") =
      ([Effect.request 0 1 "https://samah-store.tech/api/products?page=0&size=100" 5000],
       .ok []) ∧
    (fetchProducts countOnlyRuntime (constantNet "FIFTYONLY")).1.length = 1 ∧
    (fetchProducts countOnlyRuntime (constantNet "FIFTYONLY")).1 ≠
      pageRequests countOnlyRuntime 0 10 :=
  ⟨fun _ _ => rfl, fun _ _ => ⟨_, rfl, rfl⟩, fetchProducts_countOnly,
   by rw [fetchProducts_countOnly]; rfl,
   by
    rw [fetchProducts_countOnly]
    intro h
    have := congrArg List.length h
    simp [pageRequests] at this⟩

/-- C11 fails as stated: the API answers every request with status 200 and
the JSON object `{totalPages: 3}`, which has no `content`.  No request fails
and every page reports the same `totalPages` 3, yet the requests of
`fetchProducts` are the one for page 0 and not those for the pages 0, 1 and
2. -/
theorem fetchProducts_requests_one_page_of_three :
    (∀ page attempt,
      requestFails looseRuntime (constantNet "NOCONTENT" page attempt) = false) ∧
    (∀ page attempt, ∃ data,
      httpGet looseRuntime (constantNet "NOCONTENT" page attempt) = .ok data ∧
      data.getProp "totalPages" = .ok (.num 3)) ∧
    (fetchProducts looseRuntime (constantNet "NOCONTENT")).1 =
      [Effect.request 0 1 "https://samah-store.tech/api/products?page=0&size=100" 5000] ∧
    (fetchProducts looseRuntime (constantNet "NOCONTENT")).1 ≠
      (List.range (min 3 10)).map (fun n =>
        Effect.request n 1
          (looseRuntime.apiBaseUrl ++ "/api/products?page=" ++ toString n ++ "&size=100") 5000) :=
  ⟨fun _ _ => rfl, fun _ _ => ⟨_, rfl, rfl⟩,
   by rw [fetchProducts_page_without_content]; rfl,
   by
    rw [fetchProducts_page_without_content]
    intro h
    have := congrArg List.length h
    simp at this⟩

/-! ## Printing a number -/

set_option maxRecDepth 100000 in
/-- What a template literal prints for some integers: the digits in full up
to 21 of them, with the zeros that the shortest decimal brings, and the
exponent form from `1e+21` on. -/
theorem numberToString_examples :
    numberToString 42 = "42" ∧ numberToString (-17) = "-17" ∧
    numberToString 9223372036854775808 = "9223372036854776000" ∧
    numberToString 1000000000000000000000 = "1e+21" ∧
    numberToString 1180591620717411303424 = "1.1805916207174113e+21" ∧
    (JSValue.num 100000000000000000000000).toJSString = .ok "1e+23" := by
  decide

end SamahStore
